import Mathlib

/-!
# DHT22Gen3_RK: acquisition state machine, pulse decoder and checksum

A shallow embedding of `src/DHT22Gen3_RK.h` and `src/DHT22Gen3_RK.cpp`.

Conventions of the embedding

* `uint8_t` is `Fin 256`, `uint16_t` is `Fin 65536`; arithmetic on them is done on the
  underlying naturals with the truncation written out (`% 256`).
* `unsigned long` (32 bits on the nRF52 target) is a natural number below `2 ^ 32`;
  subtraction of two clock readings is `(a + 2 ^ 32 - b) % 2 ^ 32`.
* `int` is `Int`. The `int` variables of the program (`tries`, `count`, `pair`) stay far
  below `2 ^ 31` on every path, so no wrap-around is modelled for them.
* A `std::function<void(DHTSample)>` is an optional callable identifier; invoking it is
  recorded as an `Effect.completion` in the trace returned by the operation.  `loop` and
  `callCompletion` describe the object for callables that do not touch it.  `loopIn` and
  `callCompletionIn` take the bodies of the callables as functions on the driver object
  and run the body at the place of the invocation, on the object as it is at that moment;
  `loopIn_of_completion` relates the two.
* Calls into the platform (GPIO, I2S peripheral) are recorded as effects; what the platform
  answers during one call of `loop()` is the `Hal` argument.
* A `float` or `double` value is the rational number it denotes.  Every operation that
  rounds in the source rounds here: `toFloat` and `toDouble` are IEEE 754 round-to-nearest,
  ties-to-even, to 24 and 53 significand bits.  The exponent range is not limited (the
  values that occur are 0 or have a magnitude between `2 ^ -4` and `2 ^ 13`, normal numbers
  of both formats), and `-0.0` is the rational 0.  Conversions that are exact for every
  argument (an 8-bit or 16-bit integer to `float`, a `float` to `double`) are written
  without a rounding; `toFloat_natCast` and `toFloat_toInt8` prove the first two exact.
-/

namespace DHT22Gen3RK

/-! ## Data model (`DHT22Gen3_RK.h`) -/

/-- Result codes of a `getSample()` request (`DHTSample::SampleResult`). -/
inductive SampleResult where
  | SUCCESS
  | ERROR
  | TOO_MANY_RETRIES
  | BUSY
deriving DecidableEq, Repr

/-- The two concrete subclasses of `DHTSensorType`; the virtual functions dispatch on it. -/
inductive SensorKind where
  | DHT11
  | DHT22
deriving DecidableEq, Repr

/-- A 32-bit `unsigned long` (the type of `millis()` and of the stored times). -/
abbrev U32 := Fin 4294967296

/-- Class `DHTSensorType`: the subclass tag and the two configuration fields
(`name` is a display string only and is left out). -/
structure DHTSensorType where
  kind : SensorKind
  minSamplePeriodMs : U32
  oneBitThreshold : Int
deriving DecidableEq, Repr

/-- The pre-allocated `DHT22Gen3::sensorTypeDHT11`, constructed with `("DHT11", 1000, 25)`. -/
def sensorTypeDHT11 : DHTSensorType := ⟨SensorKind.DHT11, 1000, 25⟩

/-- The pre-allocated `DHT22Gen3::sensorTypeDHT22`, constructed with `("DHT22", 2000, 25)`. -/
def sensorTypeDHT22 : DHTSensorType := ⟨SensorKind.DHT22, 2000, 25⟩

/-- The array `uint8_t bytes[5]`. -/
abbrev Bytes := Fin 5 → Fin 256

/-- Class `DHTSample` with its member initialisers
(`sampleResult = ERROR`, `sensorType = 0`, `bytes = {0}`, `tries = 0`). -/
structure DHTSample where
  sampleResult : SampleResult := SampleResult.ERROR
  sensorType : Option DHTSensorType := none
  bytes : Bytes := fun _ => 0
  tries : Int := 0
deriving DecidableEq

namespace DHTSample

/-- `DHTSample::clear()`.  The statement `bytes[5] = {0};` stores a zero in the element one
past the end of the five-element array (a padding byte in front of `tries` on the 32-bit
target), so the five bytes keep their values. -/
def clear (s : DHTSample) : DHTSample :=
  { s with sampleResult := SampleResult.ERROR, tries := 0 }

/-- `DHTSample::isValidChecksum()`: the four bytes are promoted to `int`, added, and the sum
is truncated to `uint8_t` before the comparison with `bytes[4]`. -/
def isValidChecksum (s : DHTSample) : Bool :=
  let sum : Nat := ((s.bytes 0).val + (s.bytes 1).val + (s.bytes 2).val + (s.bytes 3).val) % 256
  decide (sum = (s.bytes 4).val)

/-- `DHTSample::getTries()`. -/
def getTries (s : DHTSample) : Int := s.tries

/-- `DHTSample::getSampleResult()`. -/
def getSampleResult (s : DHTSample) : SampleResult := s.sampleResult

/-- `DHTSample::withBusy()`. -/
def withBusy (s : DHTSample) : DHTSample := { s with sampleResult := SampleResult.BUSY }

/-- `DHTSample::isSuccess()`. -/
def isSuccess (s : DHTSample) : Bool := decide (s.sampleResult = SampleResult.SUCCESS)

/-- `DHTSample::isBusy()`. -/
def isBusy (s : DHTSample) : Bool := decide (s.sampleResult = SampleResult.BUSY)

/-- `DHTSample::isError()`. -/
def isError (s : DHTSample) : Bool := decide (s.sampleResult = SampleResult.ERROR)

/-- `DHTSample::isTooManyRetries()`. -/
def isTooManyRetries (s : DHTSample) : Bool :=
  decide (s.sampleResult = SampleResult.TOO_MANY_RETRIES)

end DHTSample

/-! ## Sensor type decoders -/

/-- `DHTSample::operator[](index)`. -/
def DHTSample.get (s : DHTSample) (index : Fin 5) : Fin 256 := s.bytes index

/-- Rounding of a rational to the nearest integer, ties to the even one. -/
def roundHalfEven (t : ℚ) : Int :=
  if t - ⌊t⌋ < 1 / 2 then ⌊t⌋
  else if 1 / 2 < t - ⌊t⌋ then ⌊t⌋ + 1
  else if ⌊t⌋ % 2 = 0 then ⌊t⌋ else ⌊t⌋ + 1

/-- IEEE 754 round-to-nearest, ties-to-even, to a binary format with `p` significand bits:
with `2 ^ e ≤ |x| < 2 ^ (e + 1)` the result is the multiple of `2 ^ (e - (p - 1))` nearest
to `x`.  The exponent range is not limited. -/
def roundNearestEven (p : Nat) (x : ℚ) : ℚ :=
  if x = 0 then 0
  else
    (if x < 0 then -1 else 1)
      * ((roundHalfEven (|x| / (2 : ℚ) ^ (Int.log 2 |x| - ((p : Int) - 1))) : Int) : ℚ)
      * (2 : ℚ) ^ (Int.log 2 |x| - ((p : Int) - 1))

/-- Rounding to `float` (binary32, 24 significand bits). -/
def toFloat (x : ℚ) : ℚ := roundNearestEven 24 x

/-- Rounding to `double` (binary64, 53 significand bits). -/
def toDouble (x : ℚ) : ℚ := roundNearestEven 53 x

/-- The literal `0.1`, of type `double`. -/
def doubleTenth : ℚ := toDouble (1 / 10)

/-- `static float combineBytes(uint8_t highByte, uint8_t lowByte)`: the value
`(((uint16_t)highByte) << 8) | lowByte` converted to `float`, which is exact for a 16-bit
value. -/
def combineBytes (highByte lowByte : Fin 256) : ℚ :=
  (((highByte.val <<< 8) ||| lowByte.val : Nat) : ℚ)

/-- The conversion `(int8_t) x` of a `uint8_t`: the value is kept modulo 256 in the range
`-128 .. 127`. -/
def toInt8 (x : Fin 256) : Int :=
  if x.val < 128 then (x.val : Int) else (x.val : Int) - 256

/-- A value of type `int` passed for a `uint8_t` parameter. -/
def toUInt8 (x : Nat) : Fin 256 := ⟨x % 256, Nat.mod_lt _ (by decide)⟩

/-- `DHTSensorTypeDHT11::getTempC(sample)`. -/
def DHTSensorTypeDHT11.getTempC (sample : DHTSample) : ℚ :=
  ((toInt8 (sample.get 2) : Int) : ℚ)

/-- `DHTSensorTypeDHT11::getHumidity(sample)`. -/
def DHTSensorTypeDHT11.getHumidity (sample : DHTSample) : ℚ :=
  ((toInt8 (sample.get 0) : Int) : ℚ)

/-- `DHTSensorTypeDHT22::getTempC(sample)`: the `float` operand is promoted to `double`,
the product with the `double` literal `0.1` is rounded to `double`, and the `return`
converts it to `float`. -/
def DHTSensorTypeDHT22.getTempC (sample : DHTSample) : ℚ :=
  toFloat (toDouble
    ((if (sample.get 2).val &&& 0x80 ≠ 0 then
        -combineBytes (toUInt8 ((sample.get 2).val &&& 0x7F)) (sample.get 3)
      else combineBytes (sample.get 2) (sample.get 3)) * doubleTenth))

/-- `DHTSensorTypeDHT22::getHumidity(sample)`: a `double` product converted to `float`, as
in `getTempC`. -/
def DHTSensorTypeDHT22.getHumidity (sample : DHTSample) : ℚ :=
  toFloat (toDouble (combineBytes (sample.get 0) (sample.get 1) * doubleTenth))

/-- The virtual function `DHTSensorType::getTempC`, dispatched on the subclass. -/
def DHTSensorType.getTempC (t : DHTSensorType) (sample : DHTSample) : ℚ :=
  match t.kind with
  | SensorKind.DHT11 => DHTSensorTypeDHT11.getTempC sample
  | SensorKind.DHT22 => DHTSensorTypeDHT22.getTempC sample

/-- The virtual function `DHTSensorType::getHumidity`, dispatched on the subclass. -/
def DHTSensorType.getHumidity (t : DHTSensorType) (sample : DHTSample) : ℚ :=
  match t.kind with
  | SensorKind.DHT11 => DHTSensorTypeDHT11.getHumidity sample
  | SensorKind.DHT22 => DHTSensorTypeDHT22.getHumidity sample

/-- `DHTSample::getTempC()`: `sensorType->getTempC(*this)`; there is no value when the
pointer is null. -/
def DHTSample.getTempC (s : DHTSample) : Option ℚ :=
  s.sensorType.map (fun t => t.getTempC s)

/-- `DHTSample::getHumidity()`: `sensorType->getHumidity(*this)`; there is no value when
the pointer is null. -/
def DHTSample.getHumidity (s : DHTSample) : Option ℚ :=
  s.sensorType.map (fun t => t.getHumidity s)

/-! ## Pulse decoder (the `// Decode samples` block of `DHT22Gen3::loop()`) -/

/-- `NUM_SAMPLES`: number of 16-bit words in `sampleBuffer`. -/
def NUM_SAMPLES : Nat := 180

/-- The array `uint16_t sampleBuffer[NUM_SAMPLES]`, filled by the I2S peripheral. -/
abbrev SampleBuffer := Fin NUM_SAMPLES → Fin 65536

/-- The local variables of the decode loop together with `result.bytes`. -/
structure DecodeState where
  prev : Bool
  count : Int
  pair : Int
  bytes : Bytes
deriving DecidableEq

/-- The expression `((value & (1 << bit)) != 0)`. -/
def bitValue (value : Fin 65536) (bit : Nat) : Bool :=
  (value.val &&& (1 <<< bit)) != 0

/-- The statement `result.bytes[byteIndex] |= 1 << (7 - bitIndex);` (the result of the `int`
operation is stored back into a `uint8_t`). -/
def orBit (bytes : Bytes) (byteIndex bitIndex : Int) : Bytes :=
  fun j =>
    if (j.val : Int) = byteIndex then
      ⟨((bytes j).val ||| (1 <<< (7 - bitIndex).toNat)) % 256, Nat.mod_lt _ (by decide)⟩
    else bytes j

/-- Body of the inner `for` loop for one bit of the capture. -/
def decodeBit (oneBitThreshold : Int) (st : DecodeState) (bv : Bool) : DecodeState :=
  if bv = st.prev then
    { st with count := st.count + 1 }
  else
    let st1 : DecodeState :=
      if st.prev = true then
        let st2 : DecodeState :=
          if 0 ≤ st.pair ∧ st.pair < 40 then
            let b : Bool := decide (st.count > oneBitThreshold)
            if b = true then
              let byteIndex := Int.tdiv st.pair 8
              let bitIndex := Int.tmod st.pair 8
              { st with bytes := orBit st.bytes byteIndex bitIndex }
            else st
          else st
        { st2 with pair := st2.pair + 1 }
      else st
    { st1 with count := 1, prev := bv }

/-- The values taken by `bit` in `for(int bit = 15; bit >= 0; bit--)`. -/
def bitOrder : List Nat := [15, 14, 13, 12, 11, 10, 9, 8, 7, 6, 5, 4, 3, 2, 1, 0]

/-- The inner `for` loop: the sixteen bits of one word, most significant first. -/
def decodeWord (oneBitThreshold : Int) (st : DecodeState) (value : Fin 65536) : DecodeState :=
  bitOrder.foldl (fun st bit => decodeBit oneBitThreshold st (bitValue value bit)) st

/-- The decode loop, `for(size_t ii = 0; ii < NUM_SAMPLES; ii++)`, started with
`prev = true`, `count = 0`, `pair = -2` on the given contents of `result.bytes`. -/
def decodeSamples (oneBitThreshold : Int) (sampleBuffer : SampleBuffer) (bytes : Bytes) :
    DecodeState :=
  (List.finRange NUM_SAMPLES).foldl
    (fun st ii => decodeWord oneBitThreshold st (sampleBuffer ii))
    { prev := true, count := 0, pair := -2, bytes := bytes }

/-! ## State machine (`class DHT22Gen3`) -/

/-- `DHT22Gen3::State`. -/
inductive State where
  | IDLE_STATE
  | START_STATE
  | SEND_START_STATE
  | SAMPLING_STATE
deriving DecidableEq, Repr

/-- A `pin_t`. -/
abbrev Pin := Nat

/-- Name of a callable stored in a `std::function<void(DHTSample)>`. -/
abbrev CompletionId := Nat

/-- Unsigned 32-bit subtraction `a - b`. -/
def sub32 (a b : U32) : Nat := (a.val + (4294967296 - b.val)) % 4294967296

/-- Second argument of `pinMode`. -/
inductive PinMode where
  | INPUT
  | OUTPUT
deriving DecidableEq, Repr

/-- Calls that leave the object: GPIO, the I2S driver and the completion callback.
`digitalWrite` carries `true` for `HIGH` and `false` for `LOW`; `i2sInit` carries the pins
given as `sdin`, `sck` and `lrck`.  `Log.info` calls are diagnostic and not recorded. -/
inductive Effect where
  | pinMode (pin : Pin) (mode : PinMode)
  | digitalWrite (pin : Pin) (level : Bool)
  | i2sInit (sdin sck lrck : Pin)
  | i2sStart
  | i2sStop
  | i2sUninit
  | completion (id : CompletionId) (sample : DHTSample)
deriving DecidableEq

/-- What the platform answers during one call of `loop()`: `millis k` is the value returned
by the `k`-th call of `millis()` made during the call (counted from 0), `i2sInitOk` and
`i2sStartOk` tell whether `nrfx_i2s_init` and `nrfx_i2s_start` return `NRFX_SUCCESS`, and
`sampleBuffer` is the content of the capture buffer. -/
structure Hal where
  millis : Nat → U32
  i2sInitOk : Bool
  i2sStartOk : Bool
  sampleBuffer : SampleBuffer

/-- The members of `class DHT22Gen3` with their initialisers, together with the file-scope
counter `buffersRequested` of `DHT22Gen3_RK.cpp` (there is one driver object per device).
An interrupt is not interleaved with a member function: `buffersRequested` has one value
during a call of `loop()`. -/
structure DHT22Gen3 where
  unusedPin1 : Pin
  unusedPin2 : Pin
  dhtPin : Pin := 0
  sensorType : DHTSensorType := sensorTypeDHT22
  lastRequestTime : U32 := 0
  stateTime : U32 := 0
  maxTries : Int := 4
  state : State := State.IDLE_STATE
  result : DHTSample := {}
  completion : Option CompletionId := none
  buffersRequested : Int := 0
deriving DecidableEq

namespace DHT22Gen3

/-- `DHT22Gen3::canGetSample()`. -/
def canGetSample (m : DHT22Gen3) : Bool := decide (m.state = State.IDLE_STATE)

/-- `DHT22Gen3::getLastResult()`. -/
def getLastResult (m : DHT22Gen3) : DHTSample := m.result

/-- `DHT22Gen3::withMaxTries(int tries)`. -/
def withMaxTries (m : DHT22Gen3) (tries : Int) : DHT22Gen3 := { m with maxTries := tries }

/-- The statement `if (completion) { completion(sample); }`. -/
def invoke (completion : Option CompletionId) (sample : DHTSample) : List Effect :=
  match completion with
  | some c => [Effect.completion c sample]
  | none => []

/-- `DHT22Gen3::callCompletion(sampleResult)`. -/
def callCompletion (m : DHT22Gen3) (sampleResult : SampleResult) : DHT22Gen3 × List Effect :=
  let m1 : DHT22Gen3 := { m with result := { m.result with sampleResult := sampleResult } }
  let m2 : DHT22Gen3 := { m1 with state := State.IDLE_STATE }
  (m2, invoke m2.completion m2.result)

/-- `DHT22Gen3::getSample(dhtPin, completion, sensorType)`. -/
def getSample (m : DHT22Gen3) (dhtPin : Pin) (completion : Option CompletionId)
    (sensorType : DHTSensorType) : DHT22Gen3 × List Effect :=
  if m.state ≠ State.IDLE_STATE then
    let tempResult : DHTSample := DHTSample.withBusy {}
    (m, invoke completion tempResult)
  else
    ({ m with
        dhtPin := dhtPin
        completion := completion
        sensorType := sensorType
        result := { m.result with tries := 0, sensorType := some sensorType }
        state := State.START_STATE }, [])

/-- The interrupt callback `dataHandler(p_released, status)`; the flag says whether
`status == NRFX_I2S_STATUS_NEXT_BUFFERS_NEEDED`. -/
def dataHandler (m : DHT22Gen3) (nextBuffersNeeded : Bool) : DHT22Gen3 × List Effect :=
  if nextBuffersNeeded = true then
    let m1 : DHT22Gen3 := { m with buffersRequested := m.buffersRequested + 1 }
    if m1.buffersRequested ≥ 2 then (m1, [Effect.i2sStop]) else (m1, [])
  else (m, [])

/-- `case State::START_STATE` after the minimum-interval test: clear the result, drive the
line low and enter `SEND_START_STATE`; `now` is the value of `stateTime = millis()`. -/
def startAttempt (m : DHT22Gen3) (now : U32) : DHT22Gen3 × List Effect :=
  let m1 : DHT22Gen3 := { m with result := m.result.clear }
  ({ m1 with stateTime := now, state := State.SEND_START_STATE },
   [Effect.pinMode m.unusedPin1 PinMode.OUTPUT,
    Effect.pinMode m.unusedPin2 PinMode.OUTPUT,
    Effect.pinMode m.dhtPin PinMode.OUTPUT,
    Effect.digitalWrite m.dhtPin false])

/-- The end of `case State::SAMPLING_STATE`, reached after a framing or checksum failure:
`if (result.tries >= maxTries) { callCompletion(TOO_MANY_RETRIES); return; }` and otherwise
`stateTime = millis(); state = State::START_STATE;`. -/
def retryOrGiveUp (m : DHT22Gen3) (now : U32) : DHT22Gen3 × List Effect :=
  if m.result.tries ≥ m.maxTries then
    callCompletion m SampleResult.TOO_MANY_RETRIES
  else
    ({ m with stateTime := now, state := State.START_STATE }, [])

/-- `case State::SAMPLING_STATE` from `lastRequestTime = millis();` on: decode the capture
and decide the outcome.  `now0` and `now1` are the values of the two later calls of
`millis()`. -/
def decodeAndFinish (m : DHT22Gen3) (sampleBuffer : SampleBuffer) (now0 now1 : U32) :
    DHT22Gen3 × List Effect :=
  let m1 : DHT22Gen3 := { m with lastRequestTime := now0 }
  -- memset(result.bytes, 0, sizeof(result.bytes));
  let m2 : DHT22Gen3 := { m1 with result := { m1.result with bytes := fun _ => 0 } }
  let d := decodeSamples m2.sensorType.oneBitThreshold sampleBuffer m2.result.bytes
  let m3 : DHT22Gen3 := { m2 with result := { m2.result with bytes := d.bytes } }
  if d.pair = 40 then
    if m3.result.isValidChecksum = true then
      callCompletion m3 SampleResult.SUCCESS
    else
      retryOrGiveUp m3 now1
  else
    retryOrGiveUp m3 now1

/-- `DHT22Gen3::loop()`.  The `&&` of the source does not evaluate `millis()` when its left
operand is false, which fixes how many readings precede each later `millis()`. -/
def loop (hal : Hal) (m : DHT22Gen3) : DHT22Gen3 × List Effect :=
  match m.state with
  | State.IDLE_STATE => (m, [])
  | State.START_STATE =>
    if m.lastRequestTime ≠ 0 ∧
        sub32 (hal.millis 0) m.lastRequestTime < m.sensorType.minSamplePeriodMs.val then
      (m, [])
    else
      startAttempt m (hal.millis (if m.lastRequestTime ≠ 0 then 1 else 0))
  | State.SEND_START_STATE =>
    if sub32 (hal.millis 0) m.stateTime < 18 then
      (m, [])
    else
      let e0 : List Effect :=
        [Effect.pinMode m.dhtPin PinMode.INPUT, Effect.i2sInit m.dhtPin m.unusedPin1 m.unusedPin2]
      if hal.i2sInitOk = false then
        let r := callCompletion m SampleResult.ERROR
        (r.1, e0 ++ r.2)
      else
        let m1 : DHT22Gen3 := { m with buffersRequested := 0 }
        if hal.i2sStartOk = false then
          let r := callCompletion m1 SampleResult.ERROR
          (r.1, e0 ++ [Effect.i2sStart] ++ r.2)
        else
          ({ m1 with
              result := { m1.result with tries := m1.result.tries + 1 }
              stateTime := hal.millis 1
              state := State.SAMPLING_STATE }, e0 ++ [Effect.i2sStart])
  | State.SAMPLING_STATE =>
    if m.buffersRequested < 2 ∧ sub32 (hal.millis 0) m.stateTime < 15 then
      (m, [])
    else if m.buffersRequested < 2 then
      let r := callCompletion m SampleResult.ERROR
      (r.1, [Effect.i2sUninit] ++ r.2)
    else
      let r := decodeAndFinish m hal.sampleBuffer (hal.millis 0) (hal.millis 1)
      (r.1, [Effect.i2sUninit] ++ r.2)

end DHT22Gen3

/-! ## Completion callbacks that act on the driver object -/

/-- What the body of a completion callable does while it runs: it receives the sample, which
is passed by value, and it may call member functions of the driver object.  The function
maps the object at the moment of the invocation to the object and the outside calls at the
return of the body. -/
abbrev CallbackBody := DHTSample → DHT22Gen3 → DHT22Gen3 × List Effect

/-- The bodies of the callables, by identifier. -/
abbrev Callbacks := CompletionId → CallbackBody

namespace DHT22Gen3

/-- The statement `if (completion) { completion(sample); }`, with the body of the callable
run on the object. -/
def invokeIn (callbacks : Callbacks) (completion : Option CompletionId) (sample : DHTSample)
    (m : DHT22Gen3) : DHT22Gen3 × List Effect :=
  match completion with
  | some c => ((callbacks c sample m).1, Effect.completion c sample :: (callbacks c sample m).2)
  | none => (m, [])

/-- `DHT22Gen3::callCompletion(sampleResult)`, statement by statement: store the outcome,
set the state, then invoke the completion with a copy of `result`. -/
def callCompletionIn (callbacks : Callbacks) (m : DHT22Gen3) (sampleResult : SampleResult) :
    DHT22Gen3 × List Effect :=
  let m1 : DHT22Gen3 := { m with result := { m.result with sampleResult := sampleResult } }
  let m2 : DHT22Gen3 := { m1 with state := State.IDLE_STATE }
  invokeIn callbacks m2.completion m2.result m2

/-- The end of `case State::SAMPLING_STATE` as in `retryOrGiveUp`, with the callback run
inside `callCompletion`. -/
def retryOrGiveUpIn (callbacks : Callbacks) (m : DHT22Gen3) (now : U32) :
    DHT22Gen3 × List Effect :=
  if m.result.tries ≥ m.maxTries then
    callCompletionIn callbacks m SampleResult.TOO_MANY_RETRIES
  else
    ({ m with stateTime := now, state := State.START_STATE }, [])

/-- The decode step as in `decodeAndFinish`, with the callback run inside
`callCompletion`. -/
def decodeAndFinishIn (callbacks : Callbacks) (m : DHT22Gen3) (sampleBuffer : SampleBuffer)
    (now0 now1 : U32) : DHT22Gen3 × List Effect :=
  let m1 : DHT22Gen3 := { m with lastRequestTime := now0 }
  let m2 : DHT22Gen3 := { m1 with result := { m1.result with bytes := fun _ => 0 } }
  let d := decodeSamples m2.sensorType.oneBitThreshold sampleBuffer m2.result.bytes
  let m3 : DHT22Gen3 := { m2 with result := { m2.result with bytes := d.bytes } }
  if d.pair = 40 then
    if m3.result.isValidChecksum = true then
      callCompletionIn callbacks m3 SampleResult.SUCCESS
    else
      retryOrGiveUpIn callbacks m3 now1
  else
    retryOrGiveUpIn callbacks m3 now1

/-- `DHT22Gen3::loop()` with the callbacks run inside `callCompletion`; each call of
`callCompletion` in the source is followed by `return`. -/
def loopIn (callbacks : Callbacks) (hal : Hal) (m : DHT22Gen3) : DHT22Gen3 × List Effect :=
  match m.state with
  | State.IDLE_STATE => (m, [])
  | State.START_STATE =>
    if m.lastRequestTime ≠ 0 ∧
        sub32 (hal.millis 0) m.lastRequestTime < m.sensorType.minSamplePeriodMs.val then
      (m, [])
    else
      startAttempt m (hal.millis (if m.lastRequestTime ≠ 0 then 1 else 0))
  | State.SEND_START_STATE =>
    if sub32 (hal.millis 0) m.stateTime < 18 then
      (m, [])
    else
      let e0 : List Effect :=
        [Effect.pinMode m.dhtPin PinMode.INPUT, Effect.i2sInit m.dhtPin m.unusedPin1 m.unusedPin2]
      if hal.i2sInitOk = false then
        let r := callCompletionIn callbacks m SampleResult.ERROR
        (r.1, e0 ++ r.2)
      else
        let m1 : DHT22Gen3 := { m with buffersRequested := 0 }
        if hal.i2sStartOk = false then
          let r := callCompletionIn callbacks m1 SampleResult.ERROR
          (r.1, e0 ++ [Effect.i2sStart] ++ r.2)
        else
          ({ m1 with
              result := { m1.result with tries := m1.result.tries + 1 }
              stateTime := hal.millis 1
              state := State.SAMPLING_STATE }, e0 ++ [Effect.i2sStart])
  | State.SAMPLING_STATE =>
    if m.buffersRequested < 2 ∧ sub32 (hal.millis 0) m.stateTime < 15 then
      (m, [])
    else if m.buffersRequested < 2 then
      let r := callCompletionIn callbacks m SampleResult.ERROR
      (r.1, [Effect.i2sUninit] ++ r.2)
    else
      let r := decodeAndFinishIn callbacks m hal.sampleBuffer (hal.millis 0) (hal.millis 1)
      (r.1, [Effect.i2sUninit] ++ r.2)

end DHT22Gen3

/-- Callables that do not touch the driver object. -/
def passiveCallbacks : Callbacks := fun _ _ m => (m, [])

/-- Callables whose body issues the next request: `getSample(dhtPin, completion,
sensorType)` on the driver object. -/
def requestingCallbacks (dhtPin : Pin) (completion : Option CompletionId)
    (sensorType : DHTSensorType) : Callbacks :=
  fun _ _ m => m.getSample dhtPin completion sensorType

/-! ## Auxiliary definitions used in the statements -/

/-- The checksum byte that belongs to a four-byte payload: the sum truncated to 8 bits. -/
def checksumOf (p0 p1 p2 p3 : Fin 256) : Fin 256 :=
  ⟨(p0.val + p1.val + p2.val + p3.val) % 256, Nat.mod_lt _ (by decide)⟩

/-- Output bit `i` of the decoder: bit `7 - i % 8` of `bytes[i / 8]`. -/
def bitOf (bytes : Bytes) (i : Fin 40) : Bool :=
  Nat.testBit (bytes ⟨i.val / 8, by omega⟩).val (7 - i.val % 8)

/-- The capture buffer read as one bit stream: word after word, bit 15 of each word first. -/
def bufferBits (sampleBuffer : SampleBuffer) : List Bool :=
  (List.finRange NUM_SAMPLES).flatMap (fun ii => bitOrder.map (bitValue (sampleBuffer ii)))

/-- A 16-bit word from its bits, most significant first. -/
def packWord (bits : List Bool) : Fin 65536 :=
  ⟨(bits.foldl (fun acc b => 2 * acc + b.toNat) 0) % 65536, Nat.mod_lt _ (by decide)⟩

/-- A line stream packed most-significant-bit-first into the words of a capture buffer. -/
def packStream (bits : List Bool) : SampleBuffer :=
  fun ii => packWord ((bits.drop (16 * ii.val)).take 16)

/-- The content of `result.bytes` after a high-to-low transition met in state `st`: bit
`st.pair` is set when the pair index is in `0..39` and the high run was longer than the
threshold. -/
def closedBytes (oneBitThreshold : Int) (st : DecodeState) : Bytes :=
  if 0 ≤ st.pair ∧ st.pair < 40 ∧ st.count > oneBitThreshold then
    orBit st.bytes (Int.tdiv st.pair 8) (Int.tmod st.pair 8)
  else st.bytes

/-- A run of `n` low samples. -/
def lows (n : Nat) : List Bool := List.replicate n false

/-- A run of `n` high samples. -/
def highs (n : Nat) : List Bool := List.replicate n true

/-- The data part of a line stream, with the run lengths indexed by natural numbers. -/
def pulses (lo hi : Nat → Nat) (n : Nat) : List Bool :=
  (List.range n).flatMap (fun i => lows (lo i) ++ highs (hi i))

/-- A function on `Fin n` continued by 0. -/
def extendNat {n : Nat} (f : Fin n → Nat) (i : Nat) : Nat :=
  if h : i < n then f ⟨i, h⟩ else 0

/-- A synthetic line stream: an initial high run `h0`, the preamble (low run `l0`, high run
`h1`), then for each of `n` bits a low run `lo i` followed by a high run `hi i`, a closing
low run `lc` and a high tail `t` (a tail without high-to-low transition that starts low
only lengthens the closing low run). -/
def lineStream (n : Nat) (h0 l0 h1 : Nat) (lo hi : Fin n → Nat) (lc t : Nat) : List Bool :=
  highs h0 ++ lows l0 ++ highs h1
    ++ (List.finRange n).flatMap (fun i => lows (lo i) ++ highs (hi i))
    ++ lows lc ++ highs t

/-- A frame of `n` bits with the run lengths named in the source comments (`0` bit: 13
samples high, `1` bit: 37 samples high), padded with a high tail of `t` samples. -/
def frameStream (n : Nat) (b : Fin n → Bool) (t : Nat) : List Bool :=
  lineStream n 15 41 41 (fun _ => 26) (fun i => if b i = true then 37 else 13) 26 t

/-- Capture of the 40-bit frame `00 00 00 00 00`, whose checksum is valid. -/
def goodFrame : SampleBuffer := packStream (frameStream 40 (fun _ => false) 1197)

/-- Capture of the 40-bit frame `00 00 00 00 01`, whose checksum is wrong. -/
def badFrame : SampleBuffer := packStream (frameStream 40 (fun i => decide (i.val = 39)) 1173)

/-- Capture in which the sensor sends only 39 bits. -/
def shortFrame : SampleBuffer := packStream (frameStream 39 (fun _ => false) 1236)

/-! ## Driving the object -/

/-- A call made on the driver object by the application or by the interrupt controller. -/
inductive Call where
  | getSample (dhtPin : Pin) (completion : Option CompletionId) (sensorType : DHTSensorType)
  | withMaxTries (tries : Int)
  | loop (hal : Hal)
  | dataHandler (nextBuffersNeeded : Bool)

/-- Effect of one call. -/
def call (m : DHT22Gen3) : Call → DHT22Gen3 × List Effect
  | Call.getSample dhtPin completion sensorType => m.getSample dhtPin completion sensorType
  | Call.withMaxTries tries => (m.withMaxTries tries, [])
  | Call.loop hal => DHT22Gen3.loop hal m
  | Call.dataHandler nextBuffersNeeded => m.dataHandler nextBuffersNeeded

/-- A sequence of calls, made one after the other with completions that do not call back
into the object; the traces are concatenated. -/
def run (m : DHT22Gen3) : List Call → DHT22Gen3 × List Effect
  | [] => (m, [])
  | c :: cs => ((run (call m c).1 cs).1, (call m c).2 ++ (run (call m c).1 cs).2)

/-- The completion invocations of a trace, in order. -/
def completions : List Effect → List (CompletionId × DHTSample)
  | [] => []
  | Effect.completion c s :: es => (c, s) :: completions es
  | _ :: es => completions es

/-- A call of `loop()` during which `millis()` returns `now`, the peripheral starts without
error and the capture buffer holds `sampleBuffer`. -/
def halAt (now : U32) (sampleBuffer : SampleBuffer) : Hal :=
  { millis := fun _ => now, i2sInitOk := true, i2sStartOk := true, sampleBuffer := sampleBuffer }

/-- One complete attempt beginning at time `t`: `loop()` leaves `START_STATE`, 18 ms later
`loop()` starts the capture, the peripheral asks twice for the next buffer, and 6 ms later
`loop()` decodes the capture `sampleBuffer`. -/
def attempt (t : U32) (sampleBuffer : SampleBuffer) : List Call :=
  [Call.loop (halAt t sampleBuffer),
   Call.loop (halAt (t + 18) sampleBuffer),
   Call.dataHandler true,
   Call.dataHandler true,
   Call.loop (halAt (t + 24) sampleBuffer)]

/-- The driver object of the example programs, `DHT22Gen3 dht(A4, A5)`. -/
def dht : DHT22Gen3 := { unusedPin1 := 15, unusedPin2 := 14 }

/-- The object in `SAMPLING_STATE` after the capture of the first attempt has completed:
a request on pin `A3` with completion 7, started at time 100. -/
def samplingDht : DHT22Gen3 :=
  (run dht [Call.getSample 16 (some 7) sensorTypeDHT22,
            Call.loop (halAt 100 goodFrame),
            Call.loop (halAt 118 goodFrame),
            Call.dataHandler true,
            Call.dataHandler true]).1

/-- The request of the example programs: pin `A3`, a completion (number 7) and the default
sensor type. -/
def request : Call := Call.getSample 16 (some 7) sensorTypeDHT22

/-- The driver object after the request has been accepted. -/
def requestedDht : DHT22Gen3 := (call dht request).1

/-- Start time of attempt number `k` (counted from 0): the attempts are 2100 ms apart, more
than the minimum sample period of both sensor types. -/
def startTime (k : Nat) : U32 :=
  ⟨(100 + 2100 * k) % 4294967296, Nat.mod_lt _ (by decide)⟩

/-- The calls of `k` successive attempts that each capture a 40-bit frame with a bad
checksum. -/
def badAttempts : Nat → List Call
  | 0 => []
  | k + 1 => badAttempts k ++ attempt (startTime k) badFrame

/-- A request followed by four attempts (at 100, 2200, 4300 and 6400 ms) that each capture
a 40-bit frame with a bad checksum. -/
def fourBadAttempts : List Call := request :: badAttempts 4

/-- A request whose first `k` attempts capture a frame with a bad checksum and whose next
attempt captures a valid frame. -/
def retryThenGood (k : Nat) : List Call :=
  request :: (badAttempts k ++ attempt (startTime k) goodFrame)

/-- The sample that the completion receives at the end of `retryThenGood k`. -/
def deliveredSample : DHTSample :=
  { sampleResult := SampleResult.SUCCESS, sensorType := some sensorTypeDHT22,
    bytes := fun _ => 0, tries := 1 }

/-- A time 24 ms before the 32-bit millisecond clock wraps. -/
def beforeWrap : U32 := ⟨4294967272, by decide⟩

/-- The time 5 ms after the 32-bit millisecond clock has wrapped. -/
def afterWrap : U32 := ⟨5, by decide⟩

/-- A request whose first attempt starts at `beforeWrap`, so that its capture is complete
when `millis()` returns 0; the frame has a bad checksum. -/
def wrapAttempt : List Call := request :: attempt beforeWrap badFrame

/-- A time one second after the start of the first attempt. -/
def pollTime : U32 := ⟨1100, by decide⟩

/-- The object in `SEND_START_STATE`: the request of the examples, 0 ms after the line was
driven low at time 100. -/
def sendStartDht : DHT22Gen3 :=
  (run dht [request, Call.loop (halAt ⟨100, by decide⟩ goodFrame)]).1

/-- The object in `SAMPLING_STATE` while the capture started at time 118 is not complete. -/
def capturingDht : DHT22Gen3 :=
  (run dht [request, Call.loop (halAt ⟨100, by decide⟩ goodFrame),
            Call.loop (halAt ⟨118, by decide⟩ goodFrame)]).1

/-- A call of `loop()` at time `now` during which `nrfx_i2s_start` fails. -/
def halStartFails (now : U32) : Hal :=
  { millis := fun _ => now, i2sInitOk := true, i2sStartOk := false, sampleBuffer := goodFrame }

/-- A sample delivered with `SUCCESS` for the DHT22 frame `01 45 00 C9 0F`. -/
def sampleDHT22 : DHTSample :=
  { sampleResult := SampleResult.SUCCESS, sensorType := some sensorTypeDHT22,
    bytes := ![0x01, 0x45, 0x00, 0xC9, 0x0F], tries := 1 }

/-- A sample with `SUCCESS` and the bytes `FF FF 00 00 FE`, whose checksum is valid. -/
def sampleOutOfRange : DHTSample :=
  { sampleResult := SampleResult.SUCCESS, sensorType := some sensorTypeDHT22,
    bytes := ![0xFF, 0xFF, 0x00, 0x00, 0xFE], tries := 1 }

/-- The constructor `DHT22Gen3::DHT22Gen3(unusedPin1, unusedPin2)`; every other member has
its initialiser. -/
def DHT22Gen3.create (unusedPin1 unusedPin2 : Pin) : DHT22Gen3 :=
  { unusedPin1 := unusedPin1, unusedPin2 := unusedPin2 }

/-- The try counter is 0 or 1; it is 0 in `SEND_START_STATE` and 1 in `SAMPLING_STATE`. -/
def TriesInvariant (m : DHT22Gen3) : Prop :=
  (m.result.tries = 0 ∨ m.result.tries = 1) ∧
  (m.state = State.SEND_START_STATE → m.result.tries = 0) ∧
  (m.state = State.SAMPLING_STATE → m.result.tries = 1)

/-! ## Run-length reference of the decoder

The definitions of this section follow the description of the decoder and not its code:
they speak about positions of one bit stream. -/

/-- The capture read as one stream of `16 * NUM_SAMPLES` bits: position `p` of the stream is
bit `15 - p % 16` of word `p / 16`. -/
def referenceStream (sampleBuffer : SampleBuffer) : List Bool :=
  List.ofFn (fun p : Fin (16 * NUM_SAMPLES) =>
    Nat.testBit (sampleBuffer ⟨p.val / 16, Nat.div_lt_of_lt_mul p.isLt⟩).val (15 - p.val % 16))

/-- The level of the line at the end of a stream: its last bit, and the virtual high level
for the empty stream. -/
def lastLevel (bits : List Bool) : Bool :=
  bits.getLast?.getD true

/-- The length of the run of high bits that ends a stream. -/
def highRun (bits : List Bool) : Nat :=
  (bits.reverse.takeWhile (fun b => b)).length

/-- The level of the line just before position `p`. -/
def levelBefore (bits : List Bool) (p : Nat) : Bool :=
  lastLevel (bits.take p)

/-- The length of the high run that ends just before position `p`. -/
def highRunBefore (bits : List Bool) (p : Nat) : Nat :=
  highRun (bits.take p)

/-- The positions where a low bit follows a high level, in increasing order. -/
def fallPositions (bits : List Bool) : List Nat :=
  (List.range bits.length).filter (fun p => levelBefore bits p && !(bits.getD p true))

/-- The reference value of the pair index: the number of high-to-low transitions minus 2. -/
def referencePair (bits : List Bool) : Int :=
  ((fallPositions bits).length : Int) - 2

/-- The reference value of output bit `i`: the `(i+3)`-th high-to-low transition exists and
the high run before it is longer than the threshold. -/
def referenceBit (oneBitThreshold : Int) (bits : List Bool) (i : Nat) : Bool :=
  match (fallPositions bits)[i + 2]? with
  | some p => decide ((highRunBefore bits p : Int) > oneBitThreshold)
  | none => false

/-- The relation between the local variables of the decode loop after the bits `pre` of the
stream and the reference, when the loop started on the bytes `bytes0`. -/
def DecodeInvariant (oneBitThreshold : Int) (bytes0 : Bytes) (pre : List Bool)
    (st : DecodeState) : Prop :=
  st.prev = lastLevel pre ∧
  (st.prev = true → st.count = (highRun pre : Int)) ∧
  st.pair = referencePair pre ∧
  ∀ q : Fin 40, bitOf st.bytes q = true
    ↔ (bitOf bytes0 q = true ∨ referenceBit oneBitThreshold pre q.val = true)

/-- The driver object after a request on pin `A3` has been answered with `SUCCESS` and the
frame `01 45 00 C9 0F`, the capture having completed at time 124. -/
def idleAfterSuccess : DHT22Gen3 :=
  { unusedPin1 := 15, unusedPin2 := 14, dhtPin := 16, sensorType := sensorTypeDHT22,
    lastRequestTime := ⟨124, by decide⟩, stateTime := ⟨118, by decide⟩, maxTries := 4,
    state := State.IDLE_STATE, result := sampleDHT22, completion := some 7,
    buffersRequested := 2 }

/-- The object `samplingDht` with other bytes left in `result` by an earlier frame. -/
def staleSamplingDht : DHT22Gen3 :=
  { samplingDht with
    result := { samplingDht.result with bytes := ![0xFF, 0xFF, 0xFF, 0xFF, 0xFF] } }

/-! ## Pulse decoder with its accesses to `result.bytes` recorded

The decode loop of the source once more, with two observers added: a counter of the
executions of the inner loop body, and the list of the executions of
`result.bytes[byteIndex] |= 1 << (7 - bitIndex);` with the indices they use. -/

/-- One execution of `result.bytes[byteIndex] |= 1 << (7 - bitIndex);`, with the value of
`pair` at that moment. -/
structure ByteWrite where
  pair : Int
  byteIndex : Int
  bitIndex : Int
deriving DecidableEq

/-- The effect of a recorded write on the bytes. -/
def ByteWrite.apply (bytes : Bytes) (w : ByteWrite) : Bytes :=
  orBit bytes w.byteIndex w.bitIndex

/-- The writes to `result.bytes` that the body of the inner `for` loop executes for one bit
of the capture. -/
def decodeBitWrites (oneBitThreshold : Int) (st : DecodeState) (bv : Bool) : List ByteWrite :=
  if bv = st.prev then []
  else if st.prev = true then
    if 0 ≤ st.pair ∧ st.pair < 40 then
      if decide (st.count > oneBitThreshold) = true then
        [{ pair := st.pair, byteIndex := Int.tdiv st.pair 8, bitIndex := Int.tmod st.pair 8 }]
      else []
    else []
  else []

/-- The local variables of the decode loop with the two observers. -/
structure DecodeTrace where
  st : DecodeState
  writes : List ByteWrite
  steps : Nat

/-- Body of the inner `for` loop for one bit, observed. -/
def decodeBitTraced (oneBitThreshold : Int) (t : DecodeTrace) (bv : Bool) : DecodeTrace :=
  { st := decodeBit oneBitThreshold t.st bv,
    writes := t.writes ++ decodeBitWrites oneBitThreshold t.st bv,
    steps := t.steps + 1 }

/-- The inner `for` loop, observed. -/
def decodeWordTraced (oneBitThreshold : Int) (t : DecodeTrace) (value : Fin 65536) :
    DecodeTrace :=
  bitOrder.foldl (fun t bit => decodeBitTraced oneBitThreshold t (bitValue value bit)) t

/-- The decode loop, observed. -/
def decodeSamplesTraced (oneBitThreshold : Int) (sampleBuffer : SampleBuffer) (bytes : Bytes) :
    DecodeTrace :=
  (List.finRange NUM_SAMPLES).foldl
    (fun t ii => decodeWordTraced oneBitThreshold t (sampleBuffer ii))
    { st := { prev := true, count := 0, pair := -2, bytes := bytes }, writes := [], steps := 0 }

/-- A sample delivered with `SUCCESS` for the DHT22 frame `02 8C 80 01 0F`. -/
def sampleDHT22Cold : DHTSample :=
  { sampleResult := SampleResult.SUCCESS, sensorType := some sensorTypeDHT22,
    bytes := ![0x02, 0x8C, 0x80, 0x01, 0x0F], tries := 1 }

/-- Callables whose body requests a DHT11 sample on pin 17 with completion 8. -/
def renewingCallbacks : Callbacks := requestingCallbacks 17 (some 8) sensorTypeDHT11

/-! ## Checksum -/

/-- C4. `isValidChecksum()` is true exactly when `bytes[4]` equals the sum of the first four
bytes modulo 256; in particular a payload completed with that sum as its fifth byte
validates. -/
theorem isValidChecksum_iff_sum_mod_256 :
    (∀ s : DHTSample, s.isValidChecksum = true ↔
        (s.bytes 4).val
          = ((s.bytes 0).val + (s.bytes 1).val + (s.bytes 2).val + (s.bytes 3).val) % 256) ∧
    (∀ (s : DHTSample) (p0 p1 p2 p3 : Fin 256),
        DHTSample.isValidChecksum
          { s with bytes := ![p0, p1, p2, p3, checksumOf p0 p1 p2 p3] } = true) := by
  refine ⟨?_, ?_⟩
  · intro s
    simp only [DHTSample.isValidChecksum, decide_eq_true_eq]
    exact eq_comm
  · intro s p0 p1 p2 p3
    simp [DHTSample.isValidChecksum, checksumOf]

/-- C5. Starting from five bytes with a valid checksum, replacing any one of the five bytes
by a different value makes `isValidChecksum()` false: a single-byte mutation never collides
modulo 256. -/
theorem isValidChecksum_single_byte_mutation (s : DHTSample)
    (hvalid : s.isValidChecksum = true) (i : Fin 5) (v : Fin 256) (hv : v ≠ s.bytes i) :
    DHTSample.isValidChecksum { s with bytes := Function.update s.bytes i v } = false := by
  have hne : v.val ≠ (s.bytes i).val := fun h => hv (Fin.ext h)
  have h0 := (s.bytes 0).isLt
  have h1 := (s.bytes 1).isLt
  have h2 := (s.bytes 2).isLt
  have h3 := (s.bytes 3).isLt
  have h4 := (s.bytes 4).isLt
  have hvlt := v.isLt
  simp only [DHTSample.isValidChecksum, decide_eq_true_eq] at hvalid
  simp only [DHTSample.isValidChecksum, decide_eq_false_iff_not]
  fin_cases i <;> simp [Function.update] at hne ⊢ <;> omega

/-- Witness for C5: the valid frame `01 45 00 C9 0F` with its second byte changed. -/
theorem isValidChecksum_single_byte_mutation_witness :
    DHTSample.isValidChecksum { bytes := ![0x01, 0x45, 0x00, 0xC9, 0x0F] } = true ∧
    DHTSample.isValidChecksum
      { ({ bytes := ![0x01, 0x45, 0x00, 0xC9, 0x0F] } : DHTSample) with
        bytes := Function.update ![0x01, 0x45, 0x00, 0xC9, 0x0F] 1 0x46 } = false :=
  ⟨by decide,
   isValidChecksum_single_byte_mutation { bytes := ![0x01, 0x45, 0x00, 0xC9, 0x0F] }
     (by decide) 1 0x46 (by decide)⟩

/-! ## Requests and completion -/

/-- C6. While the state is not `IDLE_STATE`, `getSample` returns the state machine unchanged
in every field and its only effect is one invocation of the completion passed to this call,
with a sample whose result is `BUSY`; with an empty completion nothing at all happens. -/
theorem getSample_busy (m : DHT22Gen3) (hbusy : m.state ≠ State.IDLE_STATE) (dhtPin : Pin)
    (sensorType : DHTSensorType) :
    (∀ c : CompletionId,
        m.getSample dhtPin (some c) sensorType
          = (m, [Effect.completion c (DHTSample.withBusy {})])) ∧
    (DHTSample.withBusy {}).sampleResult = SampleResult.BUSY ∧
    (DHTSample.withBusy {}).isBusy = true ∧
    m.getSample dhtPin none sensorType = (m, []) := by
  refine ⟨fun c => ?_, rfl, rfl, ?_⟩ <;> simp [DHT22Gen3.getSample, hbusy, DHT22Gen3.invoke]

/-- Witness for C6: a second request on pin 6 while a request on pin 5 waits in
`START_STATE`. -/
theorem getSample_busy_witness :
    ({ unusedPin1 := 2, unusedPin2 := 3, dhtPin := 5, state := State.START_STATE,
       completion := some 7 } : DHT22Gen3).state ≠ State.IDLE_STATE ∧
    ((∀ c : CompletionId,
        DHT22Gen3.getSample
          { unusedPin1 := 2, unusedPin2 := 3, dhtPin := 5, state := State.START_STATE,
            completion := some 7 } 6 (some c) sensorTypeDHT11
          = ({ unusedPin1 := 2, unusedPin2 := 3, dhtPin := 5, state := State.START_STATE,
               completion := some 7 }, [Effect.completion c (DHTSample.withBusy {})])) ∧
     (DHTSample.withBusy {}).sampleResult = SampleResult.BUSY ∧
     (DHTSample.withBusy {}).isBusy = true ∧
     DHT22Gen3.getSample
        { unusedPin1 := 2, unusedPin2 := 3, dhtPin := 5, state := State.START_STATE,
          completion := some 7 } 6 none sensorTypeDHT11
        = ({ unusedPin1 := 2, unusedPin2 := 3, dhtPin := 5, state := State.START_STATE,
             completion := some 7 }, [])) :=
  ⟨by decide, getSample_busy _ (by decide) 6 sensorTypeDHT11⟩

/-! ## Pulse decoder: behaviour on runs -/

theorem decodeBit_same (thr : Int) (st : DecodeState) :
    decodeBit thr st st.prev = { st with count := st.count + 1 } := by
  simp [decodeBit]

theorem decodeBit_fall (thr : Int) (st : DecodeState) (h : st.prev = true) :
    decodeBit thr st false
      = { prev := false, count := 1, pair := st.pair + 1, bytes := closedBytes thr st } := by
  unfold decodeBit closedBytes
  simp only [h]
  by_cases hp : 0 ≤ st.pair ∧ st.pair < 40
  · by_cases hc : st.count > thr
    · simp [hp, hc]
    · simp [hp, hc]
  · have hp2 : ¬ (0 ≤ st.pair ∧ st.pair < 40 ∧ st.count > thr) := fun hh => hp ⟨hh.1, hh.2.1⟩
    simp [hp, hp2]

theorem decodeBit_rise (thr : Int) (st : DecodeState) (h : st.prev = false) :
    decodeBit thr st true = { st with count := 1, prev := true } := by
  simp [decodeBit, h]

theorem foldl_decodeBit_same (thr : Int) (n : Nat) (st : DecodeState) :
    (List.replicate n st.prev).foldl (decodeBit thr) st = { st with count := st.count + n } := by
  induction n generalizing st with
  | zero => simp
  | succ n ih =>
    rw [List.replicate_succ, List.foldl_cons, decodeBit_same]
    have := ih { st with count := st.count + 1 }
    simp only [] at this
    rw [this]
    simp only [Nat.cast_add, Nat.cast_one]
    congr 1
    ring

theorem foldl_decodeBit_lows (thr : Int) (n : Nat) (hn : 1 ≤ n) (st : DecodeState)
    (h : st.prev = true) :
    (lows n).foldl (decodeBit thr) st
      = { prev := false, count := n, pair := st.pair + 1, bytes := closedBytes thr st } := by
  obtain ⟨k, rfl⟩ : ∃ k, n = k + 1 := ⟨n - 1, by omega⟩
  rw [lows, List.replicate_succ, List.foldl_cons, decodeBit_fall thr st h]
  have := foldl_decodeBit_same thr k
    { prev := false, count := 1, pair := st.pair + 1, bytes := closedBytes thr st }
  simp only [] at this
  rw [this]
  simp only [Nat.cast_add, Nat.cast_one]
  congr 1
  ring

theorem foldl_decodeBit_highs (thr : Int) (n : Nat) (hn : 1 ≤ n) (st : DecodeState)
    (h : st.prev = false) :
    (highs n).foldl (decodeBit thr) st = { st with prev := true, count := n } := by
  obtain ⟨k, rfl⟩ : ∃ k, n = k + 1 := ⟨n - 1, by omega⟩
  rw [highs, List.replicate_succ, List.foldl_cons, decodeBit_rise thr st h]
  have := foldl_decodeBit_same thr k { st with count := 1, prev := true }
  simp only [] at this
  rw [this]
  simp only [Nat.cast_add, Nat.cast_one]
  congr 1
  ring

theorem foldl_decodeBit_pulse (thr : Int) (lo hi : Nat) (hlo : 1 ≤ lo) (hhi : 1 ≤ hi)
    (st : DecodeState) (h : st.prev = true) :
    (lows lo ++ highs hi).foldl (decodeBit thr) st
      = { prev := true, count := hi, pair := st.pair + 1, bytes := closedBytes thr st } := by
  rw [List.foldl_append, foldl_decodeBit_lows thr lo hlo st h,
    foldl_decodeBit_highs thr hi hhi _ rfl]

theorem bitOf_orBit (bytes : Bytes) (p : Nat) (hp : p < 40) (q : Fin 40) :
    bitOf (orBit bytes (Int.tdiv (p : Int) 8) (Int.tmod (p : Int) 8)) q = true
      ↔ (bitOf bytes q = true ∨ q.val = p) := by
  have hq := q.isLt
  have hdiv : Int.tdiv (p : Int) 8 = ((p / 8 : Nat) : Int) := by
    rw [Int.tdiv_eq_ediv (by omega) (by omega)]; norm_cast
  have hmod : Int.tmod (p : Int) 8 = ((p % 8 : Nat) : Int) := by
    rw [Int.tmod_eq_emod (by omega) (by omega)]; norm_cast
  have hsh : (7 - ((p % 8 : Nat) : Int)).toNat = 7 - p % 8 := by omega
  unfold bitOf orBit
  simp only [hdiv, hmod, hsh, Nat.cast_inj]
  by_cases hidx : q.val / 8 = p / 8
  · rw [if_pos hidx]
    have h256 : (256 : Nat) = 2 ^ 8 := by norm_num
    simp only [h256, Nat.testBit_mod_two_pow, Nat.testBit_or, Nat.one_shiftLeft,
      Nat.testBit_two_pow, Bool.and_eq_true, Bool.or_eq_true, decide_eq_true_eq]
    constructor
    · rintro ⟨_, h | h⟩
      · exact Or.inl h
      · exact Or.inr (by omega)
    · rintro (h | h)
      · exact ⟨by omega, Or.inl h⟩
      · exact ⟨by omega, Or.inr (by omega)⟩
  · rw [if_neg hidx]
    constructor
    · exact fun h => Or.inl h
    · rintro (h | h)
      · exact h
      · exact absurd (by rw [h]) hidx

theorem pulses_succ (lo hi : Nat → Nat) (n : Nat) :
    pulses lo hi (n + 1) = pulses lo hi n ++ (lows (lo n) ++ highs (hi n)) := by
  simp [pulses, List.range_succ, List.flatMap_append]

theorem flatMap_finRange_eq_pulses (n : Nat) (lo hi : Fin n → Nat) :
    (List.finRange n).flatMap (fun i => lows (lo i) ++ highs (hi i))
      = pulses (extendNat lo) (extendNat hi) n := by
  unfold pulses
  rw [← List.map_coe_finRange n, List.flatMap_map]
  apply List.flatMap_congr
  intro i _
  simp [extendNat, i.isLt]

/-- State of the decode loop after the preamble and `n` data pulses: the pair index is
`n - 1` (the last pulse is still open) and exactly the long pulses among the closed ones
have set their bit. -/
theorem foldl_decodeBit_pulses (thr : Int) (lo hi : Nat → Nat) (c0 : Nat) (bytes0 : Bytes)
    (n : Nat) (hlo : ∀ i, i < n → 1 ≤ lo i) (hhi : ∀ i, i < n → 1 ≤ hi i) :
    let st := (pulses lo hi n).foldl (decodeBit thr)
      { prev := true, count := c0, pair := -1, bytes := bytes0 }
    st.prev = true ∧ st.pair = (n : Int) - 1 ∧ (0 < n → st.count = hi (n - 1)) ∧
    ∀ q : Fin 40, (bitOf st.bytes q = true
      ↔ (bitOf bytes0 q = true ∨ (q.val + 1 < n ∧ thr < hi q.val))) := by
  induction n with
  | zero =>
    simp [pulses]
  | succ n ih =>
    have ih := ih (fun i hi => hlo i (by omega)) (fun i hi => hhi i (by omega))
    simp only [] at ih
    obtain ⟨hprev, hpair, hcount, hbits⟩ := ih
    simp only []
    rw [pulses_succ, List.foldl_append,
      foldl_decodeBit_pulse thr (lo n) (hi n) (hlo n (by omega)) (hhi n (by omega)) _ hprev]
    refine ⟨rfl, ?_, ?_, ?_⟩
    · simp only [hpair]; push_cast; ring
    · intro _; simp
    · intro q
      have hq := q.isLt
      simp only []
      unfold closedBytes
      by_cases hc : 0 ≤ ((List.foldl (decodeBit thr)
            { prev := true, count := c0, pair := -1, bytes := bytes0 } (pulses lo hi n)).pair)
          ∧ (List.foldl (decodeBit thr)
            { prev := true, count := c0, pair := -1, bytes := bytes0 } (pulses lo hi n)).pair < 40
          ∧ (List.foldl (decodeBit thr)
            { prev := true, count := c0, pair := -1, bytes := bytes0 } (pulses lo hi n)).count
              > thr
      · rw [if_pos hc]
        rw [hpair] at hc ⊢
        obtain ⟨h0, h40, hthr⟩ := hc
        have hn : 0 < n := by omega
        rw [hcount hn] at hthr
        have hcast : ((n : Int) - 1) = ((n - 1 : Nat) : Int) := by omega
        rw [hcast, bitOf_orBit _ (n - 1) (by omega) q, hbits q]
        constructor
        · rintro ((h | ⟨h1, h2⟩) | h)
          · exact Or.inl h
          · exact Or.inr ⟨by omega, h2⟩
          · refine Or.inr ⟨by omega, ?_⟩
            rw [h]; exact hthr
        · rintro (h | ⟨h1, h2⟩)
          · exact Or.inl (Or.inl h)
          · by_cases hlast : q.val = n - 1
            · exact Or.inr hlast
            · exact Or.inl (Or.inr ⟨by omega, h2⟩)
      · rw [if_neg hc, hbits q]
        rw [hpair] at hc
        constructor
        · rintro (h | ⟨h1, h2⟩)
          · exact Or.inl h
          · exact Or.inr ⟨by omega, h2⟩
        · rintro (h | ⟨h1, h2⟩)
          · exact Or.inl h
          · by_cases hlast : q.val + 1 = n
            · exfalso
              apply hc
              have hn : 0 < n := by omega
              refine ⟨by omega, by omega, ?_⟩
              rw [hcount hn]
              have : n - 1 = q.val := by omega
              rw [this]; exact h2
            · exact Or.inr ⟨by omega, h2⟩

/-- The decode loop run on a synthetic line stream of `n` pulses ends with pair index `n`,
and output bit `q` is set exactly when pulse `q` exists and is longer than the threshold. -/
theorem foldl_decodeBit_lineStream (thr : Int) (n h0 l0 h1 : Nat) (lo hi : Fin n → Nat)
    (lc t : Nat) (hl0 : 1 ≤ l0) (hh1 : 1 ≤ h1) (hlo : ∀ i, 1 ≤ lo i) (hhi : ∀ i, 1 ≤ hi i)
    (hlc : 1 ≤ lc) :
    let st := (lineStream n h0 l0 h1 lo hi lc t).foldl (decodeBit thr)
      { prev := true, count := 0, pair := -2, bytes := fun _ => 0 }
    st.pair = (n : Int) ∧
    ∀ q : Fin 40, (bitOf st.bytes q = true ↔ ∃ h : q.val < n, thr < hi ⟨q.val, h⟩) := by
  have hzero : ∀ q : Fin 40, bitOf (fun _ => 0) q = false := by
    intro q; simp [bitOf]
  have hpre : (highs h0 ++ lows l0 ++ highs h1).foldl (decodeBit thr)
      { prev := true, count := 0, pair := -2, bytes := fun _ => 0 }
      = { prev := true, count := h1, pair := -1, bytes := fun _ => 0 } := by
    rw [List.foldl_append, List.foldl_append]
    have h1' : (highs h0).foldl (decodeBit thr)
        { prev := true, count := 0, pair := -2, bytes := fun _ => 0 }
        = { prev := true, count := 0 + (h0 : Int), pair := -2, bytes := fun _ => 0 } :=
      foldl_decodeBit_same thr h0 { prev := true, count := 0, pair := -2, bytes := fun _ => 0 }
    rw [h1', foldl_decodeBit_lows thr l0 hl0 _ rfl, foldl_decodeBit_highs thr h1 hh1 _ rfl]
    simp [closedBytes]
  have hbody := foldl_decodeBit_pulses thr (extendNat lo) (extendNat hi) h1 (fun _ => 0) n
    (fun i hi' => by simp [extendNat, hi', hlo]) (fun i hi' => by simp [extendNat, hi', hhi])
  simp only [] at hbody
  obtain ⟨hprev, hpair, hcount, hbits⟩ := hbody
  simp only [lineStream]
  rw [List.foldl_append, List.foldl_append, List.foldl_append, hpre,
    flatMap_finRange_eq_pulses, foldl_decodeBit_lows thr lc hlc _ hprev]
  have htail : ∀ st : DecodeState, st.prev = false →
      ((highs t).foldl (decodeBit thr) st).pair = st.pair ∧
      ((highs t).foldl (decodeBit thr) st).bytes = st.bytes := by
    intro st hst
    rcases Nat.eq_zero_or_pos t with ht | ht
    · subst ht; simp [highs]
    · rw [foldl_decodeBit_highs thr t ht st hst]; exact ⟨rfl, rfl⟩
  obtain ⟨htp, htb⟩ := htail
    { prev := false, count := lc,
      pair := (List.foldl (decodeBit thr)
        { prev := true, count := h1, pair := -1, bytes := fun _ => 0 }
        (pulses (extendNat lo) (extendNat hi) n)).pair + 1,
      bytes := closedBytes thr (List.foldl (decodeBit thr)
        { prev := true, count := h1, pair := -1, bytes := fun _ => 0 }
        (pulses (extendNat lo) (extendNat hi) n)) } rfl
  refine ⟨?_, ?_⟩
  · rw [htp]; simp only [hpair]; ring
  · intro q
    have hq := q.isLt
    rw [htb]
    simp only []
    unfold closedBytes
    have hext : ∀ h : q.val < n, extendNat hi q.val = hi ⟨q.val, h⟩ := by
      intro h; simp [extendNat, h]
    have hz := hzero q
    by_cases hc : 0 ≤ ((List.foldl (decodeBit thr)
          { prev := true, count := h1, pair := -1, bytes := fun _ => 0 }
          (pulses (extendNat lo) (extendNat hi) n)).pair)
        ∧ (List.foldl (decodeBit thr)
          { prev := true, count := h1, pair := -1, bytes := fun _ => 0 }
          (pulses (extendNat lo) (extendNat hi) n)).pair < 40
        ∧ (List.foldl (decodeBit thr)
          { prev := true, count := h1, pair := -1, bytes := fun _ => 0 }
          (pulses (extendNat lo) (extendNat hi) n)).count > thr
    · rw [if_pos hc]
      rw [hpair] at hc ⊢
      obtain ⟨hc0, hc40, hthr⟩ := hc
      have hn : 0 < n := by omega
      rw [hcount hn] at hthr
      have hcast : ((n : Int) - 1) = ((n - 1 : Nat) : Int) := by omega
      rw [hcast, bitOf_orBit _ (n - 1) (by omega) q, hbits q, hz]
      constructor
      · rintro ((h | ⟨h1', h2⟩) | h)
        · exact absurd h (by simp)
        · exact ⟨by omega, by rw [← hext]; exact h2⟩
        · have hlt : q.val < n := by omega
          refine ⟨hlt, ?_⟩
          rw [← hext hlt, h]; exact hthr
      · rintro ⟨hlt, h2⟩
        by_cases hlast : q.val = n - 1
        · exact Or.inr hlast
        · exact Or.inl (Or.inr ⟨by omega, by rw [hext hlt]; exact h2⟩)
    · rw [if_neg hc, hbits q, hz]
      rw [hpair] at hc
      constructor
      · rintro (h | ⟨h1', h2⟩)
        · exact absurd h (by simp)
        · exact ⟨by omega, by rw [← hext]; exact h2⟩
      · rintro ⟨hlt, h2⟩
        by_cases hlast : q.val + 1 = n
        · exfalso
          apply hc
          have hn : 0 < n := by omega
          refine ⟨by omega, by omega, ?_⟩
          rw [hcount hn]
          have : n - 1 = q.val := by omega
          rw [this, hext hlt]; exact h2
        · exact Or.inr ⟨by omega, by rw [hext hlt]; exact h2⟩

/-! ## Pulse decoder: the capture buffer as a bit stream -/

theorem bitValue_eq_testBit (value : Fin 65536) (bit : Nat) :
    bitValue value bit = value.val.testBit bit := by
  unfold bitValue
  rw [Nat.one_shiftLeft, Nat.and_two_pow]
  cases h : value.val.testBit bit <;> simp [h]

theorem foldl_decodeWord_eq (thr : Int) (sampleBuffer : SampleBuffer)
    (l : List (Fin NUM_SAMPLES)) (st : DecodeState) :
    l.foldl (fun st ii => decodeWord thr st (sampleBuffer ii)) st
      = (l.flatMap (fun ii => bitOrder.map (bitValue (sampleBuffer ii)))).foldl
          (decodeBit thr) st := by
  induction l generalizing st with
  | nil => rfl
  | cons ii l ih =>
    rw [List.foldl_cons, List.flatMap_cons, List.foldl_append, ih, List.foldl_map]
    rfl

/-- The nested `for` loops process the bits of the buffer in stream order. -/
theorem decodeSamples_eq_foldl (thr : Int) (sampleBuffer : SampleBuffer) (bytes : Bytes) :
    decodeSamples thr sampleBuffer bytes
      = (bufferBits sampleBuffer).foldl (decodeBit thr)
          { prev := true, count := 0, pair := -2, bytes := bytes } := by
  unfold decodeSamples bufferBits
  exact foldl_decodeWord_eq thr sampleBuffer _ _

theorem testBit_foldl_pack (l : List Bool) (acc j : Nat) :
    (l.foldl (fun acc b => 2 * acc + b.toNat) acc).testBit j
      = if j < l.length then (l[l.length - 1 - j]?).getD false
        else acc.testBit (j - l.length) := by
  induction l generalizing acc with
  | nil => simp
  | cons b l ih =>
    rw [List.foldl_cons, ih]
    by_cases h1 : j < l.length
    · have h2 : j < (b :: l).length := by simp; omega
      rw [if_pos h1, if_pos h2]
      have h3 : (b :: l).length - 1 - j = (l.length - 1 - j) + 1 := by simp; omega
      rw [h3, List.getElem?_cons_succ]
    · rw [if_neg h1]
      by_cases h2 : j = l.length
      · have h3 : j < (b :: l).length := by simp; omega
        have h4 : (b :: l).length - 1 - j = 0 := by simp; omega
        rw [if_pos h3, h4, h2, Nat.sub_self, Nat.testBit_zero]
        cases b
        · simp
        · simp; omega
      · have h3 : ¬ j < (b :: l).length := by simp; omega
        obtain ⟨k, hk⟩ : ∃ k, j - l.length = k + 1 := ⟨j - l.length - 1, by omega⟩
        have h4 : j - (b :: l).length = k := by simp; omega
        rw [if_neg h3, hk, h4, Nat.testBit_succ]
        congr 1
        cases b
        · simp
        · simp; omega

theorem map_bitValue_packWord (l : List Bool) (hl : l.length = 16) :
    bitOrder.map (bitValue (packWord l)) = l := by
  apply List.ext_getElem
  · simp [bitOrder, hl]
  · intro i h1 h2
    have hi : i < 16 := by rw [hl] at h2; exact h2
    have h65536 : (65536 : Nat) = 2 ^ 16 := by norm_num
    have hget : (bitOrder.map (bitValue (packWord l)))[i]
        = bitValue (packWord l) (15 - i) := by
      rw [List.getElem_map]
      congr 1
      interval_cases i <;> rfl
    rw [hget, bitValue_eq_testBit]
    show ((l.foldl (fun (acc : Nat) (b : Bool) => 2 * acc + b.toNat) 0) % 65536).testBit
      (15 - i) = l[i]
    rw [h65536, Nat.testBit_mod_two_pow, testBit_foldl_pack, hl]
    have h3 : 15 - i < 16 := by omega
    have h4 : 16 - 1 - (15 - i) = i := by omega
    rw [if_pos h3, h4, List.getElem?_eq_getElem h2]
    simp [h3]

theorem flatMap_range_chunks (bits : List Bool) (n : Nat) :
    (List.range n).flatMap (fun i => (bits.drop (16 * i)).take 16) = bits.take (16 * n) := by
  induction n with
  | zero => simp
  | succ n ih =>
    rw [List.range_succ, List.flatMap_append, ih, Nat.mul_succ, List.take_add]
    simp

/-- Packing a stream of 2880 samples into the buffer and reading the buffer back as a bit
stream gives the stream. -/
theorem bufferBits_packStream (bits : List Bool) (hlen : bits.length = 2880) :
    bufferBits (packStream bits) = bits := by
  unfold bufferBits packStream
  have hchunk : ∀ ii ∈ List.finRange NUM_SAMPLES,
      bitOrder.map (bitValue (packWord ((bits.drop (16 * ii.val)).take 16)))
        = (fun i : Nat => (bits.drop (16 * i)).take 16) ii.val := by
    intro ii _
    apply map_bitValue_packWord
    have := ii.isLt
    simp only [NUM_SAMPLES] at this
    simp [hlen]
    omega
  have hmap : (List.finRange NUM_SAMPLES).flatMap
      (fun ii => (fun i : Nat => (bits.drop (16 * i)).take 16) ii.val)
      = ((List.finRange NUM_SAMPLES).map Fin.val).flatMap
          (fun i : Nat => (bits.drop (16 * i)).take 16) :=
    (List.flatMap_map _ _ _).symm
  rw [List.flatMap_congr hchunk, hmap, List.map_coe_finRange, flatMap_range_chunks]
  simp [NUM_SAMPLES, hlen]

/-- The decode loop on a packed stream is the bit-by-bit fold over the stream. -/
theorem decodeSamples_packStream (thr : Int) (bits : List Bool) (hlen : bits.length = 2880)
    (bytes : Bytes) :
    decodeSamples thr (packStream bits) bytes
      = bits.foldl (decodeBit thr) { prev := true, count := 0, pair := -2, bytes := bytes } := by
  rw [decodeSamples_eq_foldl, bufferBits_packStream bits hlen]

theorem length_lineStream (n h0 l0 h1 : Nat) (lo hi : Fin n → Nat) (lc t : Nat) :
    (lineStream n h0 l0 h1 lo hi lc t).length
      = h0 + l0 + h1 + ((List.finRange n).map (fun i => lo i + hi i)).sum + lc + t := by
  simp [lineStream, lows, highs, List.length_flatMap, Function.comp_def]
  ring

/-- C3. Decoder round trip: a 2880-sample line stream made of an initial high run, the
preamble (a low run and a high run), forty pulses (a low run followed by a high run longer
than `oneBitThreshold` for a 1 and at most `oneBitThreshold` long for a 0), a closing low
run and a tail without high-to-low transition, packed most-significant-bit-first into the
180 words of the buffer, is decoded with final pair index 40 and with bit `7 - i % 8` of
`bytes[i / 8]` equal to bit `i` of the frame. -/
theorem decoder_round_trip (thr : Int) (b : Fin 40 → Bool) (h0 l0 h1 : Nat)
    (lo hi : Fin 40 → Nat) (lc t : Nat) (hl0 : 1 ≤ l0) (hh1 : 1 ≤ h1) (hlo : ∀ i, 1 ≤ lo i)
    (hhi : ∀ i, 1 ≤ hi i ∧ if b i = true then thr < (hi i : Int) else (hi i : Int) ≤ thr)
    (hlc : 1 ≤ lc) (hlen : (lineStream 40 h0 l0 h1 lo hi lc t).length = 2880) :
    (decodeSamples thr (packStream (lineStream 40 h0 l0 h1 lo hi lc t)) (fun _ => 0)).pair = 40 ∧
    ∀ i : Fin 40,
      bitOf (decodeSamples thr (packStream (lineStream 40 h0 l0 h1 lo hi lc t))
        (fun _ => 0)).bytes i = b i := by
  rw [decodeSamples_packStream thr _ hlen]
  have hmain := foldl_decodeBit_lineStream thr 40 h0 l0 h1 lo hi lc t hl0 hh1 hlo
    (fun i => (hhi i).1) hlc
  simp only [] at hmain
  obtain ⟨hpair, hbits⟩ := hmain
  refine ⟨by rw [hpair]; rfl, ?_⟩
  intro i
  have hi2 := (hhi i).2
  have hb := hbits i
  cases hbi : b i
  · rw [hbi] at hi2
    simp only [Bool.false_eq_true, if_false] at hi2
    rw [Bool.eq_false_iff]
    intro hcon
    obtain ⟨_, hlt⟩ := hb.mp hcon
    have hlt2 : thr < (hi i : Int) := hlt
    omega
  · rw [hbi] at hi2
    simp only [if_true] at hi2
    exact hb.mpr ⟨i.isLt, hi2⟩

/-- Witness for C3: the frame `00 00 00 00 01` with the run lengths of a real sensor
(13 samples for a 0, 37 for a 1) and the threshold 25 of both sensor types. -/
theorem decoder_round_trip_witness :
    ((1 ≤ 41 ∧ 1 ≤ 41 ∧ (∀ _i : Fin 40, 1 ≤ 26) ∧
      (∀ i : Fin 40, 1 ≤ (if decide (i.val = 39) = true then 37 else 13) ∧
        if decide (i.val = 39) = true
          then (25 : Int) < ((if decide (i.val = 39) = true then 37 else 13 : Nat) : Int)
          else ((if decide (i.val = 39) = true then 37 else 13 : Nat) : Int) ≤ 25) ∧
      1 ≤ 26 ∧
      (lineStream 40 15 41 41 (fun _ => 26)
        (fun i => if decide (i.val = 39) = true then 37 else 13) 26 1173).length = 2880) ∧
    ((decodeSamples 25 (packStream (lineStream 40 15 41 41 (fun _ => 26)
        (fun i => if decide (i.val = 39) = true then 37 else 13) 26 1173))
        (fun _ => 0)).pair = 40 ∧
     ∀ i : Fin 40,
      bitOf (decodeSamples 25 (packStream (lineStream 40 15 41 41 (fun _ => 26)
        (fun i => if decide (i.val = 39) = true then 37 else 13) 26 1173))
        (fun _ => 0)).bytes i = decide (i.val = 39))) :=
  ⟨⟨by decide, by decide, fun _ => by decide, by decide, by decide,
      by rw [length_lineStream]; decide⟩,
   decoder_round_trip 25 (fun i => decide (i.val = 39)) 15 41 41 (fun _ => 26)
     (fun i => if decide (i.val = 39) = true then 37 else 13) 26 1173
     (by decide) (by decide) (fun _ => Nat.le_of_ble_eq_true rfl) (by decide) (by decide)
     (by rw [length_lineStream]; decide)⟩

/-! ## The three sample captures -/

theorem byte_eq_zero (bytes : Bytes) (j : Fin 5)
    (h : ∀ q : Fin 40, q.val / 8 = j.val → bitOf bytes q = false) : bytes j = 0 := by
  apply Fin.ext
  show (bytes j).val = 0
  apply Nat.zero_of_testBit_eq_false
  intro i
  have hj := j.isLt
  by_cases hi : i < 8
  · have hq := h ⟨8 * j.val + (7 - i), by omega⟩ (by simp only []; omega)
    unfold bitOf at hq
    have hidx : (⟨(8 * j.val + (7 - i)) / 8, by omega⟩ : Fin 5) = j := Fin.ext (by simp only []; omega)
    have hbit : 7 - (8 * j.val + (7 - i)) % 8 = i := by omega
    simp only [] at hq
    rw [hidx, hbit] at hq
    exact hq
  · apply Nat.testBit_lt_two_pow
    have h1 : (bytes j).val < 2 ^ 8 := (bytes j).isLt
    have h2 : 2 ^ 8 ≤ 2 ^ i := Nat.pow_le_pow_right (by norm_num) (by omega)
    omega

theorem odd_of_bitOf_last (B : Bytes) (h39 : bitOf B ⟨39, by norm_num⟩ = true) :
    (B 4).val % 2 = 1 := by
  unfold bitOf at h39
  simp only [] at h39
  have e1 : (⟨39 / 8, by omega⟩ : Fin 5) = 4 := rfl
  have e2 : 7 - 39 % 8 = 0 := rfl
  rw [e1, e2, Nat.testBit_zero] at h39
  exact of_decide_eq_true h39

theorem decodeSamples_frameStream (thr : Int) (hthr : 13 ≤ thr ∧ thr < 37) (n : Nat)
    (b : Fin n → Bool) (t : Nat) (hlen : (frameStream n b t).length = 2880) :
    (decodeSamples thr (packStream (frameStream n b t)) (fun _ => 0)).pair = (n : Int) ∧
    ∀ q : Fin 40,
      (bitOf (decodeSamples thr (packStream (frameStream n b t)) (fun _ => 0)).bytes q = true
        ↔ ∃ h : q.val < n, b ⟨q.val, h⟩ = true) := by
  rw [decodeSamples_packStream thr _ hlen]
  have hmain := foldl_decodeBit_lineStream thr n 15 41 41 (fun _ => 26)
    (fun i => if b i = true then 37 else 13) 26 t (by norm_num) (by norm_num)
    (fun _ => by norm_num)
    (fun i => by show 1 ≤ (if b i = true then 37 else 13); split <;> norm_num) (by norm_num)
  simp only [] at hmain
  obtain ⟨hpair, hbits⟩ := hmain
  refine ⟨hpair, fun q => ?_⟩
  rw [frameStream, hbits q]
  constructor
  · rintro ⟨h, hlt⟩
    refine ⟨h, ?_⟩
    by_contra hb
    rw [if_neg hb] at hlt
    have : thr < 13 := by exact_mod_cast hlt
    omega
  · rintro ⟨h, hb⟩
    refine ⟨h, ?_⟩
    rw [if_pos hb]
    have : thr < 37 := hthr.2
    exact_mod_cast this

theorem length_frameStream (n : Nat) (b : Fin n → Bool) (t : Nat) :
    (frameStream n b t).length
      = 123 + ((List.finRange n).map (fun i => 26 + if b i = true then 37 else 13)).sum + t := by
  rw [frameStream, length_lineStream]
  ring

theorem length_badFrame :
    (frameStream 40 (fun i => decide (i.val = 39)) 1173).length = 2880 := by
  rw [length_frameStream]; decide

/-- The capture `goodFrame` decodes to 40 pairs and the bytes `00 00 00 00 00`. -/
theorem decodeSamples_goodFrame (thr : Int) (hthr : 13 ≤ thr ∧ thr < 37) :
    (decodeSamples thr goodFrame (fun _ => 0)).pair = 40 ∧
    (decodeSamples thr goodFrame (fun _ => 0)).bytes = fun _ => 0 := by
  have h := decodeSamples_frameStream thr hthr 40 (fun _ => false) 1197
    (by rw [length_frameStream]; decide)
  obtain ⟨hpair, hbits⟩ := h
  refine ⟨by rw [goodFrame, hpair]; rfl, ?_⟩
  funext j
  apply byte_eq_zero
  intro q _
  rw [Bool.eq_false_iff]
  intro hcon
  obtain ⟨_, hb⟩ := (hbits q).mp hcon
  exact absurd hb (by simp)

/-- The capture `badFrame` decodes to 40 pairs, four zero bytes and an odd fifth byte. -/
theorem decodeSamples_badFrame (thr : Int) (hthr : 13 ≤ thr ∧ thr < 37) :
    (decodeSamples thr badFrame (fun _ => 0)).pair = 40 ∧
    (∀ j : Fin 5, j.val < 4 → (decodeSamples thr badFrame (fun _ => 0)).bytes j = 0) ∧
    ((decodeSamples thr badFrame (fun _ => 0)).bytes 4).val % 2 = 1 := by
  have h := decodeSamples_frameStream thr hthr 40 (fun i => decide (i.val = 39)) 1173
    length_badFrame
  obtain ⟨hpair, hbits⟩ := h
  refine ⟨by rw [badFrame, hpair]; rfl, ?_, ?_⟩
  · intro j hj
    apply byte_eq_zero
    intro q hq
    rw [Bool.eq_false_iff]
    intro hcon
    obtain ⟨_, hb⟩ := (hbits q).mp hcon
    simp only [decide_eq_true_eq] at hb
    omega
  · have h39 := (hbits ⟨39, by norm_num⟩).mpr ⟨by norm_num, decide_eq_true rfl⟩
    exact odd_of_bitOf_last _ h39

/-- The capture `shortFrame` decodes to 39 pairs. -/
theorem decodeSamples_shortFrame (thr : Int) (hthr : 13 ≤ thr ∧ thr < 37) :
    (decodeSamples thr shortFrame (fun _ => 0)).pair = 39 := by
  have h := decodeSamples_frameStream thr hthr 39 (fun _ => false) 1236
    (by rw [length_frameStream]; decide)
  rw [shortFrame, h.1]; rfl

theorem isValidChecksum_goodFrame (thr : Int) (hthr : 13 ≤ thr ∧ thr < 37) (s : DHTSample) :
    DHTSample.isValidChecksum
      { s with bytes := (decodeSamples thr goodFrame (fun _ => 0)).bytes } = true := by
  rw [(decodeSamples_goodFrame thr hthr).2]
  simp [DHTSample.isValidChecksum]

theorem isValidChecksum_of_odd_last (B : Bytes) (s : DHTSample)
    (hz : ∀ j : Fin 5, j.val < 4 → B j = 0) (hodd : (B 4).val % 2 = 1) :
    DHTSample.isValidChecksum { s with bytes := B } = false := by
  have h0 : (B 0).val = 0 := by rw [hz 0 (by decide)]; rfl
  have h1 : (B 1).val = 0 := by rw [hz 1 (by decide)]; rfl
  have h2 : (B 2).val = 0 := by rw [hz 2 (by decide)]; rfl
  have h3 : (B 3).val = 0 := by rw [hz 3 (by decide)]; rfl
  simp only [DHTSample.isValidChecksum, decide_eq_false_iff_not, h0, h1, h2, h3]
  omega

theorem isValidChecksum_badFrame (thr : Int) (hthr : 13 ≤ thr ∧ thr < 37) (s : DHTSample) :
    DHTSample.isValidChecksum
      { s with bytes := (decodeSamples thr badFrame (fun _ => 0)).bytes } = false :=
  isValidChecksum_of_odd_last _ s (decodeSamples_badFrame thr hthr).2.1
    (decodeSamples_badFrame thr hthr).2.2

/-! ## The state machine, one call of `loop()` at a time -/

theorem loop_sampling_complete (hal : Hal) (m : DHT22Gen3)
    (hstate : m.state = State.SAMPLING_STATE) (hdone : 2 ≤ m.buffersRequested) :
    DHT22Gen3.loop hal m
      = ((m.decodeAndFinish hal.sampleBuffer (hal.millis 0) (hal.millis 1)).1,
         Effect.i2sUninit ::
           (m.decodeAndFinish hal.sampleBuffer (hal.millis 0) (hal.millis 1)).2) := by
  have h2 : ¬ m.buffersRequested < 2 := by omega
  simp [DHT22Gen3.loop, hstate, h2]

/-- C2. In `SAMPLING_STATE` with a completed capture, `loop()` invokes the stored completion
with a `SUCCESS` sample exactly when the decode loop ended with pair index 40 and the decoded
bytes pass `isValidChecksum()`; that is also exactly when it leaves `SUCCESS` in `result`
and goes to `IDLE_STATE`.  A sample delivered with `SUCCESS` carries the decoded bytes. -/
theorem loop_success_iff (hal : Hal) (m : DHT22Gen3)
    (hstate : m.state = State.SAMPLING_STATE) (hdone : 2 ≤ m.buffersRequested) :
    (∀ c : CompletionId, m.completion = some c →
      ((∃ s, Effect.completion c s ∈ (DHT22Gen3.loop hal m).2 ∧
            s.sampleResult = SampleResult.SUCCESS)
        ↔ ((decodeSamples m.sensorType.oneBitThreshold hal.sampleBuffer (fun _ => 0)).pair = 40 ∧
           DHTSample.isValidChecksum
             { m.result with
               bytes := (decodeSamples m.sensorType.oneBitThreshold hal.sampleBuffer
                 (fun _ => 0)).bytes } = true))) ∧
    (((DHT22Gen3.loop hal m).1.state = State.IDLE_STATE ∧
        (DHT22Gen3.loop hal m).1.result.sampleResult = SampleResult.SUCCESS)
      ↔ ((decodeSamples m.sensorType.oneBitThreshold hal.sampleBuffer (fun _ => 0)).pair = 40 ∧
         DHTSample.isValidChecksum
           { m.result with
             bytes := (decodeSamples m.sensorType.oneBitThreshold hal.sampleBuffer
               (fun _ => 0)).bytes } = true)) ∧
    (∀ c' s, Effect.completion c' s ∈ (DHT22Gen3.loop hal m).2 →
        s.sampleResult = SampleResult.SUCCESS →
        s.bytes = (decodeSamples m.sensorType.oneBitThreshold hal.sampleBuffer
          (fun _ => 0)).bytes) := by
  rw [loop_sampling_complete hal m hstate hdone]
  simp only [DHT22Gen3.decodeAndFinish]
  generalize decodeSamples m.sensorType.oneBitThreshold hal.sampleBuffer (fun _ => 0) = d
  by_cases hp : d.pair = 40
  · by_cases hv : DHTSample.isValidChecksum { m.result with bytes := d.bytes } = true
    · cases hcm : m.completion <;>
        simp [hp, hv, DHT22Gen3.callCompletion, DHT22Gen3.invoke, hcm]
    · by_cases ht : m.result.tries ≥ m.maxTries
      · cases hcm : m.completion <;>
          simp [hp, hv, ht, DHT22Gen3.retryOrGiveUp, DHT22Gen3.callCompletion,
            DHT22Gen3.invoke, hcm]
      · simp [hp, hv, ht, DHT22Gen3.retryOrGiveUp]
  · by_cases ht : m.result.tries ≥ m.maxTries
    · cases hcm : m.completion <;>
        simp [hp, ht, DHT22Gen3.retryOrGiveUp, DHT22Gen3.callCompletion, DHT22Gen3.invoke, hcm]
    · simp [hp, ht, DHT22Gen3.retryOrGiveUp]

/-- Witness for C2: the first attempt of a request, with the capture of a valid frame
complete. -/
theorem loop_success_iff_witness :
    (samplingDht.state = State.SAMPLING_STATE ∧ 2 ≤ samplingDht.buffersRequested) ∧
    ((∀ c : CompletionId, samplingDht.completion = some c →
      ((∃ s, Effect.completion c s ∈ (DHT22Gen3.loop (halAt 124 goodFrame) samplingDht).2 ∧
            s.sampleResult = SampleResult.SUCCESS)
        ↔ ((decodeSamples samplingDht.sensorType.oneBitThreshold
              (halAt 124 goodFrame).sampleBuffer (fun _ => 0)).pair = 40 ∧
           DHTSample.isValidChecksum
             { samplingDht.result with
               bytes := (decodeSamples samplingDht.sensorType.oneBitThreshold
                 (halAt 124 goodFrame).sampleBuffer (fun _ => 0)).bytes } = true))) ∧
    (((DHT22Gen3.loop (halAt 124 goodFrame) samplingDht).1.state = State.IDLE_STATE ∧
        (DHT22Gen3.loop (halAt 124 goodFrame) samplingDht).1.result.sampleResult
          = SampleResult.SUCCESS)
      ↔ ((decodeSamples samplingDht.sensorType.oneBitThreshold
            (halAt 124 goodFrame).sampleBuffer (fun _ => 0)).pair = 40 ∧
         DHTSample.isValidChecksum
           { samplingDht.result with
             bytes := (decodeSamples samplingDht.sensorType.oneBitThreshold
               (halAt 124 goodFrame).sampleBuffer (fun _ => 0)).bytes } = true)) ∧
    (∀ c' s, Effect.completion c' s ∈ (DHT22Gen3.loop (halAt 124 goodFrame) samplingDht).2 →
        s.sampleResult = SampleResult.SUCCESS →
        s.bytes = (decodeSamples samplingDht.sensorType.oneBitThreshold
          (halAt 124 goodFrame).sampleBuffer (fun _ => 0)).bytes)) :=
  ⟨⟨by decide, by decide⟩,
   loop_success_iff (halAt 124 goodFrame) samplingDht (by decide) (by decide)⟩

/-- C7. In `SAMPLING_STATE` with a completed capture whose decode ends with a pair index
other than 40, `loop()` never invokes a completion with `SUCCESS`, whatever the decoded bytes;
it goes back to `START_STATE` without invoking the completion when `tries < maxTries` and
calls `callCompletion(TOO_MANY_RETRIES)` otherwise.  A capture with 40 pairs and a bad
checksum is handled by the same statements, with the same outcome. -/
theorem loop_framing_failure (hal : Hal) (m : DHT22Gen3)
    (hstate : m.state = State.SAMPLING_STATE) (hdone : 2 ≤ m.buffersRequested)
    (hpair : (decodeSamples m.sensorType.oneBitThreshold hal.sampleBuffer
      (fun _ => 0)).pair ≠ 40) :
    (∀ c s, Effect.completion c s ∈ (DHT22Gen3.loop hal m).2 →
        s.sampleResult ≠ SampleResult.SUCCESS) ∧
    (m.result.tries < m.maxTries →
      DHT22Gen3.loop hal m
        = ({ m with
              lastRequestTime := hal.millis 0
              result := { m.result with
                bytes := (decodeSamples m.sensorType.oneBitThreshold hal.sampleBuffer
                  (fun _ => 0)).bytes }
              stateTime := hal.millis 1
              state := State.START_STATE }, [Effect.i2sUninit])) ∧
    (m.maxTries ≤ m.result.tries →
      DHT22Gen3.loop hal m
        = ({ m with
              lastRequestTime := hal.millis 0
              result := { m.result with
                bytes := (decodeSamples m.sensorType.oneBitThreshold hal.sampleBuffer
                  (fun _ => 0)).bytes
                sampleResult := SampleResult.TOO_MANY_RETRIES }
              state := State.IDLE_STATE },
           Effect.i2sUninit :: DHT22Gen3.invoke m.completion
              { m.result with
                bytes := (decodeSamples m.sensorType.oneBitThreshold hal.sampleBuffer
                  (fun _ => 0)).bytes
                sampleResult := SampleResult.TOO_MANY_RETRIES })) ∧
    (∀ hal2 : Hal,
      (decodeSamples m.sensorType.oneBitThreshold hal2.sampleBuffer (fun _ => 0)).pair = 40 →
      DHTSample.isValidChecksum
        { m.result with
          bytes := (decodeSamples m.sensorType.oneBitThreshold hal2.sampleBuffer
            (fun _ => 0)).bytes } = false →
      (DHT22Gen3.loop hal2 m).1.state
          = (if m.result.tries < m.maxTries then State.START_STATE else State.IDLE_STATE) ∧
      (DHT22Gen3.loop hal m).1.state
          = (if m.result.tries < m.maxTries then State.START_STATE else State.IDLE_STATE) ∧
      completions (DHT22Gen3.loop hal2 m).2
          = (completions (DHT22Gen3.loop hal m).2).map
              (fun cs => (cs.1, { cs.2 with
                bytes := (decodeSamples m.sensorType.oneBitThreshold hal2.sampleBuffer
                  (fun _ => 0)).bytes })) ∧
      (∀ cs ∈ completions (DHT22Gen3.loop hal2 m).2,
          cs.2.sampleResult = SampleResult.TOO_MANY_RETRIES) ∧
      (∀ cs ∈ completions (DHT22Gen3.loop hal m).2,
          cs.2.sampleResult = SampleResult.TOO_MANY_RETRIES)) := by
  have hloop2 : ∀ hal2 : Hal, DHT22Gen3.loop hal2 m
      = ((m.decodeAndFinish hal2.sampleBuffer (hal2.millis 0) (hal2.millis 1)).1,
         Effect.i2sUninit ::
           (m.decodeAndFinish hal2.sampleBuffer (hal2.millis 0) (hal2.millis 1)).2) :=
    fun hal2 => loop_sampling_complete hal2 m hstate hdone
  rw [hloop2 hal]
  simp only [DHT22Gen3.decodeAndFinish]
  generalize decodeSamples m.sensorType.oneBitThreshold hal.sampleBuffer (fun _ => 0) = d
    at hpair ⊢
  refine ⟨?_, ?_, ?_, ?_⟩
  · intro c s
    by_cases ht : m.result.tries ≥ m.maxTries
    · cases hcm : m.completion <;>
        simp [hpair, ht, DHT22Gen3.retryOrGiveUp, DHT22Gen3.callCompletion,
          DHT22Gen3.invoke, hcm]
      rintro rfl rfl
      simp
    · simp [hpair, ht, DHT22Gen3.retryOrGiveUp]
  · intro ht
    have ht2 : ¬ m.result.tries ≥ m.maxTries := by omega
    simp [hpair, ht2, DHT22Gen3.retryOrGiveUp]
  · intro ht
    have ht2 : m.result.tries ≥ m.maxTries := by omega
    simp [hpair, ht2, DHT22Gen3.retryOrGiveUp, DHT22Gen3.callCompletion]
  · intro hal2
    rw [hloop2 hal2]
    simp only [DHT22Gen3.decodeAndFinish]
    generalize decodeSamples m.sensorType.oneBitThreshold hal2.sampleBuffer (fun _ => 0) = d2
    intro hp2 hv2
    by_cases ht : m.result.tries < m.maxTries
    · have ht2 : ¬ m.result.tries ≥ m.maxTries := by omega
      simp [hpair, hp2, hv2, ht, ht2, DHT22Gen3.retryOrGiveUp, completions]
    · have ht2 : m.result.tries ≥ m.maxTries := by omega
      cases hcm : m.completion <;>
        simp [hpair, hp2, hv2, ht, ht2, DHT22Gen3.retryOrGiveUp, DHT22Gen3.callCompletion,
          DHT22Gen3.invoke, hcm, completions]

theorem shortFrame_pair_ne :
    (decodeSamples samplingDht.sensorType.oneBitThreshold
      (halAt 124 shortFrame).sampleBuffer (fun _ => 0)).pair ≠ 40 := by
  have h : (decodeSamples samplingDht.sensorType.oneBitThreshold
      (halAt 124 shortFrame).sampleBuffer (fun _ => 0)).pair = 39 :=
    decodeSamples_shortFrame 25 (by decide)
  rw [h]; decide

/-- Witness for C7: the capture of a frame of only 39 bits during the first attempt. -/
theorem loop_framing_failure_witness :
    (samplingDht.state = State.SAMPLING_STATE ∧ 2 ≤ samplingDht.buffersRequested ∧
      (decodeSamples samplingDht.sensorType.oneBitThreshold
        (halAt 124 shortFrame).sampleBuffer (fun _ => 0)).pair ≠ 40) ∧
    (
    (∀ c s, Effect.completion c s ∈ (DHT22Gen3.loop (halAt 124 shortFrame) samplingDht).2 →
        s.sampleResult ≠ SampleResult.SUCCESS) ∧
    (samplingDht.result.tries < samplingDht.maxTries →
      DHT22Gen3.loop (halAt 124 shortFrame) samplingDht
        = ({ samplingDht with
              lastRequestTime := (halAt 124 shortFrame).millis 0
              result := { samplingDht.result with
                bytes := (decodeSamples samplingDht.sensorType.oneBitThreshold (halAt 124 shortFrame).sampleBuffer
                  (fun _ => 0)).bytes }
              stateTime := (halAt 124 shortFrame).millis 1
              state := State.START_STATE }, [Effect.i2sUninit])) ∧
    (samplingDht.maxTries ≤ samplingDht.result.tries →
      DHT22Gen3.loop (halAt 124 shortFrame) samplingDht
        = ({ samplingDht with
              lastRequestTime := (halAt 124 shortFrame).millis 0
              result := { samplingDht.result with
                bytes := (decodeSamples samplingDht.sensorType.oneBitThreshold (halAt 124 shortFrame).sampleBuffer
                  (fun _ => 0)).bytes
                sampleResult := SampleResult.TOO_MANY_RETRIES }
              state := State.IDLE_STATE },
           Effect.i2sUninit :: DHT22Gen3.invoke samplingDht.completion
              { samplingDht.result with
                bytes := (decodeSamples samplingDht.sensorType.oneBitThreshold (halAt 124 shortFrame).sampleBuffer
                  (fun _ => 0)).bytes
                sampleResult := SampleResult.TOO_MANY_RETRIES })) ∧
    (∀ hal2 : Hal,
      (decodeSamples samplingDht.sensorType.oneBitThreshold hal2.sampleBuffer (fun _ => 0)).pair = 40 →
      DHTSample.isValidChecksum
        { samplingDht.result with
          bytes := (decodeSamples samplingDht.sensorType.oneBitThreshold hal2.sampleBuffer
            (fun _ => 0)).bytes } = false →
      (DHT22Gen3.loop hal2 samplingDht).1.state
          = (if samplingDht.result.tries < samplingDht.maxTries then State.START_STATE else State.IDLE_STATE) ∧
      (DHT22Gen3.loop (halAt 124 shortFrame) samplingDht).1.state
          = (if samplingDht.result.tries < samplingDht.maxTries then State.START_STATE else State.IDLE_STATE) ∧
      completions (DHT22Gen3.loop hal2 samplingDht).2
          = (completions (DHT22Gen3.loop (halAt 124 shortFrame) samplingDht).2).map
              (fun cs => (cs.1, { cs.2 with
                bytes := (decodeSamples samplingDht.sensorType.oneBitThreshold hal2.sampleBuffer
                  (fun _ => 0)).bytes })) ∧
      (∀ cs ∈ completions (DHT22Gen3.loop hal2 samplingDht).2,
          cs.2.sampleResult = SampleResult.TOO_MANY_RETRIES) ∧
      (∀ cs ∈ completions (DHT22Gen3.loop (halAt 124 shortFrame) samplingDht).2,
          cs.2.sampleResult = SampleResult.TOO_MANY_RETRIES))) :=
  ⟨⟨by decide, by decide, shortFrame_pair_ne⟩,
   loop_framing_failure (halAt 124 shortFrame) samplingDht (by decide) (by decide)
     shortFrame_pair_ne⟩

theorem loop_completion_last (hal : Hal) (m : DHT22Gen3) (c : CompletionId) (s : DHTSample)
    (hmem : Effect.completion c s ∈ (DHT22Gen3.loop hal m).2) :
    (DHT22Gen3.loop hal m).2.getLast? = some (Effect.completion c s) ∧
    (DHT22Gen3.loop hal m).1.state = State.IDLE_STATE ∧
    (DHT22Gen3.loop hal m).1.result = s ∧
    s.sampleResult ≠ SampleResult.BUSY := by
  cases hst : m.state
  all_goals simp only [DHT22Gen3.loop, hst] at hmem ⊢
  · simp at hmem
  · split_ifs at hmem ⊢ <;> simp [DHT22Gen3.startAttempt] at hmem
  · cases hcm : m.completion <;>
      split_ifs at hmem ⊢ <;>
      simp [DHT22Gen3.callCompletion, DHT22Gen3.invoke, hcm] at hmem ⊢ <;>
      (obtain ⟨rfl, rfl⟩ := hmem; simp)
  · simp only [DHT22Gen3.decodeAndFinish, DHT22Gen3.retryOrGiveUp] at hmem ⊢
    cases hcm : m.completion <;>
      split_ifs at hmem ⊢ <;>
      simp [DHT22Gen3.callCompletion, DHT22Gen3.invoke, hcm] at hmem ⊢ <;>
      (obtain ⟨rfl, rfl⟩ := hmem; simp)

/-! ## Whole attempts -/

theorem sub32_add (t k : U32) : sub32 (t + k) t = k.val := by
  have ht := t.isLt
  have hk := k.isLt
  unfold sub32
  rw [Fin.val_add]
  omega

theorem run_append (m : DHT22Gen3) (l1 l2 : List Call) :
    run m (l1 ++ l2) = ((run (run m l1).1 l2).1, (run m l1).2 ++ (run (run m l1).1 l2).2) := by
  induction l1 generalizing m with
  | nil => simp [run]
  | cons c cs ih => simp [run, ih, List.append_assoc]

theorem completions_append (l1 l2 : List Effect) :
    completions (l1 ++ l2) = completions l1 ++ completions l2 := by
  induction l1 with
  | nil => rfl
  | cons e es ih => cases e <;> simp [completions, ih]

/-- The first two calls of `loop()` of an attempt: the line is driven low, released after
18 ms, the capture is started and the try counter is set to 1. -/
theorem run_attempt_start (m : DHT22Gen3) (t : U32) (buf : SampleBuffer)
    (hstate : m.state = State.START_STATE)
    (hgate : m.lastRequestTime = 0 ∨
      m.sensorType.minSamplePeriodMs.val ≤ sub32 t m.lastRequestTime) :
    run m [Call.loop (halAt t buf), Call.loop (halAt (t + 18) buf),
           Call.dataHandler true, Call.dataHandler true]
      = ({ m with
            result := { m.result with sampleResult := SampleResult.ERROR, tries := 1 }
            stateTime := t + 18
            state := State.SAMPLING_STATE
            buffersRequested := 2 },
         [Effect.pinMode m.unusedPin1 PinMode.OUTPUT,
          Effect.pinMode m.unusedPin2 PinMode.OUTPUT,
          Effect.pinMode m.dhtPin PinMode.OUTPUT,
          Effect.digitalWrite m.dhtPin false,
          Effect.pinMode m.dhtPin PinMode.INPUT,
          Effect.i2sInit m.dhtPin m.unusedPin1 m.unusedPin2,
          Effect.i2sStart,
          Effect.i2sStop]) := by
  have h18 : ¬ sub32 (t + 18) t < 18 := by rw [sub32_add]; decide
  have hg : ¬ (m.lastRequestTime ≠ 0 ∧
      sub32 t m.lastRequestTime < m.sensorType.minSamplePeriodMs.val) := by
    rintro ⟨h1, h2⟩
    rcases hgate with h | h
    · exact h1 h
    · omega
  simp [run, call, DHT22Gen3.loop, hstate, halAt, hg, h18, DHT22Gen3.startAttempt,
    DHTSample.clear, DHT22Gen3.dataHandler]

/-- An attempt whose capture fails framing or checksum, made with `maxTries` at least 2:
the object is back in `START_STATE` with `tries = 1` and no completion has been invoked. -/
theorem run_attempt_fail (m : DHT22Gen3) (t : U32) (buf : SampleBuffer)
    (hstate : m.state = State.START_STATE)
    (hgate : m.lastRequestTime = 0 ∨
      m.sensorType.minSamplePeriodMs.val ≤ sub32 t m.lastRequestTime)
    (hfail : (decodeSamples m.sensorType.oneBitThreshold buf (fun _ => 0)).pair ≠ 40 ∨
      ∀ s : DHTSample, DHTSample.isValidChecksum
        { s with bytes := (decodeSamples m.sensorType.oneBitThreshold buf
            (fun _ => 0)).bytes } = false)
    (htries : 1 < m.maxTries) :
    run m (attempt t buf)
      = ({ m with
            result :=
              { sampleResult := SampleResult.ERROR
                sensorType := m.result.sensorType
                bytes := (decodeSamples m.sensorType.oneBitThreshold buf (fun _ => 0)).bytes
                tries := 1 }
            lastRequestTime := t + 24
            stateTime := t + 24
            state := State.START_STATE
            buffersRequested := 2 },
         [Effect.pinMode m.unusedPin1 PinMode.OUTPUT,
          Effect.pinMode m.unusedPin2 PinMode.OUTPUT,
          Effect.pinMode m.dhtPin PinMode.OUTPUT,
          Effect.digitalWrite m.dhtPin false,
          Effect.pinMode m.dhtPin PinMode.INPUT,
          Effect.i2sInit m.dhtPin m.unusedPin1 m.unusedPin2,
          Effect.i2sStart,
          Effect.i2sStop,
          Effect.i2sUninit]) := by
  have hsplit : attempt t buf
      = [Call.loop (halAt t buf), Call.loop (halAt (t + 18) buf),
         Call.dataHandler true, Call.dataHandler true]
        ++ [Call.loop (halAt (t + 24) buf)] := rfl
  rw [hsplit, run_append, run_attempt_start m t buf hstate hgate]
  have ht : ¬ ((1 : Int) ≥ m.maxTries) := by omega
  rcases hfail with hp | hv
  · simp [run, call, DHT22Gen3.loop, halAt, DHT22Gen3.decodeAndFinish,
      DHT22Gen3.retryOrGiveUp, hp, ht]
  · have hv2 := hv
      { sampleResult := SampleResult.ERROR, sensorType := m.result.sensorType, tries := 1 }
    by_cases hp : (decodeSamples m.sensorType.oneBitThreshold buf (fun _ => 0)).pair = 40
    · simp [run, call, DHT22Gen3.loop, halAt, DHT22Gen3.decodeAndFinish,
        DHT22Gen3.retryOrGiveUp, hp, hv2, ht]
    · simp [run, call, DHT22Gen3.loop, halAt, DHT22Gen3.decodeAndFinish,
        DHT22Gen3.retryOrGiveUp, hp, ht]

/-- An attempt whose capture decodes to 40 pairs with a valid checksum: the object is in
`IDLE_STATE` and the completion has been invoked once, with `SUCCESS` and `tries = 1`. -/
theorem run_attempt_success (m : DHT22Gen3) (t : U32) (buf : SampleBuffer)
    (hstate : m.state = State.START_STATE)
    (hgate : m.lastRequestTime = 0 ∨
      m.sensorType.minSamplePeriodMs.val ≤ sub32 t m.lastRequestTime)
    (hpair : (decodeSamples m.sensorType.oneBitThreshold buf (fun _ => 0)).pair = 40)
    (hvalid : ∀ s : DHTSample, DHTSample.isValidChecksum
        { s with bytes := (decodeSamples m.sensorType.oneBitThreshold buf
            (fun _ => 0)).bytes } = true) :
    run m (attempt t buf)
      = ({ m with
            result :=
              { sampleResult := SampleResult.SUCCESS
                sensorType := m.result.sensorType
                bytes := (decodeSamples m.sensorType.oneBitThreshold buf (fun _ => 0)).bytes
                tries := 1 }
            lastRequestTime := t + 24
            stateTime := t + 18
            state := State.IDLE_STATE
            buffersRequested := 2 },
         [Effect.pinMode m.unusedPin1 PinMode.OUTPUT,
          Effect.pinMode m.unusedPin2 PinMode.OUTPUT,
          Effect.pinMode m.dhtPin PinMode.OUTPUT,
          Effect.digitalWrite m.dhtPin false,
          Effect.pinMode m.dhtPin PinMode.INPUT,
          Effect.i2sInit m.dhtPin m.unusedPin1 m.unusedPin2,
          Effect.i2sStart,
          Effect.i2sStop,
          Effect.i2sUninit]
          ++ DHT22Gen3.invoke m.completion
              { sampleResult := SampleResult.SUCCESS
                sensorType := m.result.sensorType
                bytes := (decodeSamples m.sensorType.oneBitThreshold buf (fun _ => 0)).bytes
                tries := 1 }) := by
  have hsplit : attempt t buf
      = [Call.loop (halAt t buf), Call.loop (halAt (t + 18) buf),
         Call.dataHandler true, Call.dataHandler true]
        ++ [Call.loop (halAt (t + 24) buf)] := rfl
  rw [hsplit, run_append, run_attempt_start m t buf hstate hgate]
  have hv2 := hvalid
    { sampleResult := SampleResult.ERROR, sensorType := m.result.sensorType, tries := 1 }
  simp [run, call, DHT22Gen3.loop, halAt, DHT22Gen3.decodeAndFinish,
    DHT22Gen3.callCompletion, hpair, hv2]

/-- What a failed attempt leaves behind, in the form used to chain attempts. -/
theorem run_attempt_fail_next (m : DHT22Gen3) (t : U32) (buf : SampleBuffer)
    (hstate : m.state = State.START_STATE)
    (hgate : m.lastRequestTime = 0 ∨
      m.sensorType.minSamplePeriodMs.val ≤ sub32 t m.lastRequestTime)
    (hfail : (decodeSamples m.sensorType.oneBitThreshold buf (fun _ => 0)).pair ≠ 40 ∨
      ∀ s : DHTSample, DHTSample.isValidChecksum
        { s with bytes := (decodeSamples m.sensorType.oneBitThreshold buf
            (fun _ => 0)).bytes } = false)
    (htries : 1 < m.maxTries) :
    (run m (attempt t buf)).1.state = State.START_STATE ∧
    (run m (attempt t buf)).1.lastRequestTime = t + 24 ∧
    (run m (attempt t buf)).1.sensorType = m.sensorType ∧
    (run m (attempt t buf)).1.maxTries = m.maxTries ∧
    (run m (attempt t buf)).1.completion = m.completion ∧
    (run m (attempt t buf)).1.dhtPin = m.dhtPin ∧
    (run m (attempt t buf)).1.unusedPin1 = m.unusedPin1 ∧
    (run m (attempt t buf)).1.unusedPin2 = m.unusedPin2 ∧
    (run m (attempt t buf)).1.result.sensorType = m.result.sensorType ∧
    (run m (attempt t buf)).1.result.tries = 1 ∧
    completions (run m (attempt t buf)).2 = [] := by
  rw [run_attempt_fail m t buf hstate hgate hfail htries]
  simp [completions]

/-- A failed attempt with the DHT22 sensor type, the capture `badFrame` and `maxTries = 4`,
in the form used to chain attempts. -/
theorem run_attempt_badFrame (m : DHT22Gen3) (t : U32) (hstate : m.state = State.START_STATE)
    (hsens : m.sensorType = sensorTypeDHT22) (hmax : m.maxTries = 4)
    (hgate : m.lastRequestTime = 0 ∨ 2000 ≤ sub32 t m.lastRequestTime) :
    (run m (attempt t badFrame)).1.state = State.START_STATE ∧
    (run m (attempt t badFrame)).1.sensorType = sensorTypeDHT22 ∧
    (run m (attempt t badFrame)).1.maxTries = 4 ∧
    (run m (attempt t badFrame)).1.lastRequestTime = t + 24 ∧
    (run m (attempt t badFrame)).1.completion = m.completion ∧
    (run m (attempt t badFrame)).1.dhtPin = m.dhtPin ∧
    (run m (attempt t badFrame)).1.unusedPin1 = m.unusedPin1 ∧
    (run m (attempt t badFrame)).1.unusedPin2 = m.unusedPin2 ∧
    (run m (attempt t badFrame)).1.result.sensorType = m.result.sensorType ∧
    (run m (attempt t badFrame)).1.result.tries = 1 ∧
    completions (run m (attempt t badFrame)).2 = [] := by
  have hgate2 : m.lastRequestTime = 0 ∨
      m.sensorType.minSamplePeriodMs.val ≤ sub32 t m.lastRequestTime := by
    rw [hsens]; exact hgate
  have hfail : (decodeSamples m.sensorType.oneBitThreshold badFrame (fun _ => 0)).pair ≠ 40 ∨
      ∀ s : DHTSample, DHTSample.isValidChecksum
        { s with bytes := (decodeSamples m.sensorType.oneBitThreshold badFrame
            (fun _ => 0)).bytes } = false := by
    rw [hsens]; exact Or.inr (isValidChecksum_badFrame 25 (by decide))
  have h := run_attempt_fail_next m t badFrame hstate hgate2 hfail (by rw [hmax]; decide)
  obtain ⟨h1, h2, h3, h4, h5, h6, h7, h8, h9, h10, h11⟩ := h
  exact ⟨h1, h3.trans hsens, h4.trans hmax, h2, h5, h6, h7, h8, h9, h10, h11⟩

theorem run_cons (m : DHT22Gen3) (c : Call) (cs : List Call) :
    run m (c :: cs) = ((run (call m c).1 cs).1, (call m c).2 ++ (run (call m c).1 cs).2) :=
  rfl

theorem call_request : call dht request = (requestedDht, []) := rfl

theorem run_request_cons (cs : List Call) :
    run dht (request :: cs) = run requestedDht cs := by
  rw [run_cons, call_request, List.nil_append]

theorem sub32_startTime (k : Nat) : sub32 (startTime (k + 1)) (startTime k + 24) = 2076 := by
  unfold sub32 startTime
  rw [Fin.val_add]
  simp only []
  have h24 : ((24 : U32) : Nat) = 24 := rfl
  rw [h24]
  omega

/-- Invariant of the retries: after the request and any number `k` of failed attempts the
object waits in `START_STATE`, no completion has been invoked and, as soon as one attempt
has been made, `tries` is 1. -/
theorem run_badAttempts (k : Nat) :
    (run requestedDht (badAttempts k)).1.state = State.START_STATE ∧
    (run requestedDht (badAttempts k)).1.sensorType = sensorTypeDHT22 ∧
    (run requestedDht (badAttempts k)).1.maxTries = 4 ∧
    ((run requestedDht (badAttempts k)).1.lastRequestTime = 0 ∨
      2000 ≤ sub32 (startTime k) (run requestedDht (badAttempts k)).1.lastRequestTime) ∧
    (run requestedDht (badAttempts k)).1.completion = some 7 ∧
    (run requestedDht (badAttempts k)).1.dhtPin = 16 ∧
    (run requestedDht (badAttempts k)).1.unusedPin1 = 15 ∧
    (run requestedDht (badAttempts k)).1.unusedPin2 = 14 ∧
    (run requestedDht (badAttempts k)).1.result.sensorType = some sensorTypeDHT22 ∧
    (0 < k → (run requestedDht (badAttempts k)).1.result.tries = 1) ∧
    (0 < k →
      (run requestedDht (badAttempts k)).1.lastRequestTime = startTime (k - 1) + 24) ∧
    completions (run requestedDht (badAttempts k)).2 = [] := by
  induction k with
  | zero =>
    refine ⟨rfl, rfl, rfl, Or.inl rfl, rfl, rfl, rfl, rfl, rfl, ?_, ?_, rfl⟩
    · intro h; exact absurd h (by decide)
    · intro h; exact absurd h (by decide)
  | succ k ih =>
    obtain ⟨a1, a2, a3, a4, a5, a6, a7, a8, a9, -, -, a11⟩ := ih
    obtain ⟨b1, b2, b3, b4, b5, b6, b7, b8, b9, b10, b11⟩ :=
      run_attempt_badFrame (run requestedDht (badAttempts k)).1 (startTime k) a1 a2 a3 a4
    have hrun : run requestedDht (badAttempts (k + 1))
        = ((run (run requestedDht (badAttempts k)).1 (attempt (startTime k) badFrame)).1,
           (run requestedDht (badAttempts k)).2
             ++ (run (run requestedDht (badAttempts k)).1
                  (attempt (startTime k) badFrame)).2) := by
      rw [badAttempts, run_append]
    rw [hrun]
    simp only [completions_append, a11, b11, List.append_nil]
    refine ⟨b1, b2, b3, Or.inr ?_, b5.trans a5, b6.trans a6, b7.trans a7, b8.trans a8,
      b9.trans a9, fun _ => b10, fun _ => ?_, trivial⟩
    · rw [b4, sub32_startTime]; decide
    · rw [b4]; rfl

theorem loop_start_proceeds (hal : Hal) (m : DHT22Gen3) (hstate : m.state = State.START_STATE)
    (hgate : m.lastRequestTime = 0 ∨
      m.sensorType.minSamplePeriodMs.val ≤ sub32 (hal.millis 0) m.lastRequestTime) :
    (DHT22Gen3.loop hal m).1.state = State.SEND_START_STATE ∧
    (DHT22Gen3.loop hal m).2
      = [Effect.pinMode m.unusedPin1 PinMode.OUTPUT,
         Effect.pinMode m.unusedPin2 PinMode.OUTPUT,
         Effect.pinMode m.dhtPin PinMode.OUTPUT,
         Effect.digitalWrite m.dhtPin false] := by
  have hg : ¬ (m.lastRequestTime ≠ 0 ∧
      sub32 (hal.millis 0) m.lastRequestTime < m.sensorType.minSamplePeriodMs.val) := by
    rintro ⟨h1, h2⟩
    rcases hgate with h | h
    · exact h1 h
    · omega
  simp [DHT22Gen3.loop, hstate, hg, DHT22Gen3.startAttempt]

theorem loop_halAt_start (t : U32) (buf : SampleBuffer) (m : DHT22Gen3)
    (hstate : m.state = State.START_STATE)
    (hgate : m.lastRequestTime = 0 ∨
      m.sensorType.minSamplePeriodMs.val ≤ sub32 t m.lastRequestTime) :
    (DHT22Gen3.loop (halAt t buf) m).1.state = State.SEND_START_STATE ∧
    (DHT22Gen3.loop (halAt t buf) m).2
      = [Effect.pinMode m.unusedPin1 PinMode.OUTPUT,
         Effect.pinMode m.unusedPin2 PinMode.OUTPUT,
         Effect.pinMode m.dhtPin PinMode.OUTPUT,
         Effect.digitalWrite m.dhtPin false] :=
  loop_start_proceeds (halAt t buf) m hstate hgate

theorem getTries_eq (s : DHTSample) : s.getTries = s.tries := rfl

theorem minSamplePeriodMs_dht22 : sensorTypeDHT22.minSamplePeriodMs.val = 2000 := rfl

/-- C1 (behaviour of the code). With `maxTries = 4`, after a request and four attempts that
each decode a 40-bit frame with a bad checksum, the object is in `START_STATE` with
`getTries() = 1`, no completion has been invoked (so none with `TOO_MANY_RETRIES`), and the
next call of `loop()` begins a fifth attempt by driving the line low. -/
theorem retry_bound_not_enforced :
    (run dht fourBadAttempts).1.state = State.START_STATE ∧
    (run dht fourBadAttempts).1.maxTries = 4 ∧
    (run dht fourBadAttempts).1.result.getTries = 1 ∧
    completions (run dht fourBadAttempts).2 = [] ∧
    (DHT22Gen3.loop (halAt (startTime 4) badFrame) (run dht fourBadAttempts).1).1.state
      = State.SEND_START_STATE ∧
    (DHT22Gen3.loop (halAt (startTime 4) badFrame) (run dht fourBadAttempts).1).2
      = [Effect.pinMode 15 PinMode.OUTPUT, Effect.pinMode 14 PinMode.OUTPUT,
         Effect.pinMode 16 PinMode.OUTPUT, Effect.digitalWrite 16 false] := by
  obtain ⟨a1, a2, a3, a4, -, a6, a7, a8, -, a10, -, a11⟩ := run_badAttempts 4
  have hgate : (run requestedDht (badAttempts 4)).1.lastRequestTime = 0 ∨
      (run requestedDht (badAttempts 4)).1.sensorType.minSamplePeriodMs.val
        ≤ sub32 (startTime 4) (run requestedDht (badAttempts 4)).1.lastRequestTime := by
    rw [a2, minSamplePeriodMs_dht22]; exact a4
  have hfifth := loop_halAt_start (startTime 4) badFrame
    (run requestedDht (badAttempts 4)).1 a1 hgate
  rw [a6, a7, a8] at hfifth
  rw [fourBadAttempts, run_request_cons, getTries_eq]
  exact ⟨a1, a3, a10 (by decide), a11, hfifth.1, hfifth.2⟩

theorem oneBitThreshold_dht22 : sensorTypeDHT22.oneBitThreshold = 25 := rfl

theorem invoke_some (c : CompletionId) (s : DHTSample) :
    DHT22Gen3.invoke (some c) s = [Effect.completion c s] := rfl

theorem completions_attempt_effects (p1 p2 p3 : Pin) (c : CompletionId) (s : DHTSample) :
    completions
      ([Effect.pinMode p1 PinMode.OUTPUT, Effect.pinMode p2 PinMode.OUTPUT,
        Effect.pinMode p3 PinMode.OUTPUT, Effect.digitalWrite p3 false,
        Effect.pinMode p3 PinMode.INPUT, Effect.i2sInit p3 p1 p2, Effect.i2sStart,
        Effect.i2sStop, Effect.i2sUninit] ++ [Effect.completion c s]) = [(c, s)] := rfl

/-- After `k` failed attempts and one attempt that captures the valid frame, the completion
has been invoked exactly once, with `SUCCESS` and a try count of 1, whatever `k` is. -/
theorem run_retryThenGood (k : Nat) :
    (run dht (retryThenGood k)).1.state = State.IDLE_STATE ∧
    completions (run dht (retryThenGood k)).2 = [(7, deliveredSample)] := by
  obtain ⟨a1, a2, a3, a4, a5, -, -, -, a9, -, -, a11⟩ := run_badAttempts k
  have hgate : (run requestedDht (badAttempts k)).1.lastRequestTime = 0 ∨
      (run requestedDht (badAttempts k)).1.sensorType.minSamplePeriodMs.val
        ≤ sub32 (startTime k) (run requestedDht (badAttempts k)).1.lastRequestTime := by
    rw [a2, minSamplePeriodMs_dht22]; exact a4
  have hpair : (decodeSamples (run requestedDht (badAttempts k)).1.sensorType.oneBitThreshold
      goodFrame (fun _ => 0)).pair = 40 := by
    rw [a2, oneBitThreshold_dht22]; exact (decodeSamples_goodFrame 25 (by decide)).1
  have hbytes : (decodeSamples (run requestedDht (badAttempts k)).1.sensorType.oneBitThreshold
      goodFrame (fun _ => 0)).bytes = fun _ => 0 := by
    rw [a2, oneBitThreshold_dht22]; exact (decodeSamples_goodFrame 25 (by decide)).2
  have hvalid : ∀ s : DHTSample, DHTSample.isValidChecksum
      { s with bytes := (decodeSamples
          (run requestedDht (badAttempts k)).1.sensorType.oneBitThreshold
          goodFrame (fun _ => 0)).bytes } = true := by
    rw [a2, oneBitThreshold_dht22]; exact isValidChecksum_goodFrame 25 (by decide)
  have hrun := run_attempt_success (run requestedDht (badAttempts k)).1 (startTime k)
    goodFrame a1 hgate hpair hvalid
  rw [retryThenGood, run_request_cons, run_append, hrun, a5, a9, hbytes, invoke_some]
  rw [completions_append, a11, List.nil_append, completions_attempt_effects]
  exact ⟨rfl, rfl⟩

/-- C8 (behaviour of the code). When the first attempt fails its checksum and the second
attempt decodes a valid frame, the completion receives a `SUCCESS` sample whose
`getTries()` is 1. -/
theorem tries_not_counted :
    (run dht (retryThenGood 1)).1.state = State.IDLE_STATE ∧
    completions (run dht (retryThenGood 1)).2 = [(7, deliveredSample)] ∧
    deliveredSample.isSuccess = true ∧
    deliveredSample.getTries = 1 :=
  ⟨(run_retryThenGood 1).1, (run_retryThenGood 1).2, rfl, rfl⟩

/-! ## Minimum-interval gate -/

theorem halAt_millis (t : U32) (buf : SampleBuffer) (k : Nat) : (halAt t buf).millis k = t := rfl

theorem ne_of_snd_ne {α β : Type} (p : α × β) (a : α) (b : β) (h : p.2 ≠ b) : p ≠ (a, b) :=
  fun e => h (by rw [e])

/-- C9 (amended). In `START_STATE`, when `lastRequestTime` holds a non-zero time and less
than `minSamplePeriodMs` milliseconds (modulo 2^32) have passed since then, `loop()` changes
nothing: the object stays as it is and no pin is touched. -/
theorem loop_start_waits (hal : Hal) (m : DHT22Gen3) (hstate : m.state = State.START_STATE)
    (hset : m.lastRequestTime ≠ 0)
    (hearly : sub32 (hal.millis 0) m.lastRequestTime < m.sensorType.minSamplePeriodMs.val) :
    DHT22Gen3.loop hal m = (m, []) := by
  simp [DHT22Gen3.loop, hstate, hset, hearly]

/-- Witness for C9 (amended): one second after the start of a failed first attempt the
retry is still waiting. -/
theorem loop_start_waits_witness :
    ((run requestedDht (badAttempts 1)).1.state = State.START_STATE ∧
     (run requestedDht (badAttempts 1)).1.lastRequestTime ≠ 0 ∧
     sub32 ((halAt pollTime badFrame).millis 0) (run requestedDht (badAttempts 1)).1.lastRequestTime
       < (run requestedDht (badAttempts 1)).1.sensorType.minSamplePeriodMs.val) ∧
    DHT22Gen3.loop (halAt pollTime badFrame) (run requestedDht (badAttempts 1)).1
      = ((run requestedDht (badAttempts 1)).1, []) :=
  have hstate := (run_badAttempts 1).1
  have hlast := (run_badAttempts 1).2.2.2.2.2.2.2.2.2.2.1 (by decide)
  have hsens := (run_badAttempts 1).2.1
  have hset : (run requestedDht (badAttempts 1)).1.lastRequestTime ≠ 0 := by
    rw [hlast]; decide
  have hearly : sub32 ((halAt pollTime badFrame).millis 0)
      (run requestedDht (badAttempts 1)).1.lastRequestTime
        < (run requestedDht (badAttempts 1)).1.sensorType.minSamplePeriodMs.val := by
    rw [halAt_millis, hlast, hsens]; decide
  ⟨⟨hstate, hset, hearly⟩,
   loop_start_waits (halAt pollTime badFrame) (run requestedDht (badAttempts 1)).1
     hstate hset hearly⟩

/-- C9 (counterexample). A capture that completes when `millis()` returns 0 records
`lastRequestTime = 0`; the retry that follows 5 ms later is in `START_STATE` with
`(now - lastRequestTime) mod 2^32 = 5 < minSamplePeriodMs`, and `loop()` does not wait: it
drives the line low and enters `SEND_START_STATE`. -/
theorem loop_start_gate_counterexample :
    beforeWrap + 24 = (0 : U32) ∧
    (run dht wrapAttempt).1.state = State.START_STATE ∧
    (run dht wrapAttempt).1.lastRequestTime = 0 ∧
    sub32 ((halAt afterWrap badFrame).millis 0) (run dht wrapAttempt).1.lastRequestTime
      < (run dht wrapAttempt).1.sensorType.minSamplePeriodMs.val ∧
    (DHT22Gen3.loop (halAt afterWrap badFrame) (run dht wrapAttempt).1).1.state
      = State.SEND_START_STATE ∧
    (DHT22Gen3.loop (halAt afterWrap badFrame) (run dht wrapAttempt).1).2
      = [Effect.pinMode 15 PinMode.OUTPUT, Effect.pinMode 14 PinMode.OUTPUT,
         Effect.pinMode 16 PinMode.OUTPUT, Effect.digitalWrite 16 false] ∧
    DHT22Gen3.loop (halAt afterWrap badFrame) (run dht wrapAttempt).1
      ≠ ((run dht wrapAttempt).1, []) := by
  obtain ⟨b1, b2, -, b4, -, b6, b7, b8, -, -, -⟩ :=
    run_attempt_badFrame requestedDht beforeWrap rfl rfl rfl (Or.inl rfl)
  have hwrap : beforeWrap + 24 = (0 : U32) := by decide
  rw [hwrap] at b4
  have hgate : (run requestedDht (attempt beforeWrap badFrame)).1.lastRequestTime = 0 ∨
      (run requestedDht (attempt beforeWrap badFrame)).1.sensorType.minSamplePeriodMs.val
        ≤ sub32 afterWrap (run requestedDht (attempt beforeWrap badFrame)).1.lastRequestTime :=
    Or.inl b4
  have hloop := loop_halAt_start afterWrap badFrame
    (run requestedDht (attempt beforeWrap badFrame)).1 b1 hgate
  rw [b6, b7, b8] at hloop
  have hp1 : requestedDht.unusedPin1 = 15 := rfl
  have hp2 : requestedDht.unusedPin2 = 14 := rfl
  have hp3 : requestedDht.dhtPin = 16 := rfl
  rw [hp1, hp2, hp3] at hloop
  have hearly : sub32 ((halAt afterWrap badFrame).millis 0)
      (run requestedDht (attempt beforeWrap badFrame)).1.lastRequestTime
        < (run requestedDht (attempt beforeWrap badFrame)).1.sensorType.minSamplePeriodMs.val := by
    rw [halAt_millis, b4, b2]; decide
  rw [wrapAttempt, run_request_cons]
  refine ⟨hwrap, b1, b4, hearly, hloop.1, hloop.2, ?_⟩
  apply ne_of_snd_ne
  rw [hloop.2]
  exact List.cons_ne_nil _ _

/-! ## Idle before the callback -/

theorem callCompletionIn_passive (m : DHT22Gen3) (r : SampleResult) :
    DHT22Gen3.callCompletionIn passiveCallbacks m r = m.callCompletion r := by
  cases hcm : m.completion <;>
    simp [DHT22Gen3.callCompletionIn, DHT22Gen3.invokeIn, DHT22Gen3.callCompletion,
      DHT22Gen3.invoke, passiveCallbacks, hcm]

/-- With callables that do not touch the object, `loopIn` is `loop`. -/
theorem loopIn_passive (hal : Hal) (m : DHT22Gen3) :
    DHT22Gen3.loopIn passiveCallbacks hal m = DHT22Gen3.loop hal m := by
  unfold DHT22Gen3.loopIn DHT22Gen3.loop DHT22Gen3.decodeAndFinishIn DHT22Gen3.decodeAndFinish
    DHT22Gen3.retryOrGiveUpIn DHT22Gen3.retryOrGiveUp
  simp only [callCompletionIn_passive]

/-- A call of `loop()` that invokes the completion runs the body of the callable on the
object that `loop` returns, and the body's result is the result of the call. -/
theorem loopIn_of_completion (callbacks : Callbacks) (hal : Hal) (m : DHT22Gen3)
    (c : CompletionId) (s : DHTSample)
    (hmem : Effect.completion c s ∈ (DHT22Gen3.loop hal m).2) :
    DHT22Gen3.loopIn callbacks hal m
      = ((callbacks c s (DHT22Gen3.loop hal m).1).1,
         (DHT22Gen3.loop hal m).2 ++ (callbacks c s (DHT22Gen3.loop hal m).1).2) := by
  cases hst : m.state
  all_goals simp only [DHT22Gen3.loop, DHT22Gen3.loopIn, hst] at hmem ⊢
  · simp at hmem
  · split_ifs at hmem ⊢ <;> simp [DHT22Gen3.startAttempt] at hmem
  · cases hcm : m.completion <;>
      split_ifs at hmem ⊢ <;>
      simp [DHT22Gen3.callCompletion, DHT22Gen3.invoke, DHT22Gen3.callCompletionIn,
        DHT22Gen3.invokeIn, hcm] at hmem ⊢ <;>
      (obtain ⟨rfl, rfl⟩ := hmem; simp)
  · simp only [DHT22Gen3.decodeAndFinish, DHT22Gen3.retryOrGiveUp,
      DHT22Gen3.decodeAndFinishIn, DHT22Gen3.retryOrGiveUpIn] at hmem ⊢
    cases hcm : m.completion <;>
      split_ifs at hmem ⊢ <;>
      simp [DHT22Gen3.callCompletion, DHT22Gen3.invoke, DHT22Gen3.callCompletionIn,
        DHT22Gen3.invokeIn, hcm] at hmem ⊢ <;>
      (obtain ⟨rfl, rfl⟩ := hmem; simp)

/-- A call of `loop()` that invokes no completion is not affected by the callables. -/
theorem loopIn_of_no_completion (callbacks : Callbacks) (hal : Hal) (m : DHT22Gen3)
    (hnone : completions (DHT22Gen3.loop hal m).2 = []) :
    DHT22Gen3.loopIn callbacks hal m = DHT22Gen3.loop hal m := by
  cases hst : m.state
  all_goals simp only [DHT22Gen3.loop, DHT22Gen3.loopIn, hst] at hnone ⊢
  · cases hcm : m.completion <;>
      split_ifs at hnone ⊢ <;>
      simp [DHT22Gen3.callCompletion, DHT22Gen3.invoke, DHT22Gen3.callCompletionIn,
        DHT22Gen3.invokeIn, completions, hcm] at hnone ⊢
  · simp only [DHT22Gen3.decodeAndFinish, DHT22Gen3.retryOrGiveUp,
      DHT22Gen3.decodeAndFinishIn, DHT22Gen3.retryOrGiveUpIn] at hnone ⊢
    cases hcm : m.completion <;>
      split_ifs at hnone ⊢ <;>
      simp [DHT22Gen3.callCompletion, DHT22Gen3.invoke, DHT22Gen3.callCompletionIn,
        DHT22Gen3.invokeIn, completions, hcm] at hnone ⊢

/-- C10. `callCompletion` stores the outcome in `result` and sets the state to `IDLE_STATE`
before it invokes the completion: whatever the body of the callable does, it runs on an
object that is in `IDLE_STATE` with the outcome stored, so `canGetSample()` is true inside
the callback.  When the body calls `getSample`, the request is accepted: the only invocation
is the one of the completion with the outcome (none with `BUSY`) and the object is in
`START_STATE` with the new request when `callCompletion` returns.  In `loop()`, a call that
invokes the completion with a sample `s` runs the body on the object in `IDLE_STATE` whose
result is `s`, an outcome other than `BUSY`, and returns what the body leaves: with a body
that calls `getSample` the object is in `START_STATE` with the new request when `loop()`
returns.  With callables that do not touch the object `loopIn` is `loop`. -/
theorem callCompletion_idle_inside_callback (callbacks : Callbacks) (m : DHT22Gen3)
    (r : SampleResult) (c : CompletionId) (hc : m.completion = some c) :
    DHT22Gen3.callCompletionIn callbacks m r
      = ((callbacks c
            { sampleResult := r, sensorType := m.result.sensorType, bytes := m.result.bytes,
              tries := m.result.tries }
            { unusedPin1 := m.unusedPin1, unusedPin2 := m.unusedPin2, dhtPin := m.dhtPin,
              sensorType := m.sensorType, lastRequestTime := m.lastRequestTime,
              stateTime := m.stateTime, maxTries := m.maxTries, state := State.IDLE_STATE,
              result :=
                { sampleResult := r, sensorType := m.result.sensorType,
                  bytes := m.result.bytes, tries := m.result.tries },
              completion := some c, buffersRequested := m.buffersRequested }).1,
         Effect.completion c
            { sampleResult := r, sensorType := m.result.sensorType, bytes := m.result.bytes,
              tries := m.result.tries }
          :: (callbacks c
            { sampleResult := r, sensorType := m.result.sensorType, bytes := m.result.bytes,
              tries := m.result.tries }
            { unusedPin1 := m.unusedPin1, unusedPin2 := m.unusedPin2, dhtPin := m.dhtPin,
              sensorType := m.sensorType, lastRequestTime := m.lastRequestTime,
              stateTime := m.stateTime, maxTries := m.maxTries, state := State.IDLE_STATE,
              result :=
                { sampleResult := r, sensorType := m.result.sensorType,
                  bytes := m.result.bytes, tries := m.result.tries },
              completion := some c, buffersRequested := m.buffersRequested }).2) ∧
    DHT22Gen3.canGetSample
        { unusedPin1 := m.unusedPin1, unusedPin2 := m.unusedPin2, dhtPin := m.dhtPin,
          sensorType := m.sensorType, lastRequestTime := m.lastRequestTime,
          stateTime := m.stateTime, maxTries := m.maxTries, state := State.IDLE_STATE,
          result :=
            { sampleResult := r, sensorType := m.result.sensorType,
              bytes := m.result.bytes, tries := m.result.tries },
          completion := some c, buffersRequested := m.buffersRequested } = true ∧
    (∀ (dhtPin : Pin) (completion : Option CompletionId) (sensorType : DHTSensorType),
      callbacks c = requestingCallbacks dhtPin completion sensorType c →
      DHT22Gen3.callCompletionIn callbacks m r
        = ({ unusedPin1 := m.unusedPin1, unusedPin2 := m.unusedPin2, dhtPin := dhtPin,
             sensorType := sensorType, lastRequestTime := m.lastRequestTime,
             stateTime := m.stateTime, maxTries := m.maxTries, state := State.START_STATE,
             result :=
               { sampleResult := r, sensorType := some sensorType, bytes := m.result.bytes,
                 tries := 0 },
             completion := completion, buffersRequested := m.buffersRequested },
           [Effect.completion c
              { sampleResult := r, sensorType := m.result.sensorType,
                bytes := m.result.bytes, tries := m.result.tries }])) ∧
    (∀ (hal : Hal) (m0 : DHT22Gen3) (s : DHTSample),
      Effect.completion c s ∈ (DHT22Gen3.loop hal m0).2 →
      DHT22Gen3.loopIn callbacks hal m0
          = ((callbacks c s (DHT22Gen3.loop hal m0).1).1,
             (DHT22Gen3.loop hal m0).2 ++ (callbacks c s (DHT22Gen3.loop hal m0).1).2) ∧
        (DHT22Gen3.loop hal m0).1.state = State.IDLE_STATE ∧
        (DHT22Gen3.loop hal m0).1.canGetSample = true ∧
        (DHT22Gen3.loop hal m0).1.result = s ∧
        s.sampleResult ≠ SampleResult.BUSY ∧
        (∀ (dhtPin : Pin) (completion : Option CompletionId) (sensorType : DHTSensorType),
          callbacks c = requestingCallbacks dhtPin completion sensorType c →
          (DHT22Gen3.loopIn callbacks hal m0).1.state = State.START_STATE ∧
          (DHT22Gen3.loopIn callbacks hal m0).1.dhtPin = dhtPin ∧
          (DHT22Gen3.loopIn callbacks hal m0).1.completion = completion ∧
          (DHT22Gen3.loopIn callbacks hal m0).1.sensorType = sensorType ∧
          (DHT22Gen3.loopIn callbacks hal m0).2 = (DHT22Gen3.loop hal m0).2 ∧
          (∀ c1 s1, Effect.completion c1 s1 ∈ (DHT22Gen3.loopIn callbacks hal m0).2 →
            s1.sampleResult ≠ SampleResult.BUSY))) ∧
    (∀ (hal : Hal) (m0 : DHT22Gen3),
      DHT22Gen3.loopIn passiveCallbacks hal m0 = DHT22Gen3.loop hal m0) := by
  have h1 : DHT22Gen3.callCompletionIn callbacks m r
      = ((callbacks c
            { sampleResult := r, sensorType := m.result.sensorType, bytes := m.result.bytes,
              tries := m.result.tries }
            { unusedPin1 := m.unusedPin1, unusedPin2 := m.unusedPin2, dhtPin := m.dhtPin,
              sensorType := m.sensorType, lastRequestTime := m.lastRequestTime,
              stateTime := m.stateTime, maxTries := m.maxTries, state := State.IDLE_STATE,
              result :=
                { sampleResult := r, sensorType := m.result.sensorType,
                  bytes := m.result.bytes, tries := m.result.tries },
              completion := some c, buffersRequested := m.buffersRequested }).1,
         Effect.completion c
            { sampleResult := r, sensorType := m.result.sensorType, bytes := m.result.bytes,
              tries := m.result.tries }
          :: (callbacks c
            { sampleResult := r, sensorType := m.result.sensorType, bytes := m.result.bytes,
              tries := m.result.tries }
            { unusedPin1 := m.unusedPin1, unusedPin2 := m.unusedPin2, dhtPin := m.dhtPin,
              sensorType := m.sensorType, lastRequestTime := m.lastRequestTime,
              stateTime := m.stateTime, maxTries := m.maxTries, state := State.IDLE_STATE,
              result :=
                { sampleResult := r, sensorType := m.result.sensorType,
                  bytes := m.result.bytes, tries := m.result.tries },
              completion := some c, buffersRequested := m.buffersRequested }).2) := by
    simp [DHT22Gen3.callCompletionIn, DHT22Gen3.invokeIn, hc]
  refine ⟨h1, by simp [DHT22Gen3.canGetSample], ?_, ?_, loopIn_passive⟩
  · intro dhtPin completion sensorType hbody
    rw [h1, hbody]
    simp [requestingCallbacks, DHT22Gen3.getSample]
  · intro hal m0 s hmem
    obtain ⟨-, hidle, hres, hbusy⟩ := loop_completion_last hal m0 c s hmem
    have hin := loopIn_of_completion callbacks hal m0 c s hmem
    refine ⟨hin, hidle, by simp [DHT22Gen3.canGetSample, hidle], hres, hbusy, ?_⟩
    intro dhtPin completion sensorType hbody
    have hget : callbacks c s (DHT22Gen3.loop hal m0).1
        = (DHT22Gen3.loop hal m0).1.getSample dhtPin completion sensorType := by
      rw [hbody]; rfl
    have hacc : (DHT22Gen3.loop hal m0).1.getSample dhtPin completion sensorType
        = ({ unusedPin1 := (DHT22Gen3.loop hal m0).1.unusedPin1,
             unusedPin2 := (DHT22Gen3.loop hal m0).1.unusedPin2, dhtPin := dhtPin,
             sensorType := sensorType,
             lastRequestTime := (DHT22Gen3.loop hal m0).1.lastRequestTime,
             stateTime := (DHT22Gen3.loop hal m0).1.stateTime,
             maxTries := (DHT22Gen3.loop hal m0).1.maxTries, state := State.START_STATE,
             result :=
               { sampleResult := (DHT22Gen3.loop hal m0).1.result.sampleResult,
                 sensorType := some sensorType,
                 bytes := (DHT22Gen3.loop hal m0).1.result.bytes, tries := 0 },
             completion := completion,
             buffersRequested := (DHT22Gen3.loop hal m0).1.buffersRequested }, []) := by
      simp [DHT22Gen3.getSample, hidle]
    rw [hin, hget, hacc]
    refine ⟨rfl, rfl, rfl, rfl, List.append_nil _, ?_⟩
    intro c1 s1 hmem1
    rw [List.append_nil] at hmem1
    exact (loop_completion_last hal m0 c1 s1 hmem1).2.2.2

/-- Witness for C10: the pending request of the examples (completion 7) ends with `ERROR`,
and the body of the callable requests a DHT11 sample on pin 17 with completion 8. -/
theorem callCompletion_idle_inside_callback_witness :
    requestedDht.completion = some 7 ∧
    (DHT22Gen3.callCompletionIn renewingCallbacks requestedDht SampleResult.ERROR
        = ((renewingCallbacks 7
              { sampleResult := SampleResult.ERROR, sensorType := requestedDht.result.sensorType, bytes := requestedDht.result.bytes,
                tries := requestedDht.result.tries }
              { unusedPin1 := requestedDht.unusedPin1, unusedPin2 := requestedDht.unusedPin2, dhtPin := requestedDht.dhtPin,
                sensorType := requestedDht.sensorType, lastRequestTime := requestedDht.lastRequestTime,
                stateTime := requestedDht.stateTime, maxTries := requestedDht.maxTries, state := State.IDLE_STATE,
                result :=
                  { sampleResult := SampleResult.ERROR, sensorType := requestedDht.result.sensorType,
                    bytes := requestedDht.result.bytes, tries := requestedDht.result.tries },
                completion := some 7, buffersRequested := requestedDht.buffersRequested }).1,
           Effect.completion 7
              { sampleResult := SampleResult.ERROR, sensorType := requestedDht.result.sensorType, bytes := requestedDht.result.bytes,
                tries := requestedDht.result.tries }
            :: (renewingCallbacks 7
              { sampleResult := SampleResult.ERROR, sensorType := requestedDht.result.sensorType, bytes := requestedDht.result.bytes,
                tries := requestedDht.result.tries }
              { unusedPin1 := requestedDht.unusedPin1, unusedPin2 := requestedDht.unusedPin2, dhtPin := requestedDht.dhtPin,
                sensorType := requestedDht.sensorType, lastRequestTime := requestedDht.lastRequestTime,
                stateTime := requestedDht.stateTime, maxTries := requestedDht.maxTries, state := State.IDLE_STATE,
                result :=
                  { sampleResult := SampleResult.ERROR, sensorType := requestedDht.result.sensorType,
                    bytes := requestedDht.result.bytes, tries := requestedDht.result.tries },
                completion := some 7, buffersRequested := requestedDht.buffersRequested }).2) ∧
      DHT22Gen3.canGetSample
          { unusedPin1 := requestedDht.unusedPin1, unusedPin2 := requestedDht.unusedPin2, dhtPin := requestedDht.dhtPin,
            sensorType := requestedDht.sensorType, lastRequestTime := requestedDht.lastRequestTime,
            stateTime := requestedDht.stateTime, maxTries := requestedDht.maxTries, state := State.IDLE_STATE,
            result :=
              { sampleResult := SampleResult.ERROR, sensorType := requestedDht.result.sensorType,
                bytes := requestedDht.result.bytes, tries := requestedDht.result.tries },
            completion := some 7, buffersRequested := requestedDht.buffersRequested } = true ∧
      (∀ (dhtPin : Pin) (completion : Option CompletionId) (sensorType : DHTSensorType),
        renewingCallbacks 7 = requestingCallbacks dhtPin completion sensorType 7 →
        DHT22Gen3.callCompletionIn renewingCallbacks requestedDht SampleResult.ERROR
          = ({ unusedPin1 := requestedDht.unusedPin1, unusedPin2 := requestedDht.unusedPin2, dhtPin := dhtPin,
               sensorType := sensorType, lastRequestTime := requestedDht.lastRequestTime,
               stateTime := requestedDht.stateTime, maxTries := requestedDht.maxTries, state := State.START_STATE,
               result :=
                 { sampleResult := SampleResult.ERROR, sensorType := some sensorType, bytes := requestedDht.result.bytes,
                   tries := 0 },
               completion := completion, buffersRequested := requestedDht.buffersRequested },
             [Effect.completion 7
                { sampleResult := SampleResult.ERROR, sensorType := requestedDht.result.sensorType,
                  bytes := requestedDht.result.bytes, tries := requestedDht.result.tries }])) ∧
      (∀ (hal : Hal) (m0 : DHT22Gen3) (s : DHTSample),
        Effect.completion 7 s ∈ (DHT22Gen3.loop hal m0).2 →
        DHT22Gen3.loopIn renewingCallbacks hal m0
            = ((renewingCallbacks 7 s (DHT22Gen3.loop hal m0).1).1,
               (DHT22Gen3.loop hal m0).2 ++ (renewingCallbacks 7 s (DHT22Gen3.loop hal m0).1).2) ∧
          (DHT22Gen3.loop hal m0).1.state = State.IDLE_STATE ∧
          (DHT22Gen3.loop hal m0).1.canGetSample = true ∧
          (DHT22Gen3.loop hal m0).1.result = s ∧
          s.sampleResult ≠ SampleResult.BUSY ∧
          (∀ (dhtPin : Pin) (completion : Option CompletionId) (sensorType : DHTSensorType),
            renewingCallbacks 7 = requestingCallbacks dhtPin completion sensorType 7 →
            (DHT22Gen3.loopIn renewingCallbacks hal m0).1.state = State.START_STATE ∧
            (DHT22Gen3.loopIn renewingCallbacks hal m0).1.dhtPin = dhtPin ∧
            (DHT22Gen3.loopIn renewingCallbacks hal m0).1.completion = completion ∧
            (DHT22Gen3.loopIn renewingCallbacks hal m0).1.sensorType = sensorType ∧
            (DHT22Gen3.loopIn renewingCallbacks hal m0).2 = (DHT22Gen3.loop hal m0).2 ∧
            (∀ c1 s1, Effect.completion c1 s1 ∈ (DHT22Gen3.loopIn renewingCallbacks hal m0).2 →
              s1.sampleResult ≠ SampleResult.BUSY))) ∧
      (∀ (hal : Hal) (m0 : DHT22Gen3),
        DHT22Gen3.loopIn passiveCallbacks hal m0 = DHT22Gen3.loop hal m0)) :=
  ⟨rfl, callCompletion_idle_inside_callback renewingCallbacks requestedDht SampleResult.ERROR 7
    rfl⟩

/-- A run of the callback inside `loop()`: the capture of the pending request times out,
the completion 7 is invoked with `ERROR`, its body requests a DHT11 sample on pin 17, and
`loop()` returns with the object in `START_STATE` for the new request. -/
theorem loopIn_timeout_example :
    (DHT22Gen3.loopIn renewingCallbacks (halAt ⟨140, by decide⟩ goodFrame) capturingDht).1.state
      = State.START_STATE ∧
    (DHT22Gen3.loopIn renewingCallbacks (halAt ⟨140, by decide⟩ goodFrame) capturingDht).1.dhtPin
      = 17 ∧
    (DHT22Gen3.loopIn renewingCallbacks (halAt ⟨140, by decide⟩ goodFrame)
        capturingDht).1.completion = some 8 ∧
    (completions (DHT22Gen3.loopIn renewingCallbacks (halAt ⟨140, by decide⟩ goodFrame)
        capturingDht).2).map (fun p => (p.1, p.2.sampleResult)) = [(7, SampleResult.ERROR)] := by
  decide

/-! ## Rounding to `float` and `double` -/

theorem roundHalfEven_of_lt (t : ℚ) (m : Int) (h1 : (m : ℚ) ≤ t) (h2 : t < m + 1 / 2) :
    roundHalfEven t = m := by
  have hf : ⌊t⌋ = m := by
    rw [Int.floor_eq_iff]
    constructor
    · exact h1
    · linarith
  unfold roundHalfEven
  rw [hf, if_pos (by linarith)]

theorem roundHalfEven_of_gt (t : ℚ) (m : Int) (h1 : (m : ℚ) + 1 / 2 < t) (h2 : t < m + 1) :
    roundHalfEven t = m + 1 := by
  have hf : ⌊t⌋ = m := by
    rw [Int.floor_eq_iff]
    constructor
    · linarith
    · exact h2
  unfold roundHalfEven
  rw [hf, if_neg (by linarith), if_pos (by linarith)]

theorem abs_roundHalfEven_sub_le (t : ℚ) : |(roundHalfEven t : ℚ) - t| ≤ 1 / 2 := by
  have h1 := Int.floor_le t
  have h2 := Int.lt_floor_add_one t
  unfold roundHalfEven
  rw [abs_le]
  split_ifs with ha hb hc
  · constructor <;> linarith
  · push_cast; constructor <;> linarith
  · constructor <;> linarith
  · push_cast; constructor <;> linarith

theorem log_eq_of_mem (p : Nat) (hp : 1 ≤ p) (m k : Int) (x : ℚ)
    (hm1 : (2 : Int) ^ (p - 1) ≤ m) (hm2 : m < (2 : Int) ^ p)
    (h1 : (m : ℚ) * (2 : ℚ) ^ k ≤ x) (h2 : x < ((m : ℚ) + 1) * (2 : ℚ) ^ k) :
    0 < x ∧ Int.log 2 |x| - ((p : Int) - 1) = k := by
  have hk : (0 : ℚ) < (2 : ℚ) ^ k := zpow_pos (by norm_num) k
  have hm1q : ((2 : ℚ) ^ (p - 1)) ≤ (m : ℚ) := by exact_mod_cast hm1
  have hm2q : (m : ℚ) + 1 ≤ (2 : ℚ) ^ p := by
    have : m + 1 ≤ (2 : Int) ^ p := hm2
    exact_mod_cast this
  have hmpos : (0 : ℚ) < m := lt_of_lt_of_le (pow_pos (by norm_num) _) hm1q
  have hx : 0 < x := lt_of_lt_of_le (mul_pos hmpos hk) h1
  refine ⟨hx, ?_⟩
  rw [abs_of_pos hx]
  have hlo : (2 : ℚ) ^ (k + ((p : Int) - 1)) ≤ x := by
    have e : (2 : ℚ) ^ (k + ((p : Int) - 1)) = (2 : ℚ) ^ (p - 1) * (2 : ℚ) ^ k := by
      rw [zpow_add₀ (by norm_num), mul_comm]
      congr 1
      rw [← zpow_natCast]
      congr 1
      omega
    rw [e]
    exact le_trans (mul_le_mul_of_nonneg_right hm1q hk.le) h1
  have hhi : x < (2 : ℚ) ^ (k + ((p : Int) - 1) + 1) := by
    have e : (2 : ℚ) ^ (k + ((p : Int) - 1) + 1) = (2 : ℚ) ^ p * (2 : ℚ) ^ k := by
      have : k + ((p : Int) - 1) + 1 = (p : Int) + k := by ring
      rw [this, zpow_add₀ (by norm_num), zpow_natCast]
    rw [e]
    exact lt_of_lt_of_le h2 (mul_le_mul_of_nonneg_right hm2q hk.le)
  have h2c : (((2 : ℕ) : ℚ)) = (2 : ℚ) := by norm_num
  have a1 : k + ((p : Int) - 1) ≤ Int.log 2 x := by
    rw [← Int.zpow_le_iff_le_log (by norm_num) hx, h2c]
    exact hlo
  have a2 : Int.log 2 x < k + ((p : Int) - 1) + 1 := by
    rw [← Int.lt_zpow_iff_log_lt (by norm_num) hx, h2c]
    exact hhi
  omega

theorem roundNearestEven_of_mem (p : Nat) (hp : 1 ≤ p) (m k : Int) (x : ℚ)
    (hm1 : (2 : Int) ^ (p - 1) ≤ m) (hm2 : m < (2 : Int) ^ p)
    (h1 : (m : ℚ) * (2 : ℚ) ^ k ≤ x) (h2 : x < ((m : ℚ) + 1) * (2 : ℚ) ^ k) :
    roundNearestEven p x = (roundHalfEven (x / (2 : ℚ) ^ k) : ℚ) * (2 : ℚ) ^ k := by
  obtain ⟨hx, hlog⟩ := log_eq_of_mem p hp m k x hm1 hm2 h1 h2
  unfold roundNearestEven
  rw [if_neg hx.ne', if_neg (not_lt.mpr hx.le), hlog, abs_of_pos hx, one_mul]

theorem roundNearestEven_of_lt (p : Nat) (hp : 1 ≤ p) (m k : Int) (x : ℚ)
    (hm1 : (2 : Int) ^ (p - 1) ≤ m) (hm2 : m < (2 : Int) ^ p)
    (h1 : (m : ℚ) * (2 : ℚ) ^ k ≤ x) (h2 : x < ((m : ℚ) + 1 / 2) * (2 : ℚ) ^ k) :
    roundNearestEven p x = (m : ℚ) * (2 : ℚ) ^ k := by
  have hk : (0 : ℚ) < (2 : ℚ) ^ k := zpow_pos (by norm_num) k
  have h2b : x < ((m : ℚ) + 1) * (2 : ℚ) ^ k := by nlinarith
  rw [roundNearestEven_of_mem p hp m k x hm1 hm2 h1 h2b,
    roundHalfEven_of_lt _ m ((le_div_iff₀ hk).mpr h1) ((div_lt_iff₀ hk).mpr h2)]

theorem roundNearestEven_of_gt (p : Nat) (hp : 1 ≤ p) (m k : Int) (x : ℚ)
    (hm1 : (2 : Int) ^ (p - 1) ≤ m) (hm2 : m < (2 : Int) ^ p)
    (h1 : ((m : ℚ) + 1 / 2) * (2 : ℚ) ^ k < x) (h2 : x < ((m : ℚ) + 1) * (2 : ℚ) ^ k) :
    roundNearestEven p x = ((m : ℚ) + 1) * (2 : ℚ) ^ k := by
  have hk : (0 : ℚ) < (2 : ℚ) ^ k := zpow_pos (by norm_num) k
  have h1b : (m : ℚ) * (2 : ℚ) ^ k ≤ x := by nlinarith
  rw [roundNearestEven_of_mem p hp m k x hm1 hm2 h1b h2,
    roundHalfEven_of_gt _ m ((lt_div_iff₀ hk).mpr h1) ((div_lt_iff₀ hk).mpr h2)]
  push_cast
  rfl

theorem abs_roundNearestEven_sub_le (p : Nat) (x : ℚ) (hx : 0 < x) :
    |roundNearestEven p x - x| ≤ x / 2 ^ p := by
  have h2c : (((2 : ℕ) : ℚ)) = (2 : ℚ) := by norm_num
  have hlog : (2 : ℚ) ^ Int.log 2 x ≤ x := by
    have := Int.zpow_log_le_self (b := 2) (r := x) (by norm_num) hx
    rwa [h2c] at this
  unfold roundNearestEven
  rw [if_neg hx.ne', if_neg (not_lt.mpr hx.le), abs_of_pos hx, one_mul]
  set u : ℚ := (2 : ℚ) ^ (Int.log 2 x - ((p : Int) - 1)) with hu
  have hupos : 0 < u := zpow_pos (by norm_num) _
  have hr := abs_roundHalfEven_sub_le (x / u)
  have e : (roundHalfEven (x / u) : ℚ) * u - x = ((roundHalfEven (x / u) : ℚ) - x / u) * u := by
    field_simp
  rw [e, abs_mul, abs_of_pos hupos]
  have hu2 : u = (2 : ℚ) ^ Int.log 2 x / 2 ^ p * 2 := by
    rw [hu, zpow_sub₀ (by norm_num), zpow_sub₀ (by norm_num), zpow_natCast, zpow_one]
    field_simp
  calc |(roundHalfEven (x / u) : ℚ) - x / u| * u ≤ 1 / 2 * u :=
        mul_le_mul_of_nonneg_right hr hupos.le
    _ = (2 : ℚ) ^ Int.log 2 x / 2 ^ p := by rw [hu2]; ring
    _ ≤ x / 2 ^ p := div_le_div_of_nonneg_right hlog (by positivity)

theorem roundNearestEven_neg (p : Nat) (x : ℚ) :
    roundNearestEven p (-x) = -roundNearestEven p x := by
  unfold roundNearestEven
  rcases lt_trichotomy x 0 with h | h | h
  · have h1 : ¬ -x < 0 := by linarith
    rw [if_neg (by linarith : ¬ -x = 0), if_neg h1, if_neg h.ne, if_pos h, abs_neg]
    ring
  · rw [h]; simp
  · have h1 : -x < 0 := by linarith
    have h2 : ¬ x < 0 := by linarith
    rw [if_neg (by linarith : ¬ -x = 0), if_pos h1, if_neg h.ne', if_neg h2, abs_neg]
    ring

theorem roundNearestEven_zero (p : Nat) : roundNearestEven p 0 = 0 := by
  simp [roundNearestEven]

theorem roundNearestEven_scaled_lo (p : Nat) (hp : 1 ≤ p) (m s : Nat) (x : ℚ)
    (hm1 : 2 ^ (p - 1) ≤ m) (hm2 : m < 2 ^ p)
    (h1 : (m : ℚ) ≤ x * 2 ^ s) (h2 : x * 2 ^ s < m + 1 / 2) :
    roundNearestEven p x = (m : ℚ) / 2 ^ s := by
  have hP : (0 : ℚ) < 2 ^ s := by positivity
  have hk : (2 : ℚ) ^ (-(s : Int)) = 1 / 2 ^ s := by
    rw [zpow_neg, zpow_natCast, one_div]
  have := roundNearestEven_of_lt p hp (m : Int) (-(s : Int)) x
    (by exact_mod_cast hm1) (by exact_mod_cast hm2)
    (by rw [hk]; push_cast; rw [mul_one_div, div_le_iff₀ hP]; exact h1)
    (by rw [hk]; push_cast; rw [mul_one_div, lt_div_iff₀ hP]; exact h2)
  rw [this, hk]
  push_cast
  ring

theorem roundNearestEven_scaled_hi (p : Nat) (hp : 1 ≤ p) (m s : Nat) (x : ℚ)
    (hm1 : 2 ^ (p - 1) ≤ m) (hm2 : m < 2 ^ p)
    (h1 : (m : ℚ) + 1 / 2 < x * 2 ^ s) (h2 : x * 2 ^ s < m + 1) :
    roundNearestEven p x = ((m : ℚ) + 1) / 2 ^ s := by
  have hP : (0 : ℚ) < 2 ^ s := by positivity
  have hk : (2 : ℚ) ^ (-(s : Int)) = 1 / 2 ^ s := by
    rw [zpow_neg, zpow_natCast, one_div]
  have := roundNearestEven_of_gt p hp (m : Int) (-(s : Int)) x
    (by exact_mod_cast hm1) (by exact_mod_cast hm2)
    (by rw [hk]; push_cast; rw [mul_one_div, div_lt_iff₀ hP]; exact h1)
    (by rw [hk]; push_cast; rw [mul_one_div, lt_div_iff₀ hP]; exact h2)
  rw [this, hk]
  push_cast
  ring

theorem doubleTenth_eq : doubleTenth = 3602879701896397 / 36028797018963968 := by
  unfold doubleTenth toDouble
  rw [roundNearestEven_scaled_hi 53 (by norm_num) 7205759403792793 56 (1 / 10)
    (by norm_num) (by norm_num) (by norm_num) (by norm_num)]
  norm_num

theorem tenths_split (n s : Nat) (hs : 1 ≤ s) (h1 : 10 * 2 ^ 23 ≤ n * 2 ^ s)
    (h2 : n * 2 ^ s < 10 * 2 ^ 24) :
    2 ^ 23 ≤ n * 2 ^ s / 10 ∧ n * 2 ^ s / 10 < 2 ^ 24 ∧
    (n * 2 ^ s % 10 = 0 ∨ n * 2 ^ s % 10 = 2 ∨ n * 2 ^ s % 10 = 4 ∨ n * 2 ^ s % 10 = 6
      ∨ n * 2 ^ s % 10 = 8) ∧
    ((n : ℚ) / 10) * 2 ^ s = ((n * 2 ^ s / 10 : Nat) : ℚ) + ((n * 2 ^ s % 10 : Nat) : ℚ) / 10 := by
  obtain ⟨t, rfl⟩ : ∃ t, s = t + 1 := ⟨s - 1, by omega⟩
  have heven : n * 2 ^ (t + 1) = 2 * (n * 2 ^ t) := by rw [pow_succ]; ring
  have hdm := Nat.div_add_mod (n * 2 ^ (t + 1)) 10
  refine ⟨by omega, by omega, by omega, ?_⟩
  have hq : ((n * 2 ^ (t + 1) : Nat) : ℚ)
      = 10 * ((n * 2 ^ (t + 1) / 10 : Nat) : ℚ) + ((n * 2 ^ (t + 1) % 10 : Nat) : ℚ) := by
    exact_mod_cast hdm.symm
  have hc : ((n * 2 ^ (t + 1) : Nat) : ℚ) = (n : ℚ) * 2 ^ (t + 1) := by push_cast; ring
  rw [hc] at hq
  linarith

theorem toFloat_tenths (n s : Nat) (hs : 1 ≤ s) (h1 : 10 * 2 ^ 23 ≤ n * 2 ^ s)
    (h2 : n * 2 ^ s < 10 * 2 ^ 24) :
    toFloat ((n : ℚ) / 10)
      = ((if n * 2 ^ s % 10 < 5 then n * 2 ^ s / 10 else n * 2 ^ s / 10 + 1 : Nat) : ℚ)
          / 2 ^ s := by
  obtain ⟨hm1, hm2, hr, hx⟩ := tenths_split n s hs h1 h2
  unfold toFloat
  by_cases h5 : n * 2 ^ s % 10 < 5
  · rw [if_pos h5]
    have hrq : ((n * 2 ^ s % 10 : Nat) : ℚ) ≤ 4 := by
      have : n * 2 ^ s % 10 ≤ 4 := by omega
      exact_mod_cast this
    have hr0 : (0 : ℚ) ≤ ((n * 2 ^ s % 10 : Nat) : ℚ) := Nat.cast_nonneg _
    exact roundNearestEven_scaled_lo 24 (by norm_num) _ s _ (by simpa using hm1)
      (by simpa using hm2) (by rw [hx]; linarith) (by rw [hx]; linarith)
  · rw [if_neg h5]
    have hrq : (6 : ℚ) ≤ ((n * 2 ^ s % 10 : Nat) : ℚ) := by
      have : 6 ≤ n * 2 ^ s % 10 := by omega
      exact_mod_cast this
    have hr9 : ((n * 2 ^ s % 10 : Nat) : ℚ) ≤ 8 := by
      have : n * 2 ^ s % 10 ≤ 8 := by omega
      exact_mod_cast this
    rw [roundNearestEven_scaled_hi 24 (by norm_num) _ s _ (by simpa using hm1)
      (by simpa using hm2) (by rw [hx]; linarith) (by rw [hx]; linarith)]
    push_cast
    rfl

theorem mul_doubleTenth (n : Nat) :
    (n : ℚ) * doubleTenth = (n : ℚ) / 10 * (1 + 1 / 2 ^ 54) := by
  rw [doubleTenth_eq]
  norm_num
  ring

theorem toDouble_tenths_location (n s : Nat) (hn : 1 ≤ n) (hs : 1 ≤ s)
    (h1 : 10 * 2 ^ 23 ≤ n * 2 ^ s) (h2 : n * 2 ^ s < 10 * 2 ^ 24) :
    (n * 2 ^ s % 10 = 0 → toDouble ((n : ℚ) * doubleTenth) = (n : ℚ) / 10) ∧
    |toDouble ((n : ℚ) * doubleTenth) * 2 ^ s - (n : ℚ) / 10 * 2 ^ s| ≤ 1 / 2 ^ 27 := by
  obtain ⟨hm1, hm2, hr, hx⟩ := tenths_split n s hs h1 h2
  have hP : (0 : ℚ) < 2 ^ s := by positivity
  have hnq : (0 : ℚ) < (n : ℚ) := by exact_mod_cast hn
  have hm2q : ((n * 2 ^ s / 10 : Nat) : ℚ) + 1 ≤ 2 ^ 24 := by
    have : n * 2 ^ s / 10 + 1 ≤ 2 ^ 24 := hm2
    exact_mod_cast this
  have hr0 : (0 : ℚ) ≤ ((n * 2 ^ s % 10 : Nat) : ℚ) := Nat.cast_nonneg _
  have hr9 : ((n * 2 ^ s % 10 : Nat) : ℚ) ≤ 9 := by
    have : n * 2 ^ s % 10 ≤ 9 := by omega
    exact_mod_cast this
  have hX : (n : ℚ) / 10 * 2 ^ s < 2 ^ 24 := by rw [hx]; linarith
  have hX0 : 0 < (n : ℚ) / 10 * 2 ^ s := by positivity
  have hz : (0 : ℚ) < (n : ℚ) * doubleTenth := by
    rw [mul_doubleTenth]; positivity
  have herr := abs_roundNearestEven_sub_le 53 _ hz
  constructor
  · intro h0
    rw [h0] at hx
    have hxm : (n : ℚ) / 10 = ((n * 2 ^ s / 10 : Nat) : ℚ) / 2 ^ s := by
      rw [eq_div_iff hP.ne', hx]; simp
    have hcast : (((n * 2 ^ s / 10 * 2 ^ 29 : Nat)) : ℚ)
        = ((n * 2 ^ s / 10 : Nat) : ℚ) * 2 ^ 29 := by push_cast; ring
    have hzs : (n : ℚ) * doubleTenth * 2 ^ (s + 29)
        = ((n * 2 ^ s / 10 : Nat) : ℚ) * 2 ^ 29 * (1 + 1 / 2 ^ 54) := by
      rw [mul_doubleTenth, pow_add]
      have : (n : ℚ) / 10 * (1 + 1 / 2 ^ 54) * (2 ^ s * 2 ^ 29)
          = ((n : ℚ) / 10 * 2 ^ s) * 2 ^ 29 * (1 + 1 / 2 ^ 54) := by ring
      rw [this, hx]
      simp
    unfold toDouble
    rw [roundNearestEven_scaled_lo 53 (by norm_num) (n * 2 ^ s / 10 * 2 ^ 29) (s + 29) _
      (by norm_num; omega) (by norm_num; omega)
      (by rw [hcast, hzs]; nlinarith [Nat.cast_nonneg (α := ℚ) (n * 2 ^ s / 10)])
      (by rw [hcast, hzs]; norm_num at hm2q ⊢; linarith)]
    rw [hcast, hxm, pow_add]
    field_simp
    ring
  · unfold toDouble
    have hzX : (n : ℚ) * doubleTenth * 2 ^ s = (n : ℚ) / 10 * 2 ^ s * (1 + 1 / 2 ^ 54) := by
      rw [mul_doubleTenth]; ring
    have e : roundNearestEven 53 ((n : ℚ) * doubleTenth) * 2 ^ s - (n : ℚ) / 10 * 2 ^ s
        = (roundNearestEven 53 ((n : ℚ) * doubleTenth) - (n : ℚ) * doubleTenth) * 2 ^ s
          + (n : ℚ) / 10 * 2 ^ s * (1 / 2 ^ 54) := by
      rw [sub_mul, hzX]; ring
    have herr2 : |roundNearestEven 53 ((n : ℚ) * doubleTenth) - (n : ℚ) * doubleTenth| * 2 ^ s
        ≤ (n : ℚ) / 10 * 2 ^ s * (1 + 1 / 2 ^ 54) / 2 ^ 53 := by
      have := mul_le_mul_of_nonneg_right herr hP.le
      rw [div_mul_eq_mul_div, hzX] at this
      exact this
    rw [e]
    refine le_trans (abs_add _ _) ?_
    rw [abs_mul, abs_of_pos hP, abs_of_pos (by positivity : (0 : ℚ) < (n : ℚ) / 10 * 2 ^ s * (1 / 2 ^ 54))]
    have b1 : (n : ℚ) / 10 * 2 ^ s * (1 + 1 / 2 ^ 54) / 2 ^ 53 ≤ 2 ^ 24 * (1 + 1 / 2 ^ 54) / 2 ^ 53 := by
      apply div_le_div_of_nonneg_right _ (by positivity)
      exact mul_le_mul_of_nonneg_right hX.le (by positivity)
    have b2 : (n : ℚ) / 10 * 2 ^ s * (1 / 2 ^ 54) ≤ 2 ^ 24 * (1 / 2 ^ 54) :=
      mul_le_mul_of_nonneg_right hX.le (by positivity)
    have b3 : (2 : ℚ) ^ 24 * (1 + 1 / 2 ^ 54) / 2 ^ 53 + 2 ^ 24 * (1 / 2 ^ 54) ≤ 1 / 2 ^ 27 := by
      norm_num
    linarith

theorem toFloat_toDouble_tenths (n s : Nat) (hn : 1 ≤ n) (hs : 1 ≤ s)
    (h1 : 10 * 2 ^ 23 ≤ n * 2 ^ s) (h2 : n * 2 ^ s < 10 * 2 ^ 24) :
    toFloat (toDouble ((n : ℚ) * doubleTenth)) = toFloat ((n : ℚ) / 10) := by
  obtain ⟨hm1, hm2, hr, hx⟩ := tenths_split n s hs h1 h2
  obtain ⟨hexact, hloc⟩ := toDouble_tenths_location n s hn hs h1 h2
  by_cases h0 : n * 2 ^ s % 10 = 0
  · rw [hexact h0]
  · rw [toFloat_tenths n s hs h1 h2]
    rw [abs_le, hx] at hloc
    have hr0 : (2 : ℚ) ≤ ((n * 2 ^ s % 10 : Nat) : ℚ) := by
      have : 2 ≤ n * 2 ^ s % 10 := by omega
      exact_mod_cast this
    have hr9 : ((n * 2 ^ s % 10 : Nat) : ℚ) ≤ 8 := by
      have : n * 2 ^ s % 10 ≤ 8 := by omega
      exact_mod_cast this
    have c27 : (1 : ℚ) / 2 ^ 27 < 1 / 10 := by norm_num
    unfold toFloat
    by_cases h5 : n * 2 ^ s % 10 < 5
    · rw [if_pos h5]
      have hrq : ((n * 2 ^ s % 10 : Nat) : ℚ) ≤ 4 := by
        have : n * 2 ^ s % 10 ≤ 4 := by omega
        exact_mod_cast this
      exact roundNearestEven_scaled_lo 24 (by norm_num) _ s _ (by simpa using hm1)
        (by simpa using hm2) (by linarith) (by linarith)
    · rw [if_neg h5]
      have hrq : (6 : ℚ) ≤ ((n * 2 ^ s % 10 : Nat) : ℚ) := by
        have : 6 ≤ n * 2 ^ s % 10 := by omega
        exact_mod_cast this
      rw [roundNearestEven_scaled_hi 24 (by norm_num) _ s _ (by simpa using hm1)
        (by simpa using hm2) (by linarith) (by linarith)]
      push_cast
      rfl

theorem exists_tenths_scale (n : Nat) (hn : 1 ≤ n) (hn2 : n < 65536) :
    ∃ s, 1 ≤ s ∧ 10 * 2 ^ 23 ≤ n * 2 ^ s ∧ n * 2 ^ s < 10 * 2 ^ 24 := by
  have hex : ∃ s, 10 * 2 ^ 23 ≤ n * 2 ^ s := ⟨27, by norm_num; omega⟩
  classical
  have hs := Nat.find_spec hex
  have hmin := fun t => Nat.find_min hex (m := t)
  rcases Nat.eq_zero_or_pos (Nat.find hex) with h0 | hpos
  · rw [h0] at hs
    norm_num at hs
    omega
  · refine ⟨Nat.find hex, hpos, hs, ?_⟩
    have := hmin (Nat.find hex - 1) (by omega)
    obtain ⟨t, ht⟩ : ∃ t, Nat.find hex = t + 1 := ⟨Nat.find hex - 1, by omega⟩
    rw [ht] at this ⊢
    simp only [Nat.add_sub_cancel] at this
    rw [pow_succ]
    have h2t : n * (2 ^ t * 2) = 2 * (n * 2 ^ t) := by ring
    omega

/-! ## Sensor type decoders -/

theorem combineBytes_eq (h l : Fin 256) :
    combineBytes h l = ((h.val * 256 + l.val : Nat) : ℚ) := by
  unfold combineBytes
  have hl : l.val < 2 ^ 8 := l.isLt
  rw [Nat.shiftLeft_eq, Nat.mul_comm, ← Nat.mul_add_lt_is_or hl]

theorem and_0x80_eq_zero_iff (x : Fin 256) : x.val &&& 0x80 = 0 ↔ x.val.testBit 7 = false := by
  have h : (0x80 : Nat) = 2 ^ 7 := by norm_num
  rw [h, Nat.and_two_pow]
  cases x.val.testBit 7 <;> simp

theorem and_0x7F_of_clear (x : Fin 256) (hx : x.val.testBit 7 = false) :
    x.val &&& 0x7F = x.val := by
  have h : (0x7F : Nat) = 2 ^ 7 - 1 := by norm_num
  have hlt := x.isLt
  rw [h, Nat.and_pow_two_sub_one_eq_mod]
  rw [Nat.testBit_to_div_mod] at hx
  simp only [decide_eq_false_iff_not] at hx
  omega

theorem and_0x7F_lt (x : Nat) : x &&& 0x7F < 128 := by
  have h : (0x7F : Nat) = 2 ^ 7 - 1 := by norm_num
  rw [h, Nat.and_pow_two_sub_one_eq_mod]
  omega

theorem exists_scale (n p : Nat) (hp : 1 ≤ p) (hn : 1 ≤ n) (hn2 : n < 2 ^ p) :
    ∃ j, 2 ^ (p - 1) ≤ n * 2 ^ j ∧ n * 2 ^ j < 2 ^ p := by
  have hex : ∃ j, 2 ^ (p - 1) ≤ n * 2 ^ j :=
    ⟨p - 1, Nat.le_mul_of_pos_left _ hn⟩
  classical
  have hs := Nat.find_spec hex
  have hmin := fun t => Nat.find_min hex (m := t)
  obtain ⟨q, rfl⟩ : ∃ q, p = q + 1 := ⟨p - 1, by omega⟩
  simp only [Nat.add_sub_cancel] at hs hmin ⊢
  refine ⟨Nat.find hex, hs, ?_⟩
  rcases Nat.eq_zero_or_pos (Nat.find hex) with h0 | hpos
  · rw [h0]
    simpa using hn2
  · obtain ⟨t, ht⟩ : ∃ t, Nat.find hex = t + 1 := ⟨Nat.find hex - 1, by omega⟩
    have := hmin t (by omega)
    rw [ht, pow_succ, pow_succ]
    have h2t : n * (2 ^ t * 2) = 2 * (n * 2 ^ t) := by ring
    omega

/-- The conversion of an integer below `2 ^ 24` to `float` is exact. -/
theorem toFloat_natCast (n : Nat) (hn : n < 2 ^ 24) : toFloat (n : ℚ) = (n : ℚ) := by
  rcases Nat.eq_zero_or_pos n with h0 | hpos
  · rw [h0]
    simp [toFloat, roundNearestEven_zero]
  · obtain ⟨j, hj1, hj2⟩ := exists_scale n 24 (by norm_num) hpos hn
    have hc : (((n * 2 ^ j : Nat)) : ℚ) = (n : ℚ) * 2 ^ j := by push_cast; ring
    unfold toFloat
    rw [roundNearestEven_scaled_lo 24 (by norm_num) (n * 2 ^ j) j (n : ℚ) hj1 hj2
      (by rw [hc]) (by rw [hc]; linarith)]
    rw [hc]
    field_simp

/-- The conversion `(float)((int8_t) x)` is exact. -/
theorem toFloat_toInt8 (x : Fin 256) : toFloat ((toInt8 x : Int) : ℚ) = ((toInt8 x : Int) : ℚ) := by
  have hx := x.isLt
  unfold toInt8
  split
  · have := toFloat_natCast x.val (by omega)
    simpa using this
  · have h := toFloat_natCast (256 - x.val) (by omega)
    have e : (((x.val : Int) - 256 : Int) : ℚ) = -((256 - x.val : Nat) : ℚ) := by
      rw [Nat.cast_sub (by omega)]
      push_cast
      ring
    rw [e]
    unfold toFloat at h ⊢
    rw [roundNearestEven_neg, h]

/-- The conversion in `combineBytes` is exact. -/
theorem toFloat_combineBytes (h l : Fin 256) :
    toFloat (combineBytes h l) = combineBytes h l := by
  have hh := h.isLt
  have hl := l.isLt
  rw [combineBytes_eq]
  exact toFloat_natCast _ (by omega)

/-- The product with the `double` literal `0.1`, rounded to `double` and then to `float`,
is the `float` nearest to the exact quotient by 10. -/
theorem toFloat_toDouble_tenths_eq (n : Nat) (hn : n < 65536) :
    toFloat (toDouble ((n : ℚ) * doubleTenth)) = toFloat ((n : ℚ) / 10) := by
  rcases Nat.eq_zero_or_pos n with h0 | hpos
  · rw [h0]
    simp [toFloat, toDouble, roundNearestEven_zero]
  · obtain ⟨s, hs, h1, h2⟩ := exists_tenths_scale n hpos hn
    exact toFloat_toDouble_tenths n s hpos hs h1 h2

theorem toFloat_tenths_nearest (n : Nat) (h1 : 1 ≤ n) (hn : n < 65536) :
    ∃ s K : Nat, 1280 ≤ 2 ^ s ∧ 2 ^ 23 ≤ K ∧ K ≤ 2 ^ 24 ∧ 2 ∣ 2 ^ s ∧
      toFloat ((n : ℚ) / 10) = (K : ℚ) / 2 ^ s ∧
      |(K : ℚ) - (n : ℚ) / 10 * 2 ^ s| ≤ 2 / 5 ∧
      ((K : ℚ) = (n : ℚ) / 10 * 2 ^ s ↔ 5 ∣ n) := by
  obtain ⟨s, hs, hs1, hs2⟩ := exists_tenths_scale n h1 hn
  obtain ⟨hm1, hm2, hr, hx⟩ := tenths_split n s hs hs1 hs2
  have hP : 1280 ≤ 2 ^ s := by
    by_contra hlt
    have : n * 2 ^ s ≤ 65535 * 1279 := Nat.mul_le_mul (by omega) (by omega)
    omega
  have h2P : 2 ∣ 2 ^ s := dvd_pow_self 2 (by omega)
  have hdvd : n * 2 ^ s % 10 = 0 ↔ 5 ∣ n := by
    constructor
    · intro h0
      have h10 : 10 ∣ n * 2 ^ s := Nat.dvd_of_mod_eq_zero h0
      have h5 : 5 ∣ n * 2 ^ s := Dvd.dvd.trans (by norm_num) h10
      have hco : Nat.Coprime 5 (2 ^ s) := Nat.Coprime.pow_right s (by norm_num)
      exact hco.dvd_of_dvd_mul_right h5
    · rintro ⟨q, rfl⟩
      obtain ⟨t, rfl⟩ : ∃ t, s = t + 1 := ⟨s - 1, by omega⟩
      have : 5 * q * 2 ^ (t + 1) = 10 * (q * 2 ^ t) := by rw [pow_succ]; ring
      rw [this]
      exact Nat.mul_mod_right 10 _
  refine ⟨s, if n * 2 ^ s % 10 < 5 then n * 2 ^ s / 10 else n * 2 ^ s / 10 + 1, hP, ?_, ?_,
    h2P, toFloat_tenths n s hs hs1 hs2, ?_, ?_⟩
  · split_ifs <;> omega
  · split_ifs <;> omega
  · rw [hx]
    by_cases h5 : n * 2 ^ s % 10 < 5
    · rw [if_pos h5]
      have hrq : ((n * 2 ^ s % 10 : Nat) : ℚ) ≤ 4 := by
        have : n * 2 ^ s % 10 ≤ 4 := by omega
        exact_mod_cast this
      have hr0 : (0 : ℚ) ≤ ((n * 2 ^ s % 10 : Nat) : ℚ) := Nat.cast_nonneg _
      rw [abs_le]
      constructor <;> linarith
    · rw [if_neg h5]
      have hrq : (6 : ℚ) ≤ ((n * 2 ^ s % 10 : Nat) : ℚ) := by
        have : 6 ≤ n * 2 ^ s % 10 := by omega
        exact_mod_cast this
      have hr9 : ((n * 2 ^ s % 10 : Nat) : ℚ) ≤ 8 := by
        have : n * 2 ^ s % 10 ≤ 8 := by omega
        exact_mod_cast this
      rw [abs_le]
      push_cast
      constructor <;> linarith
  · rw [← hdvd, hx]
    by_cases h5 : n * 2 ^ s % 10 < 5
    · rw [if_pos h5]
      constructor
      · intro h
        have hz : ((n * 2 ^ s % 10 : Nat) : ℚ) = 0 := by linarith
        exact_mod_cast hz
      · intro h
        rw [h]
        simp
    · rw [if_neg h5]
      have hr9 : ((n * 2 ^ s % 10 : Nat) : ℚ) ≤ 8 := by
        have : n * 2 ^ s % 10 ≤ 8 := by omega
        exact_mod_cast this
      constructor
      · intro h
        push_cast at h
        linarith
      · intro h
        omega

theorem toFloat_tenths_exact_iff (n : Nat) (hn : n < 65536) :
    toFloat ((n : ℚ) / 10) = (n : ℚ) / 10 ↔ 5 ∣ n := by
  rcases Nat.eq_zero_or_pos n with h0 | hpos
  · rw [h0]
    simp [toFloat, roundNearestEven_zero]
  · obtain ⟨s, K, -, -, -, -, hval, -, hiff⟩ := toFloat_tenths_nearest n hpos hn
    have hP : (0 : ℚ) < 2 ^ s := by positivity
    rw [hval, ← hiff, div_eq_iff hP.ne']

theorem toFloat_tenths_error (n : Nat) :
    |toFloat ((n : ℚ) / 10) - (n : ℚ) / 10| ≤ (n : ℚ) / 10 / 2 ^ 24 := by
  rcases Nat.eq_zero_or_pos n with h0 | hpos
  · rw [h0]
    simp [toFloat, roundNearestEven_zero]
  · have hq : (0 : ℚ) < (n : ℚ) / 10 := by
      have : (0 : ℚ) < (n : ℚ) := by exact_mod_cast hpos
      positivity
    exact abs_roundNearestEven_sub_le 24 _ hq

theorem toFloat_tenths_nonneg (n : Nat) (hn : n < 65536) : 0 ≤ toFloat ((n : ℚ) / 10) := by
  rcases Nat.eq_zero_or_pos n with h0 | hpos
  · rw [h0]
    simp [toFloat, roundNearestEven_zero]
  · obtain ⟨s, K, -, -, -, -, hval, -, -⟩ := toFloat_tenths_nearest n hpos hn
    rw [hval]
    positivity

/-- For a bound `c / 2` with an integer `c`: the `float` nearest to `n / 10` is at most
`c / 2` exactly when `n / 10` is. -/
theorem toFloat_tenths_le_iff (n c : Nat) (hn : n < 65536) :
    toFloat ((n : ℚ) / 10) ≤ (c : ℚ) / 2 ↔ n ≤ 5 * c := by
  rcases Nat.eq_zero_or_pos n with h0 | hpos
  · rw [h0]
    simp only [Nat.cast_zero, zero_div, toFloat, roundNearestEven_zero]
    constructor
    · intro _; omega
    · intro _; positivity
  · obtain ⟨s, K, hP, -, -, ⟨P2, hP2⟩, hval, hnear, -⟩ := toFloat_tenths_nearest n hpos hn
    have hPq : (0 : ℚ) < 2 ^ s := by positivity
    have hPc : ((2 ^ s : Nat) : ℚ) = 2 ^ s := by push_cast; rfl
    have hP2q : (2 : ℚ) ^ s = 2 * (P2 : ℚ) := by rw [← hPc, hP2]; push_cast; rfl
    have hP1280 : (1280 : ℚ) ≤ 2 ^ s := by rw [← hPc]; exact_mod_cast hP
    rw [hval, div_le_iff₀ hPq]
    rw [abs_le] at hnear
    constructor
    · intro hle
      by_contra hgt
      have hn1 : (5 * (c : ℚ) + 1) ≤ (n : ℚ) := by
        have : 5 * c + 1 ≤ n := by omega
        exact_mod_cast this
      have : (5 * (c : ℚ) + 1) / 10 * 2 ^ s ≤ (n : ℚ) / 10 * 2 ^ s :=
        mul_le_mul_of_nonneg_right (div_le_div_of_nonneg_right hn1 (by norm_num)) hPq.le
      have e : (5 * (c : ℚ) + 1) / 10 * 2 ^ s = (c : ℚ) / 2 * 2 ^ s + 2 ^ s / 10 := by ring
      linarith
    · intro hle
      have hn1 : (n : ℚ) ≤ 5 * (c : ℚ) := by exact_mod_cast hle
      have h1 : (n : ℚ) / 10 * 2 ^ s ≤ (c : ℚ) / 2 * 2 ^ s := by
        have : (n : ℚ) / 10 ≤ (c : ℚ) / 2 := by linarith
        exact mul_le_mul_of_nonneg_right this hPq.le
      have e : (c : ℚ) / 2 * 2 ^ s = ((c * P2 : Nat) : ℚ) := by
        rw [hP2q]; push_cast; ring
      rw [e] at h1 ⊢
      have hlt : (K : ℚ) < ((c * P2 + 1 : Nat) : ℚ) := by
        push_cast at h1 ⊢
        linarith
      have : K < c * P2 + 1 := by exact_mod_cast hlt
      exact_mod_cast Nat.lt_succ_iff.mp this

theorem getHumidity_dht22_eq (sample : DHTSample) :
    DHTSensorTypeDHT22.getHumidity sample
      = toFloat ((((sample.get 0).val * 256 + (sample.get 1).val : Nat) : ℚ) / 10) := by
  have h0 := (sample.get 0).isLt
  have h1 := (sample.get 1).isLt
  unfold DHTSensorTypeDHT22.getHumidity
  rw [combineBytes_eq]
  exact toFloat_toDouble_tenths_eq _ (by omega)

theorem getTempC_dht22_eq (sample : DHTSample) :
    DHTSensorTypeDHT22.getTempC sample
      = (if (sample.get 2).val.testBit 7 = true then -1 else 1)
        * toFloat (((((sample.get 2).val &&& 0x7F) * 256 + (sample.get 3).val : Nat) : ℚ) / 10) := by
  have h3 := (sample.get 3).isLt
  have hlt := and_0x7F_lt (sample.get 2).val
  cases hbit : (sample.get 2).val.testBit 7
  · have h0 : (sample.get 2).val &&& 0x80 = 0 := (and_0x80_eq_zero_iff _).mpr hbit
    unfold DHTSensorTypeDHT22.getTempC
    rw [if_neg (by simpa using h0), combineBytes_eq, ← and_0x7F_of_clear _ hbit,
      Nat.and_assoc, Nat.and_self,
      toFloat_toDouble_tenths_eq _ (by omega)]
    simp
  · have h0 : (sample.get 2).val &&& 0x80 ≠ 0 := by
      intro h
      rw [(and_0x80_eq_zero_iff _).mp h] at hbit
      exact absurd hbit (by decide)
    have hmod : (toUInt8 ((sample.get 2).val &&& 0x7F)).val = (sample.get 2).val &&& 0x7F := by
      show ((sample.get 2).val &&& 0x7F) % 256 = _
      omega
    unfold DHTSensorTypeDHT22.getTempC
    rw [if_pos h0, combineBytes_eq, hmod, neg_mul]
    unfold toFloat toDouble
    rw [roundNearestEven_neg, roundNearestEven_neg]
    have := toFloat_toDouble_tenths_eq
      (((sample.get 2).val &&& 0x7F) * 256 + (sample.get 3).val) (by omega)
    unfold toFloat toDouble at this
    rw [this]
    simp

theorem toFloat_201_tenths : toFloat ((201 : ℚ) / 10) = 10538189 / 524288 := by
  have := toFloat_tenths 201 19 (by norm_num) (by norm_num) (by norm_num)
  norm_num at this
  exact this

theorem toFloat_1_tenth : toFloat ((1 : ℚ) / 10) = 13421773 / 134217728 := by
  have := toFloat_tenths 1 27 (by norm_num) (by norm_num) (by norm_num)
  norm_num at this
  exact this

theorem toFloat_652_tenths : toFloat ((652 : ℚ) / 10) = 4272947 / 65536 := by
  have := toFloat_tenths 652 17 (by norm_num) (by norm_num) (by norm_num)
  norm_num at this
  rw [show ((652 : ℚ) / 10) = 326 / 5 by norm_num]
  exact this

/-- C13 (amended). `DHTSensorTypeDHT22::getTempC` is sign-magnitude in single precision.
With `mag = (byte[2] & 0x7F) * 256 + byte[3]`, it is the `float` nearest to `mag / 10` when
the top bit of `byte[2]` is clear and the negation of that `float` when it is set.  That
`float` is `K / 2 ^ s` with a 24-bit integer `K` within `2 / 5` of `mag * 2 ^ s / 10`; it is
`mag / 10` itself exactly when `mag` is a multiple of 5, and it differs from `mag / 10` by
at most `mag / 10 / 2 ^ 24`.  The payload `01 45 00 C9` gives `10538189 / 2 ^ 19`
(20.1000003814697265625) and `02 8C 80 01` gives `-13421773 / 2 ^ 27`
(-0.100000001490116119384765625). -/
theorem getTempC_dht22_sign_magnitude_float :
    (∀ sample : DHTSample, (sample.get 2).val.testBit 7 = false →
      DHTSensorTypeDHT22.getTempC sample
        = toFloat (((((sample.get 2).val &&& 0x7F) * 256 + (sample.get 3).val : Nat) : ℚ) / 10)) ∧
    (∀ sample : DHTSample, (sample.get 2).val.testBit 7 = true →
      DHTSensorTypeDHT22.getTempC sample
        = -toFloat
            (((((sample.get 2).val &&& 0x7F) * 256 + (sample.get 3).val : Nat) : ℚ) / 10)) ∧
    (∀ sample : DHTSample,
      1 ≤ ((sample.get 2).val &&& 0x7F) * 256 + (sample.get 3).val →
      ∃ s K : Nat, 2 ^ 23 ≤ K ∧ K ≤ 2 ^ 24 ∧
        |DHTSensorTypeDHT22.getTempC sample| = (K : ℚ) / 2 ^ s ∧
        |(K : ℚ) - ((((sample.get 2).val &&& 0x7F) * 256 + (sample.get 3).val : Nat) : ℚ) / 10
            * 2 ^ s| ≤ 2 / 5) ∧
    (∀ sample : DHTSample,
      |DHTSensorTypeDHT22.getTempC sample|
          = ((((sample.get 2).val &&& 0x7F) * 256 + (sample.get 3).val : Nat) : ℚ) / 10
        ↔ 5 ∣ ((sample.get 2).val &&& 0x7F) * 256 + (sample.get 3).val) ∧
    (∀ sample : DHTSample,
      |(|DHTSensorTypeDHT22.getTempC sample|)
          - ((((sample.get 2).val &&& 0x7F) * 256 + (sample.get 3).val : Nat) : ℚ) / 10|
        ≤ ((((sample.get 2).val &&& 0x7F) * 256 + (sample.get 3).val : Nat) : ℚ) / 10
            / 2 ^ 24) ∧
    (∀ (s : DHTSample) (c : Fin 256),
      DHTSensorTypeDHT22.getTempC { s with bytes := ![0x01, 0x45, 0x00, 0xC9, c] }
        = 10538189 / 524288) ∧
    (∀ (s : DHTSample) (c : Fin 256),
      DHTSensorTypeDHT22.getTempC { s with bytes := ![0x02, 0x8C, 0x80, 0x01, c] }
        = -(13421773 / 134217728)) := by
  have hbound : ∀ sample : DHTSample,
      ((sample.get 2).val &&& 0x7F) * 256 + (sample.get 3).val < 65536 := by
    intro sample
    have h3 := (sample.get 3).isLt
    have hlt := and_0x7F_lt (sample.get 2).val
    omega
  have habs : ∀ sample : DHTSample, |DHTSensorTypeDHT22.getTempC sample|
      = toFloat (((((sample.get 2).val &&& 0x7F) * 256 + (sample.get 3).val : Nat) : ℚ) / 10) := by
    intro sample
    have hnn := toFloat_tenths_nonneg _ (hbound sample)
    rw [getTempC_dht22_eq]
    split_ifs
    · rw [neg_one_mul, abs_neg, abs_of_nonneg hnn]
    · rw [one_mul, abs_of_nonneg hnn]
  refine ⟨?_, ?_, ?_, ?_, ?_, ?_, ?_⟩
  · intro sample hbit
    rw [getTempC_dht22_eq, hbit]
    simp
  · intro sample hbit
    rw [getTempC_dht22_eq, hbit]
    simp
  · intro sample h1
    obtain ⟨s, K, -, hK1, hK2, -, hval, hnear, -⟩ :=
      toFloat_tenths_nearest _ h1 (hbound sample)
    exact ⟨s, K, hK1, hK2, by rw [habs, hval], hnear⟩
  · intro sample
    rw [habs]
    exact toFloat_tenths_exact_iff _ (hbound sample)
  · intro sample
    rw [habs]
    exact toFloat_tenths_error _
  · intro s c
    have h2 : (DHTSample.get { s with bytes := ![0x01, 0x45, 0x00, 0xC9, c] } 2).val = 0 := rfl
    have h3 : (DHTSample.get { s with bytes := ![0x01, 0x45, 0x00, 0xC9, c] } 3).val = 201 := rfl
    have h4 : (0 &&& 0x7F : Nat) = 0 := by decide
    have h5 : (0 : Nat).testBit 7 = false := by decide
    rw [getTempC_dht22_eq, h2, h3, h4, h5]
    have := toFloat_201_tenths
    norm_num at this ⊢
    exact this
  · intro s c
    have h2 : (DHTSample.get { s with bytes := ![0x02, 0x8C, 0x80, 0x01, c] } 2).val = 128 := rfl
    have h3 : (DHTSample.get { s with bytes := ![0x02, 0x8C, 0x80, 0x01, c] } 3).val = 1 := rfl
    have h4 : (128 &&& 0x7F : Nat) = 0 := by decide
    have h5 : (128 : Nat).testBit 7 = true := by decide
    rw [getTempC_dht22_eq, h2, h3, h4, h5]
    have := toFloat_1_tenth
    norm_num at this ⊢
    exact this

/-- C13 (counterexample). For the payload `01 45 00 C9` the code returns the `float`
`10538189 / 2 ^ 19`, not `201 / 10`; for `02 8C 80 01` it returns `-13421773 / 2 ^ 27`, not
`-1 / 10`. -/
theorem getTempC_dht22_not_exact :
    (sampleDHT22.get 2).val.testBit 7 = false ∧
    DHTSensorTypeDHT22.getTempC sampleDHT22 = 10538189 / 524288 ∧
    DHTSensorTypeDHT22.getTempC sampleDHT22
      ≠ ((((sampleDHT22.get 2).val &&& 0x7F) * 256 + (sampleDHT22.get 3).val : Nat) : ℚ) / 10 ∧
    DHTSensorTypeDHT22.getTempC sampleDHT22 ≠ 20.1 ∧
    (sampleDHT22Cold.get 2).val.testBit 7 = true ∧
    DHTSensorTypeDHT22.getTempC sampleDHT22Cold = -(13421773 / 134217728) ∧
    DHTSensorTypeDHT22.getTempC sampleDHT22Cold
      ≠ -(((((sampleDHT22Cold.get 2).val &&& 0x7F) * 256 + (sampleDHT22Cold.get 3).val : Nat)
            : ℚ) / 10) ∧
    DHTSensorTypeDHT22.getTempC sampleDHT22Cold ≠ -0.1 := by
  have e1 : DHTSensorTypeDHT22.getTempC sampleDHT22 = 10538189 / 524288 := by
    have h2 : (sampleDHT22.get 2).val = 0 := rfl
    have h3 : (sampleDHT22.get 3).val = 201 := rfl
    have h4 : (0 &&& 0x7F : Nat) = 0 := by decide
    have h5 : (0 : Nat).testBit 7 = false := by decide
    rw [getTempC_dht22_eq, h2, h3, h4, h5]
    have := toFloat_201_tenths
    norm_num at this ⊢
    exact this
  have e2 : DHTSensorTypeDHT22.getTempC sampleDHT22Cold = -(13421773 / 134217728) := by
    have h2 : (sampleDHT22Cold.get 2).val = 128 := rfl
    have h3 : (sampleDHT22Cold.get 3).val = 1 := rfl
    have h4 : (128 &&& 0x7F : Nat) = 0 := by decide
    have h5 : (128 : Nat).testBit 7 = true := by decide
    rw [getTempC_dht22_eq, h2, h3, h4, h5]
    have := toFloat_1_tenth
    norm_num at this ⊢
    exact this
  have m1 : (((sampleDHT22.get 2).val &&& 0x7F) * 256 + (sampleDHT22.get 3).val : Nat) = 201 := by
    decide
  have m2 : (((sampleDHT22Cold.get 2).val &&& 0x7F) * 256 + (sampleDHT22Cold.get 3).val : Nat)
      = 1 := by decide
  refine ⟨by decide, e1, ?_, ?_, by decide, e2, ?_, ?_⟩
  · rw [e1, m1]; norm_num
  · rw [e1]; norm_num
  · rw [e2, m2]; norm_num
  · rw [e2]; norm_num

/-- C14 (amended). `DHTSensorTypeDHT22::getHumidity` is the `float` nearest to
`(byte[0] * 256 + byte[1]) / 10`, the field read as an unsigned 16-bit number for every
payload (no sign bit is interpreted, the value is never negative).  That `float` is
`K / 2 ^ s` with a 24-bit integer `K` within `2 / 5` of `field * 2 ^ s / 10`; it is
`field / 10` itself exactly when the field is a multiple of 5, and it differs from
`field / 10` by at most `field / 10 / 2 ^ 24`.  The payload `01 45 00 C9` gives 32.5. -/
theorem getHumidity_dht22_nearest_float :
    (∀ sample : DHTSample,
      DHTSensorTypeDHT22.getHumidity sample
        = toFloat ((((sample.get 0).val * 256 + (sample.get 1).val : Nat) : ℚ) / 10)) ∧
    (∀ sample : DHTSample, 1 ≤ (sample.get 0).val * 256 + (sample.get 1).val →
      ∃ s K : Nat, 2 ^ 23 ≤ K ∧ K ≤ 2 ^ 24 ∧
        DHTSensorTypeDHT22.getHumidity sample = (K : ℚ) / 2 ^ s ∧
        |(K : ℚ) - (((sample.get 0).val * 256 + (sample.get 1).val : Nat) : ℚ) / 10 * 2 ^ s|
          ≤ 2 / 5) ∧
    (∀ sample : DHTSample,
      DHTSensorTypeDHT22.getHumidity sample
          = (((sample.get 0).val * 256 + (sample.get 1).val : Nat) : ℚ) / 10
        ↔ 5 ∣ (sample.get 0).val * 256 + (sample.get 1).val) ∧
    (∀ sample : DHTSample,
      |DHTSensorTypeDHT22.getHumidity sample
          - (((sample.get 0).val * 256 + (sample.get 1).val : Nat) : ℚ) / 10|
        ≤ (((sample.get 0).val * 256 + (sample.get 1).val : Nat) : ℚ) / 10 / 2 ^ 24) ∧
    (∀ sample : DHTSample, 0 ≤ DHTSensorTypeDHT22.getHumidity sample) ∧
    (∀ (s : DHTSample) (c : Fin 256),
      DHTSensorTypeDHT22.getHumidity { s with bytes := ![0x01, 0x45, 0x00, 0xC9, c] } = 32.5) := by
  have hbound : ∀ sample : DHTSample,
      (sample.get 0).val * 256 + (sample.get 1).val < 65536 := by
    intro sample
    have h0 := (sample.get 0).isLt
    have h1 := (sample.get 1).isLt
    omega
  refine ⟨getHumidity_dht22_eq, ?_, ?_, ?_, ?_, ?_⟩
  · intro sample h1
    obtain ⟨s, K, -, hK1, hK2, -, hval, hnear, -⟩ :=
      toFloat_tenths_nearest _ h1 (hbound sample)
    exact ⟨s, K, hK1, hK2, by rw [getHumidity_dht22_eq, hval], hnear⟩
  · intro sample
    rw [getHumidity_dht22_eq]
    exact toFloat_tenths_exact_iff _ (hbound sample)
  · intro sample
    rw [getHumidity_dht22_eq]
    exact toFloat_tenths_error _
  · intro sample
    rw [getHumidity_dht22_eq]
    exact toFloat_tenths_nonneg _ (hbound sample)
  · intro s c
    have h0 : (DHTSample.get { s with bytes := ![0x01, 0x45, 0x00, 0xC9, c] } 0).val = 1 := rfl
    have h1 : (DHTSample.get { s with bytes := ![0x01, 0x45, 0x00, 0xC9, c] } 1).val = 69 := rfl
    have hx := (toFloat_tenths_exact_iff 325 (by norm_num)).mpr (by norm_num)
    rw [getHumidity_dht22_eq, h0, h1]
    norm_num at hx ⊢
    exact hx

/-- C14 (counterexample). For the payload `02 8C 80 01` the code returns the `float`
`4272947 / 2 ^ 16` (65.19999694824219), not `652 / 10`. -/
theorem getHumidity_dht22_not_exact :
    DHTSensorTypeDHT22.getHumidity sampleDHT22Cold = 4272947 / 65536 ∧
    DHTSensorTypeDHT22.getHumidity sampleDHT22Cold
      ≠ (((sampleDHT22Cold.get 0).val * 256 + (sampleDHT22Cold.get 1).val : Nat) : ℚ) / 10 ∧
    DHTSensorTypeDHT22.getHumidity sampleDHT22Cold ≠ 65.2 := by
  have m : ((sampleDHT22Cold.get 0).val * 256 + (sampleDHT22Cold.get 1).val : Nat) = 652 := by
    decide
  have e : DHTSensorTypeDHT22.getHumidity sampleDHT22Cold = 4272947 / 65536 := by
    rw [getHumidity_dht22_eq, m]
    have := toFloat_652_tenths
    norm_num at this ⊢
    exact this
  refine ⟨e, ?_, ?_⟩
  · rw [e, m]; norm_num
  · rw [e]; norm_num

/-- C15. `DHTSensorTypeDHT11::getTempC` is `byte[2]` and `DHTSensorTypeDHT11::getHumidity` is
`byte[0]`, each read as a two's-complement signed 8-bit integer (the integer in
`-128 .. 127` congruent to the byte modulo 256); `byte[1]` and `byte[3]` are ignored; the
payload `50 0 25 0` gives humidity 50 and temperature 25. -/
theorem dht11_signed_bytes :
    (∀ sample : DHTSample, ∃ v : Int, -128 ≤ v ∧ v ≤ 127 ∧
      (v - ((sample.get 2).val : Int)) % 256 = 0 ∧
      DHTSensorTypeDHT11.getTempC sample = (v : ℚ)) ∧
    (∀ sample : DHTSample, ∃ v : Int, -128 ≤ v ∧ v ≤ 127 ∧
      (v - ((sample.get 0).val : Int)) % 256 = 0 ∧
      DHTSensorTypeDHT11.getHumidity sample = (v : ℚ)) ∧
    (∀ s s' : DHTSample, s.get 2 = s'.get 2 →
      DHTSensorTypeDHT11.getTempC s = DHTSensorTypeDHT11.getTempC s') ∧
    (∀ s s' : DHTSample, s.get 0 = s'.get 0 →
      DHTSensorTypeDHT11.getHumidity s = DHTSensorTypeDHT11.getHumidity s') ∧
    (∀ (s : DHTSample) (c : Fin 256),
      DHTSensorTypeDHT11.getHumidity { s with bytes := ![50, 0, 25, 0, c] } = 50 ∧
      DHTSensorTypeDHT11.getTempC { s with bytes := ![50, 0, 25, 0, c] } = 25) := by
  have hrange : ∀ x : Fin 256, -128 ≤ toInt8 x ∧ toInt8 x ≤ 127 ∧
      (toInt8 x - (x.val : Int)) % 256 = 0 := by
    intro x
    have hx := x.isLt
    unfold toInt8
    split <;> omega
  refine ⟨?_, ?_, ?_, ?_, ?_⟩
  · intro sample
    exact ⟨toInt8 (sample.get 2), (hrange _).1, (hrange _).2.1, (hrange _).2.2, rfl⟩
  · intro sample
    exact ⟨toInt8 (sample.get 0), (hrange _).1, (hrange _).2.1, (hrange _).2.2, rfl⟩
  · intro s s' h
    unfold DHTSensorTypeDHT11.getTempC
    rw [h]
  · intro s s' h
    unfold DHTSensorTypeDHT11.getHumidity
    rw [h]
  · intro s c
    constructor
    · have h0 : toInt8 (DHTSample.get { s with bytes := ![50, 0, 25, 0, c] } 0) = 50 := rfl
      unfold DHTSensorTypeDHT11.getHumidity
      rw [h0]
      norm_num
    · have h2 : toInt8 (DHTSample.get { s with bytes := ![50, 0, 25, 0, c] } 2) = 25 := rfl
      unfold DHTSensorTypeDHT11.getTempC
      rw [h2]
      norm_num

/-! ## Hardware failures and the start pulse -/

/-- C11. In `SAMPLING_STATE` with the capture not complete (`buffersRequested < 2`),
`loop()` changes nothing while less than 15 ms have passed since `stateTime`; from 15 ms on
it uninitialises the peripheral, stores `ERROR`, goes to `IDLE_STATE` and invokes the
completion with the `ERROR` sample.  The outcome does not depend on `tries` or `maxTries`,
the bytes are not decoded and `lastRequestTime` is not updated. -/
theorem loop_sampling_timeout (hal : Hal) (m : DHT22Gen3)
    (hstate : m.state = State.SAMPLING_STATE) (hpending : m.buffersRequested < 2) :
    (sub32 (hal.millis 0) m.stateTime < 15 → DHT22Gen3.loop hal m = (m, [])) ∧
    (15 ≤ sub32 (hal.millis 0) m.stateTime →
      DHT22Gen3.loop hal m
        = ({ unusedPin1 := m.unusedPin1, unusedPin2 := m.unusedPin2, dhtPin := m.dhtPin,
             sensorType := m.sensorType, lastRequestTime := m.lastRequestTime,
             stateTime := m.stateTime, maxTries := m.maxTries, state := State.IDLE_STATE,
             result :=
               { sampleResult := SampleResult.ERROR, sensorType := m.result.sensorType,
                 bytes := m.result.bytes, tries := m.result.tries },
             completion := m.completion, buffersRequested := m.buffersRequested },
           Effect.i2sUninit :: DHT22Gen3.invoke m.completion
               { sampleResult := SampleResult.ERROR, sensorType := m.result.sensorType,
                 bytes := m.result.bytes, tries := m.result.tries })) ∧
    (15 ≤ sub32 (hal.millis 0) m.stateTime →
      ∀ c : CompletionId, m.completion = some c →
        completions (DHT22Gen3.loop hal m).2
          = [(c, { sampleResult := SampleResult.ERROR, sensorType := m.result.sensorType,
                   bytes := m.result.bytes, tries := m.result.tries })]) := by
  refine ⟨?_, ?_, ?_⟩
  · intro h
    simp [DHT22Gen3.loop, hstate, hpending, h]
  · intro h
    have h2 : ¬ sub32 (hal.millis 0) m.stateTime < 15 := by omega
    simp [DHT22Gen3.loop, hstate, hpending, h2, DHT22Gen3.callCompletion]
  · intro h c hc
    have h2 : ¬ sub32 (hal.millis 0) m.stateTime < 15 := by omega
    simp [DHT22Gen3.loop, hstate, hpending, h2, DHT22Gen3.callCompletion, DHT22Gen3.invoke, hc,
      completions]

/-- Witness for C11: the capture of the examples' request, started at time 118 and not
complete, polled at time 140. -/
theorem loop_sampling_timeout_witness :
    (capturingDht.state = State.SAMPLING_STATE ∧ capturingDht.buffersRequested < 2) ∧
    ((sub32 ((halAt ⟨140, by decide⟩ goodFrame).millis 0) capturingDht.stateTime < 15 →
        DHT22Gen3.loop (halAt ⟨140, by decide⟩ goodFrame) capturingDht = (capturingDht, [])) ∧
    (15 ≤ sub32 ((halAt ⟨140, by decide⟩ goodFrame).millis 0) capturingDht.stateTime →
      DHT22Gen3.loop (halAt ⟨140, by decide⟩ goodFrame) capturingDht
        = ({ unusedPin1 := capturingDht.unusedPin1, unusedPin2 := capturingDht.unusedPin2,
             dhtPin := capturingDht.dhtPin, sensorType := capturingDht.sensorType,
             lastRequestTime := capturingDht.lastRequestTime,
             stateTime := capturingDht.stateTime, maxTries := capturingDht.maxTries,
             state := State.IDLE_STATE,
             result :=
               { sampleResult := SampleResult.ERROR,
                 sensorType := capturingDht.result.sensorType,
                 bytes := capturingDht.result.bytes, tries := capturingDht.result.tries },
             completion := capturingDht.completion,
             buffersRequested := capturingDht.buffersRequested },
           Effect.i2sUninit :: DHT22Gen3.invoke capturingDht.completion
               { sampleResult := SampleResult.ERROR,
                 sensorType := capturingDht.result.sensorType,
                 bytes := capturingDht.result.bytes, tries := capturingDht.result.tries })) ∧
    (15 ≤ sub32 ((halAt ⟨140, by decide⟩ goodFrame).millis 0) capturingDht.stateTime →
      ∀ c : CompletionId, capturingDht.completion = some c →
        completions (DHT22Gen3.loop (halAt ⟨140, by decide⟩ goodFrame) capturingDht).2
          = [(c, { sampleResult := SampleResult.ERROR,
                   sensorType := capturingDht.result.sensorType,
                   bytes := capturingDht.result.bytes,
                   tries := capturingDht.result.tries })])) :=
  ⟨⟨by decide, by decide⟩,
   loop_sampling_timeout (halAt ⟨140, by decide⟩ goodFrame) capturingDht
     (by decide) (by decide)⟩

/-- C12. In `SEND_START_STATE` with at least 18 ms elapsed, when `nrfx_i2s_init` or
`nrfx_i2s_start` fails, `loop()` stores `ERROR`, goes to `IDLE_STATE` (never to
`SAMPLING_STATE`), invokes the completion with the `ERROR` sample and leaves `tries` as it
was. -/
theorem loop_send_start_failure (hal : Hal) (m : DHT22Gen3)
    (hstate : m.state = State.SEND_START_STATE)
    (helapsed : 18 ≤ sub32 (hal.millis 0) m.stateTime)
    (hfail : hal.i2sInitOk = false ∨ hal.i2sStartOk = false) :
    (DHT22Gen3.loop hal m).1.state = State.IDLE_STATE ∧
    (DHT22Gen3.loop hal m).1.state ≠ State.SAMPLING_STATE ∧
    (DHT22Gen3.loop hal m).1.result
      = { sampleResult := SampleResult.ERROR, sensorType := m.result.sensorType,
          bytes := m.result.bytes, tries := m.result.tries } ∧
    (DHT22Gen3.loop hal m).1.result.tries = m.result.tries ∧
    (DHT22Gen3.loop hal m).1.maxTries = m.maxTries ∧
    (DHT22Gen3.loop hal m).1.lastRequestTime = m.lastRequestTime ∧
    (DHT22Gen3.loop hal m).1.completion = m.completion ∧
    completions (DHT22Gen3.loop hal m).2
      = completions (DHT22Gen3.invoke m.completion
          { sampleResult := SampleResult.ERROR, sensorType := m.result.sensorType,
            bytes := m.result.bytes, tries := m.result.tries }) ∧
    (∀ c : CompletionId, m.completion = some c →
      completions (DHT22Gen3.loop hal m).2
        = [(c, { sampleResult := SampleResult.ERROR, sensorType := m.result.sensorType,
                 bytes := m.result.bytes, tries := m.result.tries })]) := by
  have h2 : ¬ sub32 (hal.millis 0) m.stateTime < 18 := by omega
  rcases hfail with hf | hf
  · cases hcm : m.completion <;>
      simp [DHT22Gen3.loop, hstate, h2, hf, DHT22Gen3.callCompletion, DHT22Gen3.invoke, hcm,
        completions]
  · cases hi : hal.i2sInitOk <;> cases hcm : m.completion <;>
      simp [DHT22Gen3.loop, hstate, h2, hf, hi, DHT22Gen3.callCompletion, DHT22Gen3.invoke,
        hcm, completions]

/-- Witness for C12: `nrfx_i2s_start` fails 18 ms after the line was driven low. -/
theorem loop_send_start_failure_witness :
    (sendStartDht.state = State.SEND_START_STATE ∧
      18 ≤ sub32 ((halStartFails ⟨118, by decide⟩).millis 0) sendStartDht.stateTime ∧
      ((halStartFails ⟨118, by decide⟩).i2sInitOk = false ∨
        (halStartFails ⟨118, by decide⟩).i2sStartOk = false)) ∧
    (
    (DHT22Gen3.loop (halStartFails ⟨118, by decide⟩) sendStartDht).1.state = State.IDLE_STATE ∧
    (DHT22Gen3.loop (halStartFails ⟨118, by decide⟩) sendStartDht).1.state ≠ State.SAMPLING_STATE ∧
    (DHT22Gen3.loop (halStartFails ⟨118, by decide⟩) sendStartDht).1.result
      = { sampleResult := SampleResult.ERROR, sensorType := sendStartDht.result.sensorType,
          bytes := sendStartDht.result.bytes, tries := sendStartDht.result.tries } ∧
    (DHT22Gen3.loop (halStartFails ⟨118, by decide⟩) sendStartDht).1.result.tries = sendStartDht.result.tries ∧
    (DHT22Gen3.loop (halStartFails ⟨118, by decide⟩) sendStartDht).1.maxTries = sendStartDht.maxTries ∧
    (DHT22Gen3.loop (halStartFails ⟨118, by decide⟩) sendStartDht).1.lastRequestTime = sendStartDht.lastRequestTime ∧
    (DHT22Gen3.loop (halStartFails ⟨118, by decide⟩) sendStartDht).1.completion = sendStartDht.completion ∧
    completions (DHT22Gen3.loop (halStartFails ⟨118, by decide⟩) sendStartDht).2
      = completions (DHT22Gen3.invoke sendStartDht.completion
          { sampleResult := SampleResult.ERROR, sensorType := sendStartDht.result.sensorType,
            bytes := sendStartDht.result.bytes, tries := sendStartDht.result.tries }) ∧
    (∀ c : CompletionId, sendStartDht.completion = some c →
      completions (DHT22Gen3.loop (halStartFails ⟨118, by decide⟩) sendStartDht).2
        = [(c, { sampleResult := SampleResult.ERROR, sensorType := sendStartDht.result.sensorType,
                 bytes := sendStartDht.result.bytes, tries := sendStartDht.result.tries })])) :=
  ⟨⟨by decide, by decide, Or.inr rfl⟩,
   loop_send_start_failure (halStartFails ⟨118, by decide⟩) sendStartDht
     (by decide) (by decide) (Or.inr rfl)⟩

/-- C19. In `SEND_START_STATE`, `loop()` changes nothing (no pin is touched, the peripheral
is not started, `tries` is not incremented) while less than 18 ms have passed since
`stateTime`, computed modulo 2^32: this holds at every time `stateTime + k` with `k < 18`,
also when that sum wraps.  From 18 ms on it first puts the pin in input mode and, when the
peripheral initialises and starts, increments `tries` by one and enters
`SAMPLING_STATE`. -/
theorem loop_send_start_pulse (hal : Hal) (m : DHT22Gen3)
    (hstate : m.state = State.SEND_START_STATE) :
    (sub32 (hal.millis 0) m.stateTime < 18 → DHT22Gen3.loop hal m = (m, [])) ∧
    (∀ k : U32, k.val < 18 → hal.millis 0 = m.stateTime + k →
      DHT22Gen3.loop hal m = (m, [])) ∧
    (18 ≤ sub32 (hal.millis 0) m.stateTime →
      (DHT22Gen3.loop hal m).2.head? = some (Effect.pinMode m.dhtPin PinMode.INPUT)) ∧
    (18 ≤ sub32 (hal.millis 0) m.stateTime → hal.i2sInitOk = true → hal.i2sStartOk = true →
      DHT22Gen3.loop hal m
        = ({ unusedPin1 := m.unusedPin1, unusedPin2 := m.unusedPin2, dhtPin := m.dhtPin,
             sensorType := m.sensorType, lastRequestTime := m.lastRequestTime,
             stateTime := hal.millis 1, maxTries := m.maxTries,
             state := State.SAMPLING_STATE,
             result :=
               { sampleResult := m.result.sampleResult, sensorType := m.result.sensorType,
                 bytes := m.result.bytes, tries := m.result.tries + 1 },
             completion := m.completion, buffersRequested := 0 },
           [Effect.pinMode m.dhtPin PinMode.INPUT,
            Effect.i2sInit m.dhtPin m.unusedPin1 m.unusedPin2,
            Effect.i2sStart])) ∧
    ((DHT22Gen3.loop hal m).1.state = State.SAMPLING_STATE →
      18 ≤ sub32 (hal.millis 0) m.stateTime ∧
      (DHT22Gen3.loop hal m).1.result.tries = m.result.tries + 1) := by
  have hwait : sub32 (hal.millis 0) m.stateTime < 18 → DHT22Gen3.loop hal m = (m, []) := by
    intro h
    simp [DHT22Gen3.loop, hstate, h]
  refine ⟨hwait, ?_, ?_, ?_, ?_⟩
  · intro k hk hnow
    apply hwait
    rw [hnow, sub32_add]
    exact hk
  · intro h
    have h2 : ¬ sub32 (hal.millis 0) m.stateTime < 18 := by omega
    cases hi : hal.i2sInitOk <;> cases hs : hal.i2sStartOk <;>
      simp [DHT22Gen3.loop, hstate, h2, hi, hs]
  · intro h hi hs
    have h2 : ¬ sub32 (hal.millis 0) m.stateTime < 18 := by omega
    simp [DHT22Gen3.loop, hstate, h2, hi, hs]
  · intro hsamp
    by_cases h : sub32 (hal.millis 0) m.stateTime < 18
    · rw [hwait h] at hsamp
      rw [hstate] at hsamp
      exact absurd hsamp (by decide)
    · refine ⟨by omega, ?_⟩
      cases hi : hal.i2sInitOk <;> cases hs : hal.i2sStartOk <;>
        simp [DHT22Gen3.loop, hstate, h, hi, hs, DHT22Gen3.callCompletion] at hsamp ⊢

/-- Witness for C19: the start pulse of the examples' request, polled 10 ms after the line
was driven low. -/
theorem loop_send_start_pulse_witness :
    sendStartDht.state = State.SEND_START_STATE ∧
    (
    (sub32 ((halAt ⟨110, by decide⟩ goodFrame).millis 0) sendStartDht.stateTime < 18 → DHT22Gen3.loop (halAt ⟨110, by decide⟩ goodFrame) sendStartDht = (sendStartDht, [])) ∧
    (∀ k : U32, k.val < 18 → (halAt ⟨110, by decide⟩ goodFrame).millis 0 = sendStartDht.stateTime + k →
      DHT22Gen3.loop (halAt ⟨110, by decide⟩ goodFrame) sendStartDht = (sendStartDht, [])) ∧
    (18 ≤ sub32 ((halAt ⟨110, by decide⟩ goodFrame).millis 0) sendStartDht.stateTime →
      (DHT22Gen3.loop (halAt ⟨110, by decide⟩ goodFrame) sendStartDht).2.head? = some (Effect.pinMode sendStartDht.dhtPin PinMode.INPUT)) ∧
    (18 ≤ sub32 ((halAt ⟨110, by decide⟩ goodFrame).millis 0) sendStartDht.stateTime → (halAt ⟨110, by decide⟩ goodFrame).i2sInitOk = true → (halAt ⟨110, by decide⟩ goodFrame).i2sStartOk = true →
      DHT22Gen3.loop (halAt ⟨110, by decide⟩ goodFrame) sendStartDht
        = ({ unusedPin1 := sendStartDht.unusedPin1, unusedPin2 := sendStartDht.unusedPin2, dhtPin := sendStartDht.dhtPin,
             sensorType := sendStartDht.sensorType, lastRequestTime := sendStartDht.lastRequestTime,
             stateTime := (halAt ⟨110, by decide⟩ goodFrame).millis 1, maxTries := sendStartDht.maxTries,
             state := State.SAMPLING_STATE,
             result :=
               { sampleResult := sendStartDht.result.sampleResult, sensorType := sendStartDht.result.sensorType,
                 bytes := sendStartDht.result.bytes, tries := sendStartDht.result.tries + 1 },
             completion := sendStartDht.completion, buffersRequested := 0 },
           [Effect.pinMode sendStartDht.dhtPin PinMode.INPUT,
            Effect.i2sInit sendStartDht.dhtPin sendStartDht.unusedPin1 sendStartDht.unusedPin2,
            Effect.i2sStart])) ∧
    ((DHT22Gen3.loop (halAt ⟨110, by decide⟩ goodFrame) sendStartDht).1.state = State.SAMPLING_STATE →
      18 ≤ sub32 ((halAt ⟨110, by decide⟩ goodFrame).millis 0) sendStartDht.stateTime ∧
      (DHT22Gen3.loop (halAt ⟨110, by decide⟩ goodFrame) sendStartDht).1.result.tries = sendStartDht.result.tries + 1)) :=
  ⟨by decide, loop_send_start_pulse (halAt ⟨110, by decide⟩ goodFrame) sendStartDht (by decide)⟩

/-! ## Clearing a sample -/

/-- C16 (behaviour of the code). `DHTSample::clear()` sets the result to `ERROR` and `tries`
to 0 and keeps the sensor type, but it leaves the five raw bytes as they are: cleared, the
sample `01 45 00 C9 0F` still holds `01 45 00 C9 0F`. -/
theorem clear_keeps_bytes :
    (∀ s : DHTSample,
      s.clear.sampleResult = SampleResult.ERROR ∧ s.clear.tries = 0 ∧
      s.clear.sensorType = s.sensorType ∧ s.clear.bytes = s.bytes) ∧
    sampleDHT22.clear.bytes = ![0x01, 0x45, 0x00, 0xC9, 0x0F] ∧
    sampleDHT22.clear.bytes 1 ≠ 0 ∧
    sampleDHT22.clear.sampleResult = SampleResult.ERROR ∧
    sampleDHT22.clear.tries = 0 :=
  ⟨fun _ => ⟨rfl, rfl, rfl, rfl⟩, rfl, by decide, rfl, rfl⟩

/-! ## Range of the humidity -/

theorem getHumidity_dispatch (s : DHTSample) :
    sensorTypeDHT22.getHumidity s = DHTSensorTypeDHT22.getHumidity s ∧
    sensorTypeDHT11.getHumidity s = DHTSensorTypeDHT11.getHumidity s :=
  ⟨rfl, rfl⟩

/-- C17 (amended). For a sample delivered with `SUCCESS` (valid checksum), `getHumidity()`
of the DHT22 type is the `float` nearest to `(byte[0] * 256 + byte[1]) / 10`, between 0 and
6553.5, and of the DHT11 type it is `byte[0]` as a signed 8-bit integer, between -128 and
127.  It lies between 0 and 100 exactly when the humidity field is in range:
`byte[0] * 256 + byte[1] ≤ 1000` for the DHT22 type, `byte[0] ≤ 100` for the DHT11 type. -/
theorem getHumidity_range (s : DHTSample) (_hs : s.sampleResult = SampleResult.SUCCESS)
    (_hv : s.isValidChecksum = true) :
    sensorTypeDHT22.getHumidity s
      = toFloat ((((s.get 0).val * 256 + (s.get 1).val : Nat) : ℚ) / 10) ∧
    (0 ≤ sensorTypeDHT22.getHumidity s ∧ sensorTypeDHT22.getHumidity s ≤ 6553.5) ∧
    sensorTypeDHT11.getHumidity s = ((toInt8 (s.get 0) : Int) : ℚ) ∧
    (-128 ≤ sensorTypeDHT11.getHumidity s ∧ sensorTypeDHT11.getHumidity s ≤ 127) ∧
    ((0 ≤ sensorTypeDHT22.getHumidity s ∧ sensorTypeDHT22.getHumidity s ≤ 100)
      ↔ (s.get 0).val * 256 + (s.get 1).val ≤ 1000) ∧
    ((0 ≤ sensorTypeDHT11.getHumidity s ∧ sensorTypeDHT11.getHumidity s ≤ 100)
      ↔ (s.get 0).val ≤ 100) := by
  have h0 := (s.get 0).isLt
  have h1 := (s.get 1).isLt
  have hb : (s.get 0).val * 256 + (s.get 1).val < 65536 := by omega
  have e22 : sensorTypeDHT22.getHumidity s
      = toFloat ((((s.get 0).val * 256 + (s.get 1).val : Nat) : ℚ) / 10) := by
    rw [(getHumidity_dispatch s).1, getHumidity_dht22_eq]
  have e11 : sensorTypeDHT11.getHumidity s = ((toInt8 (s.get 0) : Int) : ℚ) :=
    (getHumidity_dispatch s).2
  have hnn := toFloat_tenths_nonneg _ hb
  have h100 := toFloat_tenths_le_iff ((s.get 0).val * 256 + (s.get 1).val) 200 hb
  have hmax := toFloat_tenths_le_iff ((s.get 0).val * 256 + (s.get 1).val) 13107 hb
  have c100 : ((200 : Nat) : ℚ) / 2 = 100 := by norm_num
  have cmax : ((13107 : Nat) : ℚ) / 2 = 6553.5 := by norm_num
  rw [c100] at h100
  rw [cmax] at hmax
  refine ⟨e22, ?_, e11, ?_, ?_, ?_⟩
  · rw [e22]
    exact ⟨hnn, hmax.mpr (by omega)⟩
  · rw [e11]
    unfold toInt8
    split
    · constructor
      · have : (-128 : Int) ≤ ((s.get 0).val : Int) := by omega
        exact_mod_cast this
      · have : ((s.get 0).val : Int) ≤ 127 := by omega
        exact_mod_cast this
    · constructor
      · have : (-128 : Int) ≤ ((s.get 0).val : Int) - 256 := by omega
        exact_mod_cast this
      · have : ((s.get 0).val : Int) - 256 ≤ 127 := by omega
        exact_mod_cast this
  · rw [e22]
    constructor
    · rintro ⟨_, h⟩
      have := h100.mp h
      omega
    · intro h
      exact ⟨hnn, h100.mpr (by omega)⟩
  · rw [e11]
    unfold toInt8
    split
    · constructor
      · rintro ⟨_, h⟩
        have h2 : ((s.get 0).val : Int) ≤ 100 := by exact_mod_cast h
        omega
      · intro h
        constructor
        · have : (0 : Int) ≤ ((s.get 0).val : Int) := by omega
          exact_mod_cast this
        · have : ((s.get 0).val : Int) ≤ 100 := by omega
          exact_mod_cast this
    · constructor
      · rintro ⟨h, _⟩
        have h2 : (0 : Int) ≤ ((s.get 0).val : Int) - 256 := by exact_mod_cast h
        omega
      · intro h
        omega

/-- Witness for C17 (amended): the sample `01 45 00 C9 0F`, humidity 32.5. -/
theorem getHumidity_range_witness :
    (sampleDHT22.sampleResult = SampleResult.SUCCESS ∧ sampleDHT22.isValidChecksum = true) ∧
    (sensorTypeDHT22.getHumidity sampleDHT22
       = toFloat ((((sampleDHT22.get 0).val * 256 + (sampleDHT22.get 1).val : Nat) : ℚ) / 10) ∧
     (0 ≤ sensorTypeDHT22.getHumidity sampleDHT22 ∧
        sensorTypeDHT22.getHumidity sampleDHT22 ≤ 6553.5) ∧
     sensorTypeDHT11.getHumidity sampleDHT22 = ((toInt8 (sampleDHT22.get 0) : Int) : ℚ) ∧
     (-128 ≤ sensorTypeDHT11.getHumidity sampleDHT22 ∧
        sensorTypeDHT11.getHumidity sampleDHT22 ≤ 127) ∧
     ((0 ≤ sensorTypeDHT22.getHumidity sampleDHT22 ∧
        sensorTypeDHT22.getHumidity sampleDHT22 ≤ 100)
       ↔ (sampleDHT22.get 0).val * 256 + (sampleDHT22.get 1).val ≤ 1000) ∧
     ((0 ≤ sensorTypeDHT11.getHumidity sampleDHT22 ∧
        sensorTypeDHT11.getHumidity sampleDHT22 ≤ 100)
       ↔ (sampleDHT22.get 0).val ≤ 100)) :=
  ⟨⟨rfl, by decide⟩, getHumidity_range sampleDHT22 rfl (by decide)⟩

/-- C17 (counterexample). The sample `FF FF 00 00 FE` has result `SUCCESS` and a valid
checksum; its humidity is 6553.5 for the DHT22 type and -1 for the DHT11 type, both outside
`0 .. 100`. -/
theorem getHumidity_range_counterexample :
    sampleOutOfRange.isSuccess = true ∧
    sampleOutOfRange.isValidChecksum = true ∧
    sensorTypeDHT22.getHumidity sampleOutOfRange = 6553.5 ∧
    ¬ (sensorTypeDHT22.getHumidity sampleOutOfRange ≤ 100) ∧
    sensorTypeDHT11.getHumidity sampleOutOfRange = -1 ∧
    ¬ (0 ≤ sensorTypeDHT11.getHumidity sampleOutOfRange) := by
  have m : ((sampleOutOfRange.get 0).val * 256 + (sampleOutOfRange.get 1).val : Nat) = 65535 := by
    decide
  have e22 : sensorTypeDHT22.getHumidity sampleOutOfRange = 6553.5 := by
    rw [(getHumidity_dispatch _).1, getHumidity_dht22_eq, m]
    have hx := (toFloat_tenths_exact_iff 65535 (by norm_num)).mpr (by norm_num)
    norm_num at hx ⊢
    exact hx
  have e11 : sensorTypeDHT11.getHumidity sampleOutOfRange = -1 := by
    rw [(getHumidity_dispatch _).2, DHTSensorTypeDHT11.getHumidity]
    have h0 : toInt8 (sampleOutOfRange.get 0) = -1 := rfl
    rw [h0]
    norm_num
  refine ⟨rfl, by decide, e22, ?_, e11, ?_⟩
  · rw [e22]; norm_num
  · rw [e11]; norm_num

/-! ## The try counter on reachable states -/

theorem mem_completions (es : List Effect) (c : CompletionId) (s : DHTSample) :
    (c, s) ∈ completions es ↔ Effect.completion c s ∈ es := by
  induction es with
  | nil => simp [completions]
  | cons e es ih => cases e <;> simp [completions, ih]

theorem triesInvariant_call (m : DHT22Gen3) (c : Call) (h : TriesInvariant m) :
    TriesInvariant (call m c).1 := by
  obtain ⟨h1, h2, h3⟩ := h
  cases c with
  | getSample dhtPin completion sensorType =>
    by_cases hs : m.state = State.IDLE_STATE
    · simp [call, DHT22Gen3.getSample, hs, TriesInvariant]
    · simp only [call, DHT22Gen3.getSample, hs, ne_eq, not_false_eq_true, if_true]
      exact ⟨h1, h2, h3⟩
  | withMaxTries tries => exact ⟨h1, h2, h3⟩
  | dataHandler nextBuffersNeeded =>
    unfold call DHT22Gen3.dataHandler
    simp only []
    split_ifs <;> exact ⟨h1, h2, h3⟩
  | loop hal =>
    cases hst : m.state
    · simp only [call, DHT22Gen3.loop, hst]
      exact ⟨h1, h2, h3⟩
    · simp only [call, DHT22Gen3.loop, hst, DHT22Gen3.startAttempt, DHTSample.clear]
      split_ifs <;> first
        | exact ⟨h1, h2, h3⟩
        | simp [TriesInvariant]
    · have ht := h2 hst
      simp only [call, DHT22Gen3.loop, hst, DHT22Gen3.callCompletion]
      split_ifs <;> simp [TriesInvariant, ht, h1, hst]
    · have ht := h3 hst
      simp only [call, DHT22Gen3.loop, hst, DHT22Gen3.callCompletion,
        DHT22Gen3.decodeAndFinish, DHT22Gen3.retryOrGiveUp]
      split_ifs <;> simp [TriesInvariant, ht, h1, hst]

theorem triesInvariant_run (m : DHT22Gen3) (calls : List Call) (h : TriesInvariant m) :
    TriesInvariant (run m calls).1 := by
  induction calls generalizing m with
  | nil => exact h
  | cons c cs ih =>
    rw [run_cons]
    exact ih _ (triesInvariant_call m c h)

theorem triesInvariant_create (unusedPin1 unusedPin2 : Pin) :
    TriesInvariant (DHT22Gen3.create unusedPin1 unusedPin2) := by
  simp [TriesInvariant, DHT22Gen3.create]

theorem loop_too_many_retries (hal : Hal) (m : DHT22Gen3) (c : CompletionId) (s : DHTSample)
    (hmem : Effect.completion c s ∈ (DHT22Gen3.loop hal m).2)
    (hres : s.sampleResult = SampleResult.TOO_MANY_RETRIES) :
    m.state = State.SAMPLING_STATE ∧ m.maxTries ≤ m.result.tries := by
  cases hst : m.state
  all_goals simp only [DHT22Gen3.loop, hst] at hmem
  · simp at hmem
  · split_ifs at hmem <;> simp [DHT22Gen3.startAttempt] at hmem
  · exfalso
    cases hcm : m.completion <;>
      split_ifs at hmem <;>
      simp [DHT22Gen3.callCompletion, DHT22Gen3.invoke, hcm] at hmem
    all_goals (obtain ⟨-, rfl⟩ := hmem; simp at hres)
  · refine ⟨rfl, ?_⟩
    simp only [DHT22Gen3.decodeAndFinish, DHT22Gen3.retryOrGiveUp] at hmem
    by_contra hlt
    cases hcm : m.completion <;>
      split_ifs at hmem <;>
      simp [DHT22Gen3.callCompletion, DHT22Gen3.invoke, hcm] at hmem
    all_goals (obtain ⟨-, rfl⟩ := hmem; simp at hres)

theorem call_too_many_retries (m : DHT22Gen3) (cl : Call) (c : CompletionId) (s : DHTSample)
    (hmem : Effect.completion c s ∈ (call m cl).2)
    (hres : s.sampleResult = SampleResult.TOO_MANY_RETRIES) :
    m.state = State.SAMPLING_STATE ∧ m.maxTries ≤ m.result.tries := by
  cases cl with
  | getSample dhtPin completion sensorType =>
    exfalso
    by_cases hs : m.state = State.IDLE_STATE
    · simp [call, DHT22Gen3.getSample, hs] at hmem
    · cases completion <;>
        simp [call, DHT22Gen3.getSample, hs, DHT22Gen3.invoke] at hmem
      obtain ⟨-, rfl⟩ := hmem
      simp [DHTSample.withBusy] at hres
  | withMaxTries tries => simp [call] at hmem
  | dataHandler nextBuffersNeeded =>
    exfalso
    unfold call DHT22Gen3.dataHandler at hmem
    simp only [] at hmem
    split_ifs at hmem <;> simp at hmem
  | loop hal => exact loop_too_many_retries hal m c s hmem hres

theorem maxTries_call (m : DHT22Gen3) (cl : Call) (hmax : 2 ≤ m.maxTries)
    (hcl : ∀ n, cl = Call.withMaxTries n → 2 ≤ n) : 2 ≤ (call m cl).1.maxTries := by
  cases cl with
  | getSample dhtPin completion sensorType =>
    by_cases hs : m.state = State.IDLE_STATE <;> simp [call, DHT22Gen3.getSample, hs, hmax]
  | withMaxTries tries =>
    simp only [call, DHT22Gen3.withMaxTries]
    exact hcl tries rfl
  | dataHandler nextBuffersNeeded =>
    unfold call DHT22Gen3.dataHandler
    simp only []
    split_ifs <;> exact hmax
  | loop hal =>
    cases hst : m.state
    · simp only [call, DHT22Gen3.loop, hst]; exact hmax
    · simp only [call, DHT22Gen3.loop, hst, DHT22Gen3.startAttempt]
      split_ifs <;> exact hmax
    · simp only [call, DHT22Gen3.loop, hst, DHT22Gen3.callCompletion]
      split_ifs <;> exact hmax
    · simp only [call, DHT22Gen3.loop, hst, DHT22Gen3.callCompletion,
        DHT22Gen3.decodeAndFinish, DHT22Gen3.retryOrGiveUp]
      split_ifs <;> exact hmax

theorem run_no_too_many_retries (m : DHT22Gen3) (calls : List Call) (hinv : TriesInvariant m)
    (hmax : 2 ≤ m.maxTries) (hcalls : ∀ n, Call.withMaxTries n ∈ calls → 2 ≤ n)
    (c : CompletionId) (s : DHTSample) (hmem : Effect.completion c s ∈ (run m calls).2) :
    s.sampleResult ≠ SampleResult.TOO_MANY_RETRIES := by
  induction calls generalizing m with
  | nil => simp [run] at hmem
  | cons cl cs ih =>
    rw [run_cons] at hmem
    simp only [List.mem_append] at hmem
    rcases hmem with h | h
    · intro hres
      obtain ⟨hst, hle⟩ := call_too_many_retries m cl c s h hres
      have := hinv.2.2 hst
      omega
    · exact ih (call m cl).1 (triesInvariant_call m cl hinv)
        (maxTries_call m cl hmax (fun n hn => hcalls n (by rw [hn]; exact List.mem_cons_self _ _)))
        (fun n hn => hcalls n (List.mem_cons_of_mem _ hn)) h

/-- C20. In every state reached from a newly constructed object by any sequence of
`getSample`, `withMaxTries`, `loop` and interrupt calls, `result.tries` is 0 or 1 and it is
1 whenever the state is `SAMPLING_STATE`.  Hence from a reachable state with
`maxTries >= 2` no call of `loop()` invokes a completion with `TOO_MANY_RETRIES`, and a
sequence of calls that never sets `maxTries` below 2 contains no such invocation. -/
theorem tries_at_most_one (unusedPin1 unusedPin2 : Pin) (calls : List Call) :
    ((run (DHT22Gen3.create unusedPin1 unusedPin2) calls).1.result.tries = 0 ∨
      (run (DHT22Gen3.create unusedPin1 unusedPin2) calls).1.result.tries = 1) ∧
    ((run (DHT22Gen3.create unusedPin1 unusedPin2) calls).1.state = State.SAMPLING_STATE →
      (run (DHT22Gen3.create unusedPin1 unusedPin2) calls).1.result.tries = 1) ∧
    (2 ≤ (run (DHT22Gen3.create unusedPin1 unusedPin2) calls).1.maxTries →
      ∀ (hal : Hal) (c : CompletionId) (s : DHTSample),
        Effect.completion c s
            ∈ (DHT22Gen3.loop hal (run (DHT22Gen3.create unusedPin1 unusedPin2) calls).1).2 →
        s.sampleResult ≠ SampleResult.TOO_MANY_RETRIES) ∧
    ((∀ n, Call.withMaxTries n ∈ calls → 2 ≤ n) →
      ∀ cs ∈ completions (run (DHT22Gen3.create unusedPin1 unusedPin2) calls).2,
        cs.2.sampleResult ≠ SampleResult.TOO_MANY_RETRIES) := by
  have hinv := triesInvariant_run _ calls (triesInvariant_create unusedPin1 unusedPin2)
  refine ⟨hinv.1, hinv.2.2, ?_, ?_⟩
  · intro hmax hal c s hmem hres
    obtain ⟨hst, hle⟩ := loop_too_many_retries hal _ c s hmem hres
    have := hinv.2.2 hst
    omega
  · intro hcalls cs hcs
    have hmem : Effect.completion cs.1 cs.2
        ∈ (run (DHT22Gen3.create unusedPin1 unusedPin2) calls).2 :=
      (mem_completions _ cs.1 cs.2).mp hcs
    exact run_no_too_many_retries _ calls (triesInvariant_create unusedPin1 unusedPin2)
      (by simp [DHT22Gen3.create]) hcalls cs.1 cs.2 hmem

/-! ## The decoder and its run-length reference -/

theorem lastLevel_concat (pre : List Bool) (b : Bool) : lastLevel (pre ++ [b]) = b := by
  simp [lastLevel]

theorem highRun_concat (pre : List Bool) (b : Bool) :
    highRun (pre ++ [b]) = if b = true then highRun pre + 1 else 0 := by
  cases b <;> simp [highRun, List.takeWhile_cons]

theorem highRun_of_lastLevel_false (pre : List Bool) (h : lastLevel pre = false) :
    highRun pre = 0 := by
  rcases List.eq_nil_or_concat pre with rfl | ⟨l, a, rfl⟩
  · simp [lastLevel] at h
  · rw [List.concat_eq_append] at h ⊢
    rw [lastLevel_concat] at h
    rw [highRun_concat, h]
    simp

theorem levelBefore_concat (pre : List Bool) (b : Bool) (p : Nat) (hp : p ≤ pre.length) :
    levelBefore (pre ++ [b]) p = levelBefore pre p := by
  unfold levelBefore
  rw [List.take_append_of_le_length hp]

theorem highRunBefore_concat (pre : List Bool) (b : Bool) (p : Nat) (hp : p ≤ pre.length) :
    highRunBefore (pre ++ [b]) p = highRunBefore pre p := by
  unfold highRunBefore
  rw [List.take_append_of_le_length hp]

theorem levelBefore_length (pre : List Bool) : levelBefore pre pre.length = lastLevel pre := by
  simp [levelBefore]

theorem highRunBefore_length (pre : List Bool) : highRunBefore pre pre.length = highRun pre := by
  simp [highRunBefore]

theorem fallPositions_concat (pre : List Bool) (b : Bool) :
    fallPositions (pre ++ [b])
      = fallPositions pre ++ (if (lastLevel pre && !b) = true then [pre.length] else []) := by
  unfold fallPositions
  rw [List.length_append, List.length_singleton, List.range_succ, List.filter_append]
  congr 1
  · apply List.filter_congr
    intro p hp
    rw [List.mem_range] at hp
    rw [levelBefore_concat pre b p (le_of_lt hp), List.getD_append _ _ _ _ hp]
  · have h1 : levelBefore (pre ++ [b]) pre.length = lastLevel pre := by
      rw [levelBefore_concat pre b _ (le_refl _), levelBefore_length]
    have h2 : (pre ++ [b]).getD pre.length true = b := by simp
    simp only [List.filter_cons, List.filter_nil, h1, h2]

theorem fallPositions_lt (bits : List Bool) (p : Nat) (hp : p ∈ fallPositions bits) :
    p < bits.length := by
  unfold fallPositions at hp
  rw [List.mem_filter, List.mem_range] at hp
  exact hp.1

theorem referenceBit_of_le (thr : Int) (bits : List Bool) (i : Nat)
    (hi : (fallPositions bits).length ≤ i + 2) : referenceBit thr bits i = false := by
  unfold referenceBit
  rw [List.getElem?_eq_none hi]

theorem referenceBit_concat_of_lt (thr : Int) (pre : List Bool) (b : Bool) (i : Nat)
    (hi : i + 2 < (fallPositions pre).length) :
    referenceBit thr (pre ++ [b]) i = referenceBit thr pre i := by
  unfold referenceBit
  rw [fallPositions_concat, List.getElem?_append_left hi, List.getElem?_eq_getElem hi]
  simp only []
  rw [highRunBefore_concat pre b _
    (le_of_lt (fallPositions_lt pre _ (List.getElem_mem hi)))]

theorem referenceBit_concat_of_not_fall (thr : Int) (pre : List Bool) (b : Bool) (i : Nat)
    (h : (lastLevel pre && !b) = false) :
    referenceBit thr (pre ++ [b]) i = referenceBit thr pre i := by
  by_cases hi : i + 2 < (fallPositions pre).length
  · exact referenceBit_concat_of_lt thr pre b i hi
  · rw [referenceBit_of_le thr pre i (by omega), referenceBit_of_le]
    rw [fallPositions_concat, h]
    simp only [Bool.false_eq_true, if_false, List.append_nil]
    omega

theorem referenceBit_concat_fall (thr : Int) (pre : List Bool) (i : Nat)
    (h : lastLevel pre = true) (hi : i + 2 = (fallPositions pre).length) :
    referenceBit thr (pre ++ [false]) i = decide ((highRun pre : Int) > thr) := by
  unfold referenceBit
  rw [fallPositions_concat, h]
  simp only [Bool.not_false, Bool.and_self, if_true]
  rw [hi, List.getElem?_concat_length]
  simp only []
  rw [highRunBefore_concat pre false _ (le_refl _), highRunBefore_length]

theorem referenceBit_concat_fall_of_gt (thr : Int) (pre : List Bool) (i : Nat)
    (h : lastLevel pre = true) (hi : (fallPositions pre).length < i + 2) :
    referenceBit thr (pre ++ [false]) i = false := by
  apply referenceBit_of_le
  rw [fallPositions_concat, h]
  simp only [Bool.not_false, Bool.and_self, if_true, List.length_append, List.length_singleton]
  omega

theorem decodeInvariant_init (thr : Int) (bytes0 : Bytes) :
    DecodeInvariant thr bytes0 [] { prev := true, count := 0, pair := -2, bytes := bytes0 } := by
  refine ⟨by simp [lastLevel], fun _ => by simp [highRun], by simp [referencePair, fallPositions],
    fun q => ?_⟩
  rw [referenceBit_of_le thr [] q.val (by simp [fallPositions])]
  simp

theorem decodeInvariant_step (thr : Int) (bytes0 : Bytes) (pre : List Bool) (st : DecodeState)
    (b : Bool) (h : DecodeInvariant thr bytes0 pre st) :
    DecodeInvariant thr bytes0 (pre ++ [b]) (decodeBit thr st b) := by
  obtain ⟨h1, h2, h3, h4⟩ := h
  by_cases hb : b = st.prev
  · subst hb
    have hnf : (lastLevel pre && !st.prev) = false := by
      rw [← h1]; cases st.prev <;> rfl
    have hf : fallPositions (pre ++ [st.prev]) = fallPositions pre := by
      rw [fallPositions_concat, hnf]; simp
    rw [decodeBit_same]
    refine ⟨?_, ?_, ?_, ?_⟩
    · rw [lastLevel_concat]
    · intro hp
      have hp2 : st.prev = true := hp
      rw [highRun_concat, if_pos hp2]
      simp only []
      rw [h2 hp2]
      push_cast
      rfl
    · simp only [referencePair, hf]
      exact h3
    · intro q
      rw [referenceBit_concat_of_not_fall thr pre st.prev q.val hnf]
      exact h4 q
  · cases b with
    | false =>
      have hprev : st.prev = true := by
        cases hpv : st.prev
        · exact absurd hpv.symm hb
        · rfl
      have hl : lastLevel pre = true := by rw [← h1]; exact hprev
      have hf : fallPositions (pre ++ [false]) = fallPositions pre ++ [pre.length] := by
        rw [fallPositions_concat, hl]; simp
      have hcount := h2 hprev
      rw [decodeBit_fall thr st hprev]
      refine ⟨?_, ?_, ?_, ?_⟩
      · rw [lastLevel_concat]
      · intro hp; exact absurd hp (by simp)
      · simp only [referencePair, hf, List.length_append, List.length_singleton]
        rw [h3, referencePair]
        push_cast
        ring
      · intro q
        simp only []
        rw [referencePair] at h3
        unfold closedBytes
        by_cases hc : 0 ≤ st.pair ∧ st.pair < 40 ∧ st.count > thr
        · rw [if_pos hc]
          obtain ⟨n, hn⟩ : ∃ n : Nat, (fallPositions pre).length = n + 2 :=
            ⟨(fallPositions pre).length - 2, by omega⟩
          have hpn : st.pair = (n : Int) := by rw [h3, hn]; push_cast; ring
          have hn40 : n < 40 := by omega
          rw [hpn, bitOf_orBit st.bytes n hn40 q, h4 q]
          rcases Nat.lt_trichotomy q.val n with hlt | heq | hgt
          · rw [referenceBit_concat_of_lt thr pre false q.val (by omega)]
            constructor
            · rintro (hh | hh)
              · exact hh
              · omega
            · exact fun hh => Or.inl hh
          · rw [referenceBit_of_le thr pre q.val (by omega),
              referenceBit_concat_fall thr pre q.val hl (by omega), ← hcount]
            simp only [Bool.false_eq_true, or_false, decide_eq_true_eq]
            constructor
            · rintro (hh | _)
              · exact Or.inl hh
              · exact Or.inr hc.2.2
            · rintro (hh | _)
              · exact Or.inl hh
              · exact Or.inr heq
          · rw [referenceBit_of_le thr pre q.val (by omega),
              referenceBit_concat_fall_of_gt thr pre q.val hl (by omega)]
            constructor
            · rintro (hh | hh)
              · exact hh
              · omega
            · exact fun hh => Or.inl hh
        · rw [if_neg hc, h4 q]
          have hq := q.isLt
          by_cases hlt : q.val + 2 < (fallPositions pre).length
          · rw [referenceBit_concat_of_lt thr pre false q.val hlt]
          · rw [referenceBit_of_le thr pre q.val (by omega)]
            by_cases heq : q.val + 2 = (fallPositions pre).length
            · rw [referenceBit_concat_fall thr pre q.val hl heq, ← hcount]
              have hnc : ¬ st.count > thr := fun hgt => hc ⟨by omega, by omega, hgt⟩
              simp [hnc]
            · rw [referenceBit_concat_fall_of_gt thr pre q.val hl (by omega)]
    | true =>
      have hprev : st.prev = false := by
        cases hpv : st.prev
        · rfl
        · exact absurd hpv.symm hb
      have hl : lastLevel pre = false := by rw [← h1]; exact hprev
      have hnf : (lastLevel pre && !true) = false := by rw [hl]; rfl
      have hf : fallPositions (pre ++ [true]) = fallPositions pre := by
        rw [fallPositions_concat, hnf]; simp
      rw [decodeBit_rise thr st hprev]
      refine ⟨?_, ?_, ?_, ?_⟩
      · rw [lastLevel_concat]
      · intro _
        rw [highRun_concat, if_pos rfl, highRun_of_lastLevel_false pre hl]
        rfl
      · simp only [referencePair, hf]
        exact h3
      · intro q
        rw [referenceBit_concat_of_not_fall thr pre true q.val hnf]
        exact h4 q

theorem decodeInvariant_foldl (thr : Int) (bytes0 : Bytes) (l pre : List Bool)
    (st : DecodeState) (h : DecodeInvariant thr bytes0 pre st) :
    DecodeInvariant thr bytes0 (pre ++ l) (l.foldl (decodeBit thr) st) := by
  induction l generalizing pre st with
  | nil => simpa using h
  | cons b l ih =>
    rw [List.foldl_cons]
    have := ih (pre ++ [b]) (decodeBit thr st b) (decodeInvariant_step thr bytes0 pre st b h)
    rwa [List.append_assoc, List.singleton_append] at this

theorem getElem?_flatMap_of_length {α β : Type} (f : α → List β) (n : Nat)
    (hf : ∀ a, (f a).length = n) (l : List α) (i k : Nat) (hk : k < n) :
    (l.flatMap f)[n * i + k]? = (l[i]?).bind (fun a => (f a)[k]?) := by
  induction l generalizing i with
  | nil => simp
  | cons a l ih =>
    rw [List.flatMap_cons]
    cases i with
    | zero =>
      rw [Nat.mul_zero, Nat.zero_add, List.getElem?_append_left (by rw [hf]; exact hk)]
      simp
    | succ j =>
      have hle : (f a).length ≤ n * (j + 1) + k := by rw [hf, Nat.mul_succ]; omega
      have hsub : n * (j + 1) + k - (f a).length = n * j + k := by
        rw [hf, Nat.mul_succ]; omega
      rw [List.getElem?_append_right hle, hsub, ih]
      simp

theorem getElem?_bitOrder_map (value : Fin 65536) (k : Nat) (hk : k < 16) :
    (bitOrder.map (bitValue value))[k]? = some (value.val.testBit (15 - k)) := by
  have hb : bitOrder[k]? = some (15 - k) := by
    unfold bitOrder
    interval_cases k <;> rfl
  rw [List.getElem?_map, hb, Option.map_some', bitValue_eq_testBit]

theorem getElem?_referenceStream (sampleBuffer : SampleBuffer) (i k : Nat) (hk : k < 16) :
    (referenceStream sampleBuffer)[16 * i + k]?
      = if h : i < NUM_SAMPLES then some ((sampleBuffer ⟨i, h⟩).val.testBit (15 - k))
        else none := by
  have hdiv : (16 * i + k) / 16 = i := by omega
  have hmod : (16 * i + k) % 16 = k := by omega
  unfold referenceStream
  rw [List.getElem?_ofFn, List.ofFnNthVal]
  by_cases h : i < NUM_SAMPLES
  · have h2 : 16 * i + k < 16 * NUM_SAMPLES := by unfold NUM_SAMPLES at h ⊢; omega
    rw [dif_pos h2, dif_pos h]
    simp only [hdiv, hmod]
  · have h2 : ¬ 16 * i + k < 16 * NUM_SAMPLES := by unfold NUM_SAMPLES at h ⊢; omega
    rw [dif_neg h2, dif_neg h]

/-- The stream processed by the nested loops of the code is the stream of the reference. -/
theorem bufferBits_eq_referenceStream (sampleBuffer : SampleBuffer) :
    bufferBits sampleBuffer = referenceStream sampleBuffer := by
  apply List.ext_getElem?
  intro p
  have hk : p % 16 < 16 := Nat.mod_lt _ (by decide)
  rw [← Nat.div_add_mod p 16, getElem?_referenceStream sampleBuffer _ _ hk]
  unfold bufferBits
  rw [getElem?_flatMap_of_length _ 16 (fun a => by simp [bitOrder]) _ _ _ hk]
  by_cases h : p / 16 < NUM_SAMPLES
  · rw [dif_pos h, List.getElem?_eq_getElem (by simpa using h), List.getElem_finRange]
    simp only [Option.some_bind]
    exact getElem?_bitOrder_map _ _ hk
  · rw [dif_neg h, List.getElem?_eq_none (by simpa using h)]
    rfl

theorem length_referenceStream (sampleBuffer : SampleBuffer) :
    (referenceStream sampleBuffer).length = 2880 := by
  unfold referenceStream
  rw [List.length_ofFn]
  norm_num [NUM_SAMPLES]

theorem decodeSamples_invariant (thr : Int) (sampleBuffer : SampleBuffer) (bytes0 : Bytes) :
    DecodeInvariant thr bytes0 (referenceStream sampleBuffer)
      (decodeSamples thr sampleBuffer bytes0) := by
  rw [decodeSamples_eq_foldl, bufferBits_eq_referenceStream]
  have := decodeInvariant_foldl thr bytes0 (referenceStream sampleBuffer) [] _
    (decodeInvariant_init thr bytes0)
  rwa [List.nil_append] at this

theorem bitOf_zero (q : Fin 40) : bitOf (fun _ => 0) q = false := by
  simp [bitOf]

/-- C18. The decode loop of `DHT22Gen3::loop()`, started on the zeroed bytes as the code
does after its `memset`, equals the run-length reference on the 2880-bit stream of the
buffer (words most significant bit first, a virtual high level before the stream): the
final `pair` is the number of positions where a low bit follows a high level minus 2, and
output bit `i` (bit `7 - i % 8` of byte `i / 8`) is 1 exactly when the `(i+3)`-th
high-to-low transition exists and the high run just before it is strictly longer than
`oneBitThreshold`.  The stream has no word boundaries, so runs carry over them. -/
theorem decodeSamples_eq_reference (oneBitThreshold : Int) (sampleBuffer : SampleBuffer) :
    (referenceStream sampleBuffer).length = 2880 ∧
    (decodeSamples oneBitThreshold sampleBuffer (fun _ => 0)).pair
      = referencePair (referenceStream sampleBuffer) ∧
    ∀ i : Fin 40,
      bitOf (decodeSamples oneBitThreshold sampleBuffer (fun _ => 0)).bytes i
        = referenceBit oneBitThreshold (referenceStream sampleBuffer) i.val := by
  obtain ⟨-, -, h3, h4⟩ := decodeSamples_invariant oneBitThreshold sampleBuffer (fun _ => 0)
  refine ⟨length_referenceStream sampleBuffer, h3, fun i => ?_⟩
  have h := h4 i
  rw [bitOf_zero] at h
  simp only [Bool.false_eq_true, false_or] at h
  exact Bool.eq_iff_iff.mpr h

/-- The reference on a short stream: three transitions, at positions 1, 4 and 7; the high
run before the third has length 1, which is a 1 for threshold 0 and a 0 for threshold 1. -/
theorem reference_example :
    fallPositions [true, false, true, true, false, false, true, false] = [1, 4, 7] ∧
    highRunBefore [true, false, true, true, false, false, true, false] 4 = 2 ∧
    referencePair [true, false, true, true, false, false, true, false] = 1 ∧
    referenceBit 0 [true, false, true, true, false, false, true, false] 0 = true ∧
    referenceBit 1 [true, false, true, true, false, false, true, false] 0 = false ∧
    referenceBit 0 [true, false, true, true, false, false, true, false] 1 = false := by
  decide

/-! ## An accepted request -/

/-- C23. On an object in `IDLE_STATE`, `getSample` stores the pin, the completion and the
sensor type, sets `result.tries` to 0 and `result.sensorType` to the given type and goes to
`START_STATE`; it invokes nothing and leaves every other member as it was, among them
`result.sampleResult`, `result.bytes`, `lastRequestTime`, `stateTime` and `maxTries`.
`getLastResult()` on the new state still reports the previous status and bytes. -/
theorem getSample_accepted (m : DHT22Gen3) (hidle : m.state = State.IDLE_STATE) (dhtPin : Pin)
    (completion : Option CompletionId) (sensorType : DHTSensorType) :
    DHT22Gen3.getSample m dhtPin completion sensorType
      = ({ unusedPin1 := m.unusedPin1, unusedPin2 := m.unusedPin2, dhtPin := dhtPin,
           sensorType := sensorType, lastRequestTime := m.lastRequestTime,
           stateTime := m.stateTime, maxTries := m.maxTries, state := State.START_STATE,
           result :=
             { sampleResult := m.result.sampleResult, sensorType := some sensorType,
               bytes := m.result.bytes, tries := 0 },
           completion := completion, buffersRequested := m.buffersRequested }, []) ∧
    completions (DHT22Gen3.getSample m dhtPin completion sensorType).2 = [] ∧
    (DHT22Gen3.getSample m dhtPin completion sensorType).1.getLastResult.sampleResult
      = m.getLastResult.sampleResult ∧
    (DHT22Gen3.getSample m dhtPin completion sensorType).1.getLastResult.bytes
      = m.getLastResult.bytes ∧
    (DHT22Gen3.getSample m dhtPin completion sensorType).1.getLastResult.tries = 0 ∧
    (DHT22Gen3.getSample m dhtPin completion sensorType).1.getLastResult.sensorType
      = some sensorType := by
  have h : DHT22Gen3.getSample m dhtPin completion sensorType
      = ({ unusedPin1 := m.unusedPin1, unusedPin2 := m.unusedPin2, dhtPin := dhtPin,
           sensorType := sensorType, lastRequestTime := m.lastRequestTime,
           stateTime := m.stateTime, maxTries := m.maxTries, state := State.START_STATE,
           result :=
             { sampleResult := m.result.sampleResult, sensorType := some sensorType,
               bytes := m.result.bytes, tries := 0 },
           completion := completion, buffersRequested := m.buffersRequested }, []) := by
    simp [DHT22Gen3.getSample, hidle]
  refine ⟨h, ?_, ?_, ?_, ?_, ?_⟩ <;> rw [h] <;> rfl

/-- Witness for C23: a DHT11 request on pin 17 after a DHT22 request was answered with
`SUCCESS`. -/
theorem getSample_accepted_witness :
    idleAfterSuccess.state = State.IDLE_STATE ∧
    (DHT22Gen3.getSample idleAfterSuccess 17 (some 8) sensorTypeDHT11
      = ({ unusedPin1 := idleAfterSuccess.unusedPin1, unusedPin2 := idleAfterSuccess.unusedPin2,
           dhtPin := 17, sensorType := sensorTypeDHT11,
           lastRequestTime := idleAfterSuccess.lastRequestTime,
           stateTime := idleAfterSuccess.stateTime, maxTries := idleAfterSuccess.maxTries,
           state := State.START_STATE,
           result :=
             { sampleResult := idleAfterSuccess.result.sampleResult,
               sensorType := some sensorTypeDHT11,
               bytes := idleAfterSuccess.result.bytes, tries := 0 },
           completion := some 8, buffersRequested := idleAfterSuccess.buffersRequested }, []) ∧
    completions (DHT22Gen3.getSample idleAfterSuccess 17 (some 8) sensorTypeDHT11).2 = [] ∧
    (DHT22Gen3.getSample idleAfterSuccess 17 (some 8) sensorTypeDHT11).1.getLastResult.sampleResult
      = idleAfterSuccess.getLastResult.sampleResult ∧
    (DHT22Gen3.getSample idleAfterSuccess 17 (some 8) sensorTypeDHT11).1.getLastResult.bytes
      = idleAfterSuccess.getLastResult.bytes ∧
    (DHT22Gen3.getSample idleAfterSuccess 17 (some 8) sensorTypeDHT11).1.getLastResult.tries = 0 ∧
    (DHT22Gen3.getSample idleAfterSuccess 17 (some 8) sensorTypeDHT11).1.getLastResult.sensorType
      = some sensorTypeDHT11) :=
  ⟨rfl, getSample_accepted idleAfterSuccess rfl 17 (some 8) sensorTypeDHT11⟩

/-! ## The decoded bytes and the bytes of earlier frames -/

theorem decodeAndFinish_bytes (m : DHT22Gen3) (sampleBuffer : SampleBuffer) (now0 now1 : U32) :
    (m.decodeAndFinish sampleBuffer now0 now1).1.result.bytes
      = (decodeSamples m.sensorType.oneBitThreshold sampleBuffer (fun _ => 0)).bytes := by
  simp only [DHT22Gen3.decodeAndFinish, DHT22Gen3.retryOrGiveUp, DHT22Gen3.callCompletion]
  split_ifs <;> rfl

theorem decodeAndFinish_completion_bytes (m : DHT22Gen3) (sampleBuffer : SampleBuffer)
    (now0 now1 : U32) (c : CompletionId) (s : DHTSample)
    (hmem : Effect.completion c s ∈ (m.decodeAndFinish sampleBuffer now0 now1).2) :
    s.bytes = (decodeSamples m.sensorType.oneBitThreshold sampleBuffer (fun _ => 0)).bytes := by
  simp only [DHT22Gen3.decodeAndFinish, DHT22Gen3.retryOrGiveUp, DHT22Gen3.callCompletion]
    at hmem
  cases hcm : m.completion <;>
    split_ifs at hmem <;>
    simp [DHT22Gen3.invoke, hcm] at hmem
  all_goals (obtain ⟨-, rfl⟩ := hmem; rfl)

/-- C21. For two objects in `SAMPLING_STATE` with a completed capture, the same capture
buffer and the same `oneBitThreshold`, whatever bytes an earlier frame left in `result` and
whatever the other members and clock values are, `loop()` leaves the same bytes in `result`:
the bytes the decode loop yields on zeroed bytes.  A sample handed to a completion by these
calls carries these bytes too. -/
theorem loop_bytes_depend_on_capture (hal1 hal2 : Hal) (m1 m2 : DHT22Gen3)
    (hstate1 : m1.state = State.SAMPLING_STATE) (hstate2 : m2.state = State.SAMPLING_STATE)
    (hdone1 : 2 ≤ m1.buffersRequested) (hdone2 : 2 ≤ m2.buffersRequested)
    (hbuf : hal1.sampleBuffer = hal2.sampleBuffer)
    (hthr : m1.sensorType.oneBitThreshold = m2.sensorType.oneBitThreshold) :
    (DHT22Gen3.loop hal1 m1).1.result.bytes = (DHT22Gen3.loop hal2 m2).1.result.bytes ∧
    (DHT22Gen3.loop hal1 m1).1.result.bytes
      = (decodeSamples m1.sensorType.oneBitThreshold hal1.sampleBuffer (fun _ => 0)).bytes ∧
    (∀ c1 s1 c2 s2, Effect.completion c1 s1 ∈ (DHT22Gen3.loop hal1 m1).2 →
      Effect.completion c2 s2 ∈ (DHT22Gen3.loop hal2 m2).2 → s1.bytes = s2.bytes) := by
  have e1 : (DHT22Gen3.loop hal1 m1).1.result.bytes
      = (decodeSamples m1.sensorType.oneBitThreshold hal1.sampleBuffer (fun _ => 0)).bytes := by
    rw [loop_sampling_complete hal1 m1 hstate1 hdone1]
    exact decodeAndFinish_bytes m1 _ _ _
  have e2 : (DHT22Gen3.loop hal2 m2).1.result.bytes
      = (decodeSamples m2.sensorType.oneBitThreshold hal2.sampleBuffer (fun _ => 0)).bytes := by
    rw [loop_sampling_complete hal2 m2 hstate2 hdone2]
    exact decodeAndFinish_bytes m2 _ _ _
  refine ⟨?_, e1, ?_⟩
  · rw [e1, e2, hbuf, hthr]
  · intro c1 s1 c2 s2 h1 h2
    rw [loop_sampling_complete hal1 m1 hstate1 hdone1] at h1
    rw [loop_sampling_complete hal2 m2 hstate2 hdone2] at h2
    rw [List.mem_cons] at h1 h2
    have h1 := h1.resolve_left (fun h => Effect.noConfusion h)
    have h2 := h2.resolve_left (fun h => Effect.noConfusion h)
    rw [decodeAndFinish_completion_bytes m1 _ _ _ c1 s1 h1,
      decodeAndFinish_completion_bytes m2 _ _ _ c2 s2 h2, hbuf, hthr]

/-- Witness for C21: the same capture of a valid frame decoded by an object whose `result`
holds zero bytes and by one whose `result` holds `FF FF FF FF FF`, at different times. -/
theorem loop_bytes_depend_on_capture_witness :
    (samplingDht.state = State.SAMPLING_STATE ∧
      staleSamplingDht.state = State.SAMPLING_STATE ∧
      2 ≤ samplingDht.buffersRequested ∧ 2 ≤ staleSamplingDht.buffersRequested ∧
      (halAt ⟨124, by decide⟩ goodFrame).sampleBuffer
        = (halAt ⟨130, by decide⟩ goodFrame).sampleBuffer ∧
      samplingDht.sensorType.oneBitThreshold = staleSamplingDht.sensorType.oneBitThreshold ∧
      samplingDht.result.bytes 0 ≠ staleSamplingDht.result.bytes 0) ∧
    ((DHT22Gen3.loop (halAt ⟨124, by decide⟩ goodFrame) samplingDht).1.result.bytes
        = (DHT22Gen3.loop (halAt ⟨130, by decide⟩ goodFrame) staleSamplingDht).1.result.bytes ∧
      (DHT22Gen3.loop (halAt ⟨124, by decide⟩ goodFrame) samplingDht).1.result.bytes
        = (decodeSamples samplingDht.sensorType.oneBitThreshold
            (halAt ⟨124, by decide⟩ goodFrame).sampleBuffer (fun _ => 0)).bytes ∧
      (∀ c1 s1 c2 s2,
        Effect.completion c1 s1
            ∈ (DHT22Gen3.loop (halAt ⟨124, by decide⟩ goodFrame) samplingDht).2 →
        Effect.completion c2 s2
            ∈ (DHT22Gen3.loop (halAt ⟨130, by decide⟩ goodFrame) staleSamplingDht).2 →
        s1.bytes = s2.bytes)) :=
  ⟨⟨by decide, by decide, by decide, by decide, rfl, by decide, by decide⟩,
   loop_bytes_depend_on_capture (halAt ⟨124, by decide⟩ goodFrame)
     (halAt ⟨130, by decide⟩ goodFrame) samplingDht staleSamplingDht
     (by decide) (by decide) (by decide) (by decide) rfl (by decide)⟩

/-! ## The decoder is total and writes in bounds -/

theorem foldl_decodeWordTraced_eq (thr : Int) (sampleBuffer : SampleBuffer)
    (l : List (Fin NUM_SAMPLES)) (t : DecodeTrace) :
    l.foldl (fun t ii => decodeWordTraced thr t (sampleBuffer ii)) t
      = (l.flatMap (fun ii => bitOrder.map (bitValue (sampleBuffer ii)))).foldl
          (decodeBitTraced thr) t := by
  induction l generalizing t with
  | nil => rfl
  | cons ii l ih =>
    rw [List.foldl_cons, List.flatMap_cons, List.foldl_append, ih, List.foldl_map]
    rfl

theorem decodeSamplesTraced_eq_foldl (thr : Int) (sampleBuffer : SampleBuffer) (bytes : Bytes) :
    decodeSamplesTraced thr sampleBuffer bytes
      = (bufferBits sampleBuffer).foldl (decodeBitTraced thr)
          { st := { prev := true, count := 0, pair := -2, bytes := bytes },
            writes := [], steps := 0 } := by
  unfold decodeSamplesTraced bufferBits
  exact foldl_decodeWordTraced_eq thr sampleBuffer _ _

theorem foldl_decodeBitTraced_st (thr : Int) (l : List Bool) (t : DecodeTrace) :
    (l.foldl (decodeBitTraced thr) t).st = l.foldl (decodeBit thr) t.st := by
  induction l generalizing t with
  | nil => rfl
  | cons b l ih => rw [List.foldl_cons, List.foldl_cons, ih]; rfl

theorem foldl_decodeBitTraced_steps (thr : Int) (l : List Bool) (t : DecodeTrace) :
    (l.foldl (decodeBitTraced thr) t).steps = t.steps + l.length := by
  induction l generalizing t with
  | nil => rfl
  | cons b l ih =>
    rw [List.foldl_cons, ih, List.length_cons]
    simp only [decodeBitTraced]
    omega

theorem decodeBit_bytes_eq_apply (thr : Int) (st : DecodeState) (bv : Bool) :
    (decodeBit thr st bv).bytes = (decodeBitWrites thr st bv).foldl ByteWrite.apply st.bytes := by
  by_cases hb : bv = st.prev
  · subst hb
    rw [decodeBit_same]
    simp [decodeBitWrites]
  · cases bv with
    | false =>
      have hprev : st.prev = true := by
        cases hpv : st.prev
        · exact absurd hpv.symm hb
        · rfl
      rw [decodeBit_fall thr st hprev]
      unfold closedBytes decodeBitWrites
      by_cases hr : 0 ≤ st.pair ∧ st.pair < 40
      · by_cases hc : st.count > thr
        · simp [hprev, hr, hc, ByteWrite.apply]
        · simp [hprev, hr, hc]
      · have hr2 : ¬ (0 ≤ st.pair ∧ st.pair < 40 ∧ st.count > thr) :=
          fun hh => hr ⟨hh.1, hh.2.1⟩
        simp [hprev, hr, hr2]
    | true =>
      have hprev : st.prev = false := by
        cases hpv : st.prev
        · rfl
        · exact absurd hpv.symm hb
      rw [decodeBit_rise thr st hprev]
      simp [decodeBitWrites, hprev]

theorem foldl_decodeBitTraced_bytes (thr : Int) (bytes0 : Bytes) (l : List Bool)
    (t : DecodeTrace) (h : t.st.bytes = t.writes.foldl ByteWrite.apply bytes0) :
    (l.foldl (decodeBitTraced thr) t).st.bytes
      = (l.foldl (decodeBitTraced thr) t).writes.foldl ByteWrite.apply bytes0 := by
  induction l generalizing t with
  | nil => exact h
  | cons b l ih =>
    rw [List.foldl_cons]
    apply ih
    simp only [decodeBitTraced]
    rw [List.foldl_append, ← h]
    exact decodeBit_bytes_eq_apply thr t.st b

theorem decodeBitWrites_in_bounds (thr : Int) (st : DecodeState) (bv : Bool) (w : ByteWrite)
    (hw : w ∈ decodeBitWrites thr st bv) :
    w.pair = st.pair ∧ 0 ≤ w.pair ∧ w.pair < 40 ∧
    w.byteIndex = w.pair / 8 ∧ 0 ≤ w.byteIndex ∧ w.byteIndex ≤ 4 ∧
    w.bitIndex = w.pair % 8 ∧ 0 ≤ 7 - w.bitIndex ∧ 7 - w.bitIndex ≤ 7 := by
  unfold decodeBitWrites at hw
  by_cases hb : bv = st.prev
  · rw [if_pos hb] at hw
    exact absurd hw (List.not_mem_nil _)
  · rw [if_neg hb] at hw
    by_cases hp : st.prev = true
    · rw [if_pos hp] at hw
      by_cases hr : 0 ≤ st.pair ∧ st.pair < 40
      · rw [if_pos hr] at hw
        by_cases hc : decide (st.count > thr) = true
        · rw [if_pos hc, List.mem_singleton] at hw
          obtain ⟨hr0, hr40⟩ := hr
          have h1 : w.pair = st.pair := by rw [hw]
          have h2 : w.byteIndex = Int.tdiv st.pair 8 := by rw [hw]
          have h3 : w.bitIndex = Int.tmod st.pair 8 := by rw [hw]
          rw [Int.tdiv_eq_ediv hr0 (by omega)] at h2
          rw [Int.tmod_eq_emod hr0 (by omega)] at h3
          rw [h1, h2, h3]
          omega
        · rw [if_neg hc] at hw
          exact absurd hw (List.not_mem_nil _)
      · rw [if_neg hr] at hw
        exact absurd hw (List.not_mem_nil _)
    · rw [if_neg hp] at hw
      exact absurd hw (List.not_mem_nil _)

theorem foldl_decodeBitTraced_writes (thr : Int) (P : ByteWrite → Prop)
    (hP : ∀ st bv w, w ∈ decodeBitWrites thr st bv → P w) (l : List Bool) (t : DecodeTrace)
    (h : ∀ w ∈ t.writes, P w) :
    ∀ w ∈ (l.foldl (decodeBitTraced thr) t).writes, P w := by
  induction l generalizing t with
  | nil => exact h
  | cons b l ih =>
    rw [List.foldl_cons]
    apply ih
    intro w hw
    simp only [decodeBitTraced, List.mem_append] at hw
    rcases hw with hw | hw
    · exact h w hw
    · exact hP t.st b w hw

theorem decodeBit_of_pair_ge (thr : Int) (st : DecodeState) (bv : Bool) (h : 40 ≤ st.pair) :
    decodeBitWrites thr st bv = [] ∧ (decodeBit thr st bv).bytes = st.bytes ∧
    st.pair ≤ (decodeBit thr st bv).pair ∧
    (st.prev = true → bv = false → (decodeBit thr st bv).pair = st.pair + 1) := by
  have hw : decodeBitWrites thr st bv = [] := by
    rw [List.eq_nil_iff_forall_not_mem]
    intro w hmem
    have := decodeBitWrites_in_bounds thr st bv w hmem
    omega
  refine ⟨hw, ?_, ?_, ?_⟩
  · rw [decodeBit_bytes_eq_apply, hw]
    rfl
  · by_cases hb : bv = st.prev
    · subst hb
      rw [decodeBit_same]
    · cases bv with
      | false =>
        have hprev : st.prev = true := by
          cases hpv : st.prev
          · exact absurd hpv.symm hb
          · rfl
        rw [decodeBit_fall thr st hprev]
        simp only []
        omega
      | true =>
        have hprev : st.prev = false := by
          cases hpv : st.prev
          · rfl
          · exact absurd hpv.symm hb
        rw [decodeBit_rise thr st hprev]
  · intro hprev hbv
    rw [hbv, decodeBit_fall thr st hprev]

theorem foldl_decodeBit_of_pair_ge (thr : Int) (l : List Bool) (st : DecodeState)
    (h : 40 ≤ st.pair) : (l.foldl (decodeBit thr) st).bytes = st.bytes := by
  induction l generalizing st with
  | nil => rfl
  | cons b l ih =>
    have hstep := decodeBit_of_pair_ge thr st b h
    rw [List.foldl_cons, ih (decodeBit thr st b) (le_trans h hstep.2.2.1), hstep.2.1]

theorem fallPositions_length_le (bits : List Bool) :
    (fallPositions bits).length ≤ bits.length := by
  unfold fallPositions
  exact le_trans (List.length_filter_le _ _) (le_of_eq (List.length_range _))

theorem length_bufferBits (sampleBuffer : SampleBuffer) :
    (bufferBits sampleBuffer).length = 2880 := by
  rw [bufferBits_eq_referenceStream, length_referenceStream]

/-- C22. The decode loop, observed, is the decode loop: it executes the body of the inner
loop exactly 2880 times for every buffer, threshold and initial bytes.  Every write to
`result.bytes` it executes happens with `0 <= pair < 40`, at byte index `pair / 8`, which is
in `0 .. 4`, with the shift `7 - pair % 8`, which is in `0 .. 7`, and the final bytes are the
initial bytes with these writes applied.  The final `pair` is between -2 and 2878.  With
`pair >= 40` a step writes nothing and keeps the bytes while a high-to-low transition still
adds 1 to `pair`; so once a part of the stream holds 42 transitions, the bytes after that
part are the final bytes, and `pair` still counts every transition of the stream. -/
theorem decodeSamples_total_in_bounds (oneBitThreshold : Int) (sampleBuffer : SampleBuffer)
    (bytes : Bytes) :
    (decodeSamplesTraced oneBitThreshold sampleBuffer bytes).st
      = decodeSamples oneBitThreshold sampleBuffer bytes ∧
    (decodeSamplesTraced oneBitThreshold sampleBuffer bytes).steps = 2880 ∧
    (∀ w ∈ (decodeSamplesTraced oneBitThreshold sampleBuffer bytes).writes,
      0 ≤ w.pair ∧ w.pair < 40 ∧
      w.byteIndex = w.pair / 8 ∧ 0 ≤ w.byteIndex ∧ w.byteIndex ≤ 4 ∧
      w.bitIndex = w.pair % 8 ∧ 0 ≤ 7 - w.bitIndex ∧ 7 - w.bitIndex ≤ 7) ∧
    (decodeSamples oneBitThreshold sampleBuffer bytes).bytes
      = (decodeSamplesTraced oneBitThreshold sampleBuffer bytes).writes.foldl
          ByteWrite.apply bytes ∧
    (-2 ≤ (decodeSamples oneBitThreshold sampleBuffer bytes).pair ∧
      (decodeSamples oneBitThreshold sampleBuffer bytes).pair ≤ 2878) ∧
    (∀ (st : DecodeState) (bv : Bool), 40 ≤ st.pair →
      decodeBitWrites oneBitThreshold st bv = [] ∧
      (decodeBit oneBitThreshold st bv).bytes = st.bytes ∧
      st.pair ≤ (decodeBit oneBitThreshold st bv).pair ∧
      (st.prev = true → bv = false →
        (decodeBit oneBitThreshold st bv).pair = st.pair + 1)) ∧
    (∀ pre post : List Bool, bufferBits sampleBuffer = pre ++ post →
      42 ≤ (fallPositions pre).length →
      (decodeSamples oneBitThreshold sampleBuffer bytes).bytes
        = (pre.foldl (decodeBit oneBitThreshold)
            { prev := true, count := 0, pair := -2, bytes := bytes }).bytes ∧
      (decodeSamples oneBitThreshold sampleBuffer bytes).pair
        = ((fallPositions (pre ++ post)).length : Int) - 2) := by
  have hst : (decodeSamplesTraced oneBitThreshold sampleBuffer bytes).st
      = decodeSamples oneBitThreshold sampleBuffer bytes := by
    rw [decodeSamplesTraced_eq_foldl, foldl_decodeBitTraced_st, decodeSamples_eq_foldl]
  have hinv := decodeSamples_invariant oneBitThreshold sampleBuffer bytes
  have hpair : (decodeSamples oneBitThreshold sampleBuffer bytes).pair
      = ((fallPositions (bufferBits sampleBuffer)).length : Int) - 2 := by
    rw [bufferBits_eq_referenceStream]
    exact hinv.2.2.1
  have hlen := fallPositions_length_le (bufferBits sampleBuffer)
  rw [length_bufferBits] at hlen
  refine ⟨hst, ?_, ?_, ?_, ⟨by omega, by omega⟩,
    fun st bv h => decodeBit_of_pair_ge oneBitThreshold st bv h, ?_⟩
  · rw [decodeSamplesTraced_eq_foldl, foldl_decodeBitTraced_steps, length_bufferBits]
  · rw [decodeSamplesTraced_eq_foldl]
    apply foldl_decodeBitTraced_writes oneBitThreshold _
      (fun st bv w hw => (decodeBitWrites_in_bounds oneBitThreshold st bv w hw).2)
    intro w hw
    exact absurd hw (List.not_mem_nil _)
  · rw [← hst, decodeSamplesTraced_eq_foldl]
    exact foldl_decodeBitTraced_bytes oneBitThreshold bytes _ _ rfl
  · intro pre post hsplit h42
    refine ⟨?_, by rw [← hsplit]; exact hpair⟩
    have hpre := decodeInvariant_foldl oneBitThreshold bytes pre []
      { prev := true, count := 0, pair := -2, bytes := bytes }
      (decodeInvariant_init oneBitThreshold bytes)
    rw [List.nil_append] at hpre
    have hp := hpre.2.2.1
    rw [referencePair] at hp
    rw [decodeSamples_eq_foldl, hsplit, List.foldl_append]
    exact foldl_decodeBit_of_pair_ge oneBitThreshold post _ (by omega)

/-- The observed loop body on a short stream: with threshold 25, a high run of 30 closed at
`pair = 9` writes bit 6 of byte 1, a high run of 2 closed at `pair = 10` writes nothing, and a
high run of 30 closed at `pair = 40` writes nothing. -/
theorem decodeBitTraced_example :
    ([false, true, true, false].foldl (decodeBitTraced 25)
        { st := { prev := true, count := 30, pair := 9, bytes := fun _ => 0 },
          writes := [], steps := 0 }).writes
      = [{ pair := 9, byteIndex := 1, bitIndex := 1 }] ∧
    ([false, true, true, false].foldl (decodeBitTraced 25)
        { st := { prev := true, count := 30, pair := 9, bytes := fun _ => 0 },
          writes := [], steps := 0 }).steps = 4 ∧
    ([false, true, true, false].foldl (decodeBitTraced 25)
        { st := { prev := true, count := 30, pair := 9, bytes := fun _ => 0 },
          writes := [], steps := 0 }).st.bytes = ![0, 0x40, 0, 0, 0] ∧
    ([false].foldl (decodeBitTraced 25)
        { st := { prev := true, count := 30, pair := 40, bytes := fun _ => 0 },
          writes := [], steps := 0 }).writes = [] ∧
    ([false].foldl (decodeBitTraced 25)
        { st := { prev := true, count := 30, pair := 40, bytes := fun _ => 0 },
          writes := [], steps := 0 }).st.pair = 41 := by
  decide

end DHT22Gen3RK
